import Mathlib

/-!
# GO-Task: the `/hello-world` endpoint

A shallow embedding of `main.go` (the predicate `isFirstHalfAlphabet` and the
handler `helloWorldHandler`) together with the parts of the Go standard
library that decide their behaviour: `unicode/utf8` (rune decoding),
`unicode` (letter, space and case tables), `strings` (`TrimSpace`) and
`encoding/json` (the coercion of strings to valid UTF-8).

Conventions of the embedding:
* a Go `string` is a list of bytes (`GoString`), not necessarily valid UTF-8;
* a `rune` is a natural number, of type `Nat` (the decoder never produces a negative
  rune);
* loops are recursive functions; a loop whose index moves by a computed
  amount carries a fuel argument, started at a value that bounds the number
  of iterations (the length of the string);
* an index result that Go reports as `-1` ("not found") is `none`;
* a response body is recorded as the values that a JSON decoder reads back from the
  bytes written: an escape sequence stands for the character it denotes, and a byte
  that is not part of a valid UTF-8 encoding has become U+FFFD.
-/

namespace GoTask

/-- A byte of a Go string. -/
abbrev Byte := Fin 256

/-- A Go `string`: an arbitrary sequence of bytes. -/
abbrev GoString := List Byte

/-- The byte `s[i]` as a number; every use is guarded by a length check, as in Go. -/
def byteAt (s : GoString) (i : Nat) : Nat := (s.getD i 0).val

/-- The slice `s[lo:hi]`. -/
def slice (s : GoString) (lo hi : Nat) : GoString := (s.take hi).drop lo

/-- A string constant of the source, given by its (ASCII) text. -/
def ascii (s : String) : GoString := s.toList.map fun c => Fin.ofNat c.toNat

/-! ## Package `unicode/utf8` -/

namespace utf8

def RuneError : Nat := 0xFFFD
def RuneSelf : Nat := 0x80
def MaxRune : Nat := 0x10FFFF
def UTFMax : Nat := 4

def surrogateMin : Nat := 0xD800
def surrogateMax : Nat := 0xDFFF

def t1 : Nat := 0x00
def tx : Nat := 0x80
def t2 : Nat := 0xC0
def t3 : Nat := 0xE0
def t4 : Nat := 0xF0
def t5 : Nat := 0xF8

def maskx : Nat := 0x3F
def mask2 : Nat := 0x1F
def mask3 : Nat := 0x0F
def mask4 : Nat := 0x07

def rune1Max : Nat := 0x7F
def rune2Max : Nat := 0x7FF
def rune3Max : Nat := 0xFFFF

def locb : Nat := 0x80
def hicb : Nat := 0xBF

def xx : Nat := 0xF1
def as : Nat := 0xF0
def s1 : Nat := 0x02
def s2 : Nat := 0x13
def s3 : Nat := 0x03
def s4 : Nat := 0x23
def s5 : Nat := 0x34
def s6 : Nat := 0x04
def s7 : Nat := 0x44

/-- The table `first`: information about the first byte of a UTF-8 sequence. -/
def first : List Nat := [
  --   1   2   3   4   5   6   7   8   9   A   B   C   D   E   F
  as, as, as, as, as, as, as, as, as, as, as, as, as, as, as, as, -- 0x00-0x0F
  as, as, as, as, as, as, as, as, as, as, as, as, as, as, as, as, -- 0x10-0x1F
  as, as, as, as, as, as, as, as, as, as, as, as, as, as, as, as, -- 0x20-0x2F
  as, as, as, as, as, as, as, as, as, as, as, as, as, as, as, as, -- 0x30-0x3F
  as, as, as, as, as, as, as, as, as, as, as, as, as, as, as, as, -- 0x40-0x4F
  as, as, as, as, as, as, as, as, as, as, as, as, as, as, as, as, -- 0x50-0x5F
  as, as, as, as, as, as, as, as, as, as, as, as, as, as, as, as, -- 0x60-0x6F
  as, as, as, as, as, as, as, as, as, as, as, as, as, as, as, as, -- 0x70-0x7F
  --   1   2   3   4   5   6   7   8   9   A   B   C   D   E   F
  xx, xx, xx, xx, xx, xx, xx, xx, xx, xx, xx, xx, xx, xx, xx, xx, -- 0x80-0x8F
  xx, xx, xx, xx, xx, xx, xx, xx, xx, xx, xx, xx, xx, xx, xx, xx, -- 0x90-0x9F
  xx, xx, xx, xx, xx, xx, xx, xx, xx, xx, xx, xx, xx, xx, xx, xx, -- 0xA0-0xAF
  xx, xx, xx, xx, xx, xx, xx, xx, xx, xx, xx, xx, xx, xx, xx, xx, -- 0xB0-0xBF
  xx, xx, s1, s1, s1, s1, s1, s1, s1, s1, s1, s1, s1, s1, s1, s1, -- 0xC0-0xCF
  s1, s1, s1, s1, s1, s1, s1, s1, s1, s1, s1, s1, s1, s1, s1, s1, -- 0xD0-0xDF
  s2, s3, s3, s3, s3, s3, s3, s3, s3, s3, s3, s3, s3, s4, s3, s3, -- 0xE0-0xEF
  s5, s6, s6, s6, s7, xx, xx, xx, xx, xx, xx, xx, xx, xx, xx, xx] -- 0xF0-0xFF

/-- An `acceptRange`: the range of valid values for the second byte. -/
structure acceptRange where
  lo : Nat
  hi : Nat

/-- The table `acceptRanges`. -/
def acceptRanges : List acceptRange := [
  ⟨locb, hicb⟩,
  ⟨0xA0, hicb⟩,
  ⟨locb, 0x9F⟩,
  ⟨0x90, hicb⟩,
  ⟨locb, 0x8F⟩]

/-- The expression `rune(x) << 31 >> 31` on an `int32`: all ones when the low
bit of `x` is set, zero otherwise (the shift right is arithmetic). -/
def signMask (x : Nat) : Nat :=
  if (x <<< 31) % 2 ^ 32 ≥ 2 ^ 31 then 2 ^ 32 - 1 else 0

/-- The expression `a &^ m` (and-not) on 32-bit values. -/
def andNot (a m : Nat) : Nat := a &&& (m ^^^ (2 ^ 32 - 1))

/-- The function `utf8.DecodeRuneInString`: the first rune of `s` and its width in
bytes; `(RuneError, 0)` for the empty string, `(RuneError, 1)` for an invalid
encoding. -/
def DecodeRuneInString (s : GoString) : Nat × Nat :=
  let n := s.length
  if n < 1 then (RuneError, 0) else
  let s0 := byteAt s 0
  let x := first.getD s0 xx
  if x ≥ as then
    let mask := signMask x
    (andNot s0 mask ||| (RuneError &&& mask), 1)
  else
  let sz := x &&& 7
  let accept := acceptRanges.getD (x >>> 4) ⟨locb, hicb⟩
  if n < sz then (RuneError, 1) else
  let s1 := byteAt s 1
  if s1 < accept.lo ∨ accept.hi < s1 then (RuneError, 1) else
  if sz ≤ 2 then (((s0 &&& mask2) <<< 6) ||| (s1 &&& maskx), 2) else
  let s2 := byteAt s 2
  if s2 < locb ∨ hicb < s2 then (RuneError, 1) else
  if sz ≤ 3 then (((s0 &&& mask3) <<< 12) ||| ((s1 &&& maskx) <<< 6) ||| (s2 &&& maskx), 3) else
  let s3 := byteAt s 3
  if s3 < locb ∨ hicb < s3 then (RuneError, 1) else
  (((s0 &&& mask4) <<< 18) ||| ((s1 &&& maskx) <<< 12) ||| ((s2 &&& maskx) <<< 6) ||| (s3 &&& maskx), 4)

/-- The function `utf8.RuneStart`: `b` is not a continuation byte. -/
def RuneStart (b : Nat) : Bool := b &&& 0xC0 != 0x80

/-- The loop of `DecodeLastRuneInString` that walks `start` backwards to the most
recent rune start, no further than `lim`:
`for start--; start >= lim; start-- { if RuneStart(s[start]) { break } }`
(entered after the initial `start--`). -/
def DecodeLastRuneInString.scan (s : GoString) (lim : Int) : Nat → Int → Int
  | 0, start => start
  | fuel + 1, start =>
    if start ≥ lim then
      if RuneStart (byteAt s start.toNat) then start
      else DecodeLastRuneInString.scan s lim fuel (start - 1)
    else start

/-- The function `utf8.DecodeLastRuneInString`: the last rune of `s` and its width. -/
def DecodeLastRuneInString (s : GoString) : Nat × Nat :=
  let end_ := s.length
  if end_ = 0 then (RuneError, 0) else
  let start : Int := (end_ : Int) - 1
  let r := byteAt s start.toNat
  if r < RuneSelf then (r, 1) else
  let lim : Int := (end_ : Int) - (UTFMax : Int)
  let lim := if lim < 0 then 0 else lim
  let start := DecodeLastRuneInString.scan s lim UTFMax (start - 1)
  let start := if start < 0 then 0 else start
  let (r, size) := DecodeRuneInString (slice s start.toNat end_)
  if start + (size : Int) ≠ (end_ : Int) then (RuneError, 1) else
  (r, size)

/-- The function `utf8.AppendRune` on an empty buffer: the UTF-8 encoding of `r`
(of `RuneError` when `r` is out of range or a surrogate). -/
def AppendRune (r : Nat) : GoString :=
  if r ≤ rune1Max then [Fin.ofNat r]
  else if r ≤ rune2Max then
    [Fin.ofNat (t2 ||| (r >>> 6)), Fin.ofNat (tx ||| (r &&& maskx))]
  else
    let r := if r > MaxRune ∨ (surrogateMin ≤ r ∧ r ≤ surrogateMax) then RuneError else r
    if r ≤ rune3Max then
      [Fin.ofNat (t3 ||| (r >>> 12)), Fin.ofNat (tx ||| ((r >>> 6) &&& maskx)),
        Fin.ofNat (tx ||| (r &&& maskx))]
    else
      [Fin.ofNat (t4 ||| (r >>> 18)), Fin.ofNat (tx ||| ((r >>> 12) &&& maskx)),
        Fin.ofNat (tx ||| ((r >>> 6) &&& maskx)), Fin.ofNat (tx ||| (r &&& maskx))]

end utf8

/-- The conversion `string(rs)` of a rune slice: the concatenated UTF-8 encodings. -/
def stringOfRunes (rs : List Nat) : GoString := rs.flatMap utf8.AppendRune

/-! ## Package `unicode` -/

namespace unicode

def MaxRune : Nat := 0x10FFFF
def ReplacementChar : Nat := 0xFFFD
def MaxASCII : Nat := 0x7F
def MaxLatin1 : Nat := 0xFF

def UpperCase : Nat := 0
def LowerCase : Nat := 1
def TitleCase : Nat := 2
def MaxCase : Nat := 3

/-- The marker `UpperLower` of an alternating upper/lower sequence in `CaseRanges`. -/
def UpperLower : Int := 0x10FFFF + 1

def linearMax : Nat := 18

/-- A `Range16`: the code points `Lo, Lo+Stride, ..., Hi`. -/
structure Range16 where
  Lo : Nat
  Hi : Nat
  Stride : Nat

/-- A `Range32`: as `Range16`, for code points from `0x10000`. -/
structure Range32 where
  Lo : Nat
  Hi : Nat
  Stride : Nat

/-- A `RangeTable`: a set of code points as two sorted lists of ranges. -/
structure RangeTable where
  R16 : List Range16
  R32 : List Range32
  LatinOffset : Nat

/-- A `CaseRange`: the deltas to add to a code point of `Lo..Hi` to reach its
upper, lower and title case form. -/
structure CaseRange where
  Lo : Nat
  Hi : Nat
  Delta : List Int

def pC : Nat := 1
def pP : Nat := 2
def pN : Nat := 4
def pS : Nat := 8
def pZ : Nat := 16
def pLu : Nat := 32
def pLl : Nat := 64
def pp : Nat := 128
def pg : Nat := pp ||| pZ
def pLo : Nat := pLl ||| pLu
def pLmask : Nat := pLo

/-- The table `properties`: the classes of the Latin-1 code points. -/
def properties : List Nat := [
  pC, -- 0x00
  pC, -- 0x01
  pC, -- 0x02
  pC, -- 0x03
  pC, -- 0x04
  pC, -- 0x05
  pC, -- 0x06
  pC, -- 0x07
  pC, -- 0x08
  pC, -- 0x09
  pC, -- 0x0A
  pC, -- 0x0B
  pC, -- 0x0C
  pC, -- 0x0D
  pC, -- 0x0E
  pC, -- 0x0F
  pC, -- 0x10
  pC, -- 0x11
  pC, -- 0x12
  pC, -- 0x13
  pC, -- 0x14
  pC, -- 0x15
  pC, -- 0x16
  pC, -- 0x17
  pC, -- 0x18
  pC, -- 0x19
  pC, -- 0x1A
  pC, -- 0x1B
  pC, -- 0x1C
  pC, -- 0x1D
  pC, -- 0x1E
  pC, -- 0x1F
  pZ ||| pp, -- 0x20
  pP ||| pp, -- 0x21
  pP ||| pp, -- 0x22
  pP ||| pp, -- 0x23
  pS ||| pp, -- 0x24
  pP ||| pp, -- 0x25
  pP ||| pp, -- 0x26
  pP ||| pp, -- 0x27
  pP ||| pp, -- 0x28
  pP ||| pp, -- 0x29
  pP ||| pp, -- 0x2A
  pS ||| pp, -- 0x2B
  pP ||| pp, -- 0x2C
  pP ||| pp, -- 0x2D
  pP ||| pp, -- 0x2E
  pP ||| pp, -- 0x2F
  pN ||| pp, -- 0x30
  pN ||| pp, -- 0x31
  pN ||| pp, -- 0x32
  pN ||| pp, -- 0x33
  pN ||| pp, -- 0x34
  pN ||| pp, -- 0x35
  pN ||| pp, -- 0x36
  pN ||| pp, -- 0x37
  pN ||| pp, -- 0x38
  pN ||| pp, -- 0x39
  pP ||| pp, -- 0x3A
  pP ||| pp, -- 0x3B
  pS ||| pp, -- 0x3C
  pS ||| pp, -- 0x3D
  pS ||| pp, -- 0x3E
  pP ||| pp, -- 0x3F
  pP ||| pp, -- 0x40
  pLu ||| pp, -- 0x41
  pLu ||| pp, -- 0x42
  pLu ||| pp, -- 0x43
  pLu ||| pp, -- 0x44
  pLu ||| pp, -- 0x45
  pLu ||| pp, -- 0x46
  pLu ||| pp, -- 0x47
  pLu ||| pp, -- 0x48
  pLu ||| pp, -- 0x49
  pLu ||| pp, -- 0x4A
  pLu ||| pp, -- 0x4B
  pLu ||| pp, -- 0x4C
  pLu ||| pp, -- 0x4D
  pLu ||| pp, -- 0x4E
  pLu ||| pp, -- 0x4F
  pLu ||| pp, -- 0x50
  pLu ||| pp, -- 0x51
  pLu ||| pp, -- 0x52
  pLu ||| pp, -- 0x53
  pLu ||| pp, -- 0x54
  pLu ||| pp, -- 0x55
  pLu ||| pp, -- 0x56
  pLu ||| pp, -- 0x57
  pLu ||| pp, -- 0x58
  pLu ||| pp, -- 0x59
  pLu ||| pp, -- 0x5A
  pP ||| pp, -- 0x5B
  pP ||| pp, -- 0x5C
  pP ||| pp, -- 0x5D
  pS ||| pp, -- 0x5E
  pP ||| pp, -- 0x5F
  pS ||| pp, -- 0x60
  pLl ||| pp, -- 0x61
  pLl ||| pp, -- 0x62
  pLl ||| pp, -- 0x63
  pLl ||| pp, -- 0x64
  pLl ||| pp, -- 0x65
  pLl ||| pp, -- 0x66
  pLl ||| pp, -- 0x67
  pLl ||| pp, -- 0x68
  pLl ||| pp, -- 0x69
  pLl ||| pp, -- 0x6A
  pLl ||| pp, -- 0x6B
  pLl ||| pp, -- 0x6C
  pLl ||| pp, -- 0x6D
  pLl ||| pp, -- 0x6E
  pLl ||| pp, -- 0x6F
  pLl ||| pp, -- 0x70
  pLl ||| pp, -- 0x71
  pLl ||| pp, -- 0x72
  pLl ||| pp, -- 0x73
  pLl ||| pp, -- 0x74
  pLl ||| pp, -- 0x75
  pLl ||| pp, -- 0x76
  pLl ||| pp, -- 0x77
  pLl ||| pp, -- 0x78
  pLl ||| pp, -- 0x79
  pLl ||| pp, -- 0x7A
  pP ||| pp, -- 0x7B
  pS ||| pp, -- 0x7C
  pP ||| pp, -- 0x7D
  pS ||| pp, -- 0x7E
  pC, -- 0x7F
  pC, -- 0x80
  pC, -- 0x81
  pC, -- 0x82
  pC, -- 0x83
  pC, -- 0x84
  pC, -- 0x85
  pC, -- 0x86
  pC, -- 0x87
  pC, -- 0x88
  pC, -- 0x89
  pC, -- 0x8A
  pC, -- 0x8B
  pC, -- 0x8C
  pC, -- 0x8D
  pC, -- 0x8E
  pC, -- 0x8F
  pC, -- 0x90
  pC, -- 0x91
  pC, -- 0x92
  pC, -- 0x93
  pC, -- 0x94
  pC, -- 0x95
  pC, -- 0x96
  pC, -- 0x97
  pC, -- 0x98
  pC, -- 0x99
  pC, -- 0x9A
  pC, -- 0x9B
  pC, -- 0x9C
  pC, -- 0x9D
  pC, -- 0x9E
  pC, -- 0x9F
  pZ, -- 0xA0
  pP ||| pp, -- 0xA1
  pS ||| pp, -- 0xA2
  pS ||| pp, -- 0xA3
  pS ||| pp, -- 0xA4
  pS ||| pp, -- 0xA5
  pS ||| pp, -- 0xA6
  pP ||| pp, -- 0xA7
  pS ||| pp, -- 0xA8
  pS ||| pp, -- 0xA9
  pLo ||| pp, -- 0xAA
  pP ||| pp, -- 0xAB
  pS ||| pp, -- 0xAC
  0, -- 0xAD
  pS ||| pp, -- 0xAE
  pS ||| pp, -- 0xAF
  pS ||| pp, -- 0xB0
  pS ||| pp, -- 0xB1
  pN ||| pp, -- 0xB2
  pN ||| pp, -- 0xB3
  pS ||| pp, -- 0xB4
  pLl ||| pp, -- 0xB5
  pP ||| pp, -- 0xB6
  pP ||| pp, -- 0xB7
  pS ||| pp, -- 0xB8
  pN ||| pp, -- 0xB9
  pLo ||| pp, -- 0xBA
  pP ||| pp, -- 0xBB
  pN ||| pp, -- 0xBC
  pN ||| pp, -- 0xBD
  pN ||| pp, -- 0xBE
  pP ||| pp, -- 0xBF
  pLu ||| pp, -- 0xC0
  pLu ||| pp, -- 0xC1
  pLu ||| pp, -- 0xC2
  pLu ||| pp, -- 0xC3
  pLu ||| pp, -- 0xC4
  pLu ||| pp, -- 0xC5
  pLu ||| pp, -- 0xC6
  pLu ||| pp, -- 0xC7
  pLu ||| pp, -- 0xC8
  pLu ||| pp, -- 0xC9
  pLu ||| pp, -- 0xCA
  pLu ||| pp, -- 0xCB
  pLu ||| pp, -- 0xCC
  pLu ||| pp, -- 0xCD
  pLu ||| pp, -- 0xCE
  pLu ||| pp, -- 0xCF
  pLu ||| pp, -- 0xD0
  pLu ||| pp, -- 0xD1
  pLu ||| pp, -- 0xD2
  pLu ||| pp, -- 0xD3
  pLu ||| pp, -- 0xD4
  pLu ||| pp, -- 0xD5
  pLu ||| pp, -- 0xD6
  pS ||| pp, -- 0xD7
  pLu ||| pp, -- 0xD8
  pLu ||| pp, -- 0xD9
  pLu ||| pp, -- 0xDA
  pLu ||| pp, -- 0xDB
  pLu ||| pp, -- 0xDC
  pLu ||| pp, -- 0xDD
  pLu ||| pp, -- 0xDE
  pLl ||| pp, -- 0xDF
  pLl ||| pp, -- 0xE0
  pLl ||| pp, -- 0xE1
  pLl ||| pp, -- 0xE2
  pLl ||| pp, -- 0xE3
  pLl ||| pp, -- 0xE4
  pLl ||| pp, -- 0xE5
  pLl ||| pp, -- 0xE6
  pLl ||| pp, -- 0xE7
  pLl ||| pp, -- 0xE8
  pLl ||| pp, -- 0xE9
  pLl ||| pp, -- 0xEA
  pLl ||| pp, -- 0xEB
  pLl ||| pp, -- 0xEC
  pLl ||| pp, -- 0xED
  pLl ||| pp, -- 0xEE
  pLl ||| pp, -- 0xEF
  pLl ||| pp, -- 0xF0
  pLl ||| pp, -- 0xF1
  pLl ||| pp, -- 0xF2
  pLl ||| pp, -- 0xF3
  pLl ||| pp, -- 0xF4
  pLl ||| pp, -- 0xF5
  pLl ||| pp, -- 0xF6
  pS ||| pp, -- 0xF7
  pLl ||| pp, -- 0xF8
  pLl ||| pp, -- 0xF9
  pLl ||| pp, -- 0xFA
  pLl ||| pp, -- 0xFB
  pLl ||| pp, -- 0xFC
  pLl ||| pp, -- 0xFD
  pLl ||| pp, -- 0xFE
  pLl ||| pp] -- 0xFF

/-- The range table `_L` (`unicode.Letter`), sixteen-bit part: the code points of
general category L (Lu, Ll, Lt, Lm, Lo) of the Unicode Character Database
13.0.0, the version shipped with Go 1.16 to 1.20, laid out as Go lays it out. -/
def _L_R16 : List Range16 := [
  Range16.mk 0x0041 0x005a 1, Range16.mk 0x0061 0x007a 1, Range16.mk 0x00aa 0x00b5 11,
  Range16.mk 0x00ba 0x00c0 6,
  Range16.mk 0x00c1 0x00d6 1, Range16.mk 0x00d8 0x00f6 1, Range16.mk 0x00f8 0x02c1 1,
  Range16.mk 0x02c6 0x02d1 1,
  Range16.mk 0x02e0 0x02e4 1, Range16.mk 0x02ec 0x02ee 2, Range16.mk 0x0370 0x0374 1,
  Range16.mk 0x0376 0x0377 1,
  Range16.mk 0x037a 0x037d 1, Range16.mk 0x037f 0x0386 7, Range16.mk 0x0388 0x038a 1,
  Range16.mk 0x038c 0x038e 2,
  Range16.mk 0x038f 0x03a1 1, Range16.mk 0x03a3 0x03f5 1, Range16.mk 0x03f7 0x0481 1,
  Range16.mk 0x048a 0x052f 1,
  Range16.mk 0x0531 0x0556 1, Range16.mk 0x0559 0x0560 7, Range16.mk 0x0561 0x0588 1,
  Range16.mk 0x05d0 0x05ea 1,
  Range16.mk 0x05ef 0x05f2 1, Range16.mk 0x0620 0x064a 1, Range16.mk 0x066e 0x066f 1,
  Range16.mk 0x0671 0x06d3 1,
  Range16.mk 0x06d5 0x06e5 16, Range16.mk 0x06e6 0x06ee 8, Range16.mk 0x06ef 0x06fa 11,
  Range16.mk 0x06fb 0x06fc 1,
  Range16.mk 0x06ff 0x0710 17, Range16.mk 0x0712 0x072f 1, Range16.mk 0x074d 0x07a5 1,
  Range16.mk 0x07b1 0x07ca 25,
  Range16.mk 0x07cb 0x07ea 1, Range16.mk 0x07f4 0x07f5 1, Range16.mk 0x07fa 0x0800 6,
  Range16.mk 0x0801 0x0815 1,
  Range16.mk 0x081a 0x0824 10, Range16.mk 0x0828 0x0840 24, Range16.mk 0x0841 0x0858 1,
  Range16.mk 0x0860 0x086a 1,
  Range16.mk 0x08a0 0x08b4 1, Range16.mk 0x08b6 0x08c7 1, Range16.mk 0x0904 0x0939 1,
  Range16.mk 0x093d 0x0950 19,
  Range16.mk 0x0958 0x0961 1, Range16.mk 0x0971 0x0980 1, Range16.mk 0x0985 0x098c 1,
  Range16.mk 0x098f 0x0990 1,
  Range16.mk 0x0993 0x09a8 1, Range16.mk 0x09aa 0x09b0 1, Range16.mk 0x09b2 0x09b6 4,
  Range16.mk 0x09b7 0x09b9 1,
  Range16.mk 0x09bd 0x09ce 17, Range16.mk 0x09dc 0x09dd 1, Range16.mk 0x09df 0x09e1 1,
  Range16.mk 0x09f0 0x09f1 1,
  Range16.mk 0x09fc 0x0a05 9, Range16.mk 0x0a06 0x0a0a 1, Range16.mk 0x0a0f 0x0a10 1,
  Range16.mk 0x0a13 0x0a28 1,
  Range16.mk 0x0a2a 0x0a30 1, Range16.mk 0x0a32 0x0a33 1, Range16.mk 0x0a35 0x0a36 1,
  Range16.mk 0x0a38 0x0a39 1,
  Range16.mk 0x0a59 0x0a5c 1, Range16.mk 0x0a5e 0x0a72 20, Range16.mk 0x0a73 0x0a74 1,
  Range16.mk 0x0a85 0x0a8d 1,
  Range16.mk 0x0a8f 0x0a91 1, Range16.mk 0x0a93 0x0aa8 1, Range16.mk 0x0aaa 0x0ab0 1,
  Range16.mk 0x0ab2 0x0ab3 1,
  Range16.mk 0x0ab5 0x0ab9 1, Range16.mk 0x0abd 0x0ad0 19, Range16.mk 0x0ae0 0x0ae1 1,
  Range16.mk 0x0af9 0x0b05 12,
  Range16.mk 0x0b06 0x0b0c 1, Range16.mk 0x0b0f 0x0b10 1, Range16.mk 0x0b13 0x0b28 1,
  Range16.mk 0x0b2a 0x0b30 1,
  Range16.mk 0x0b32 0x0b33 1, Range16.mk 0x0b35 0x0b39 1, Range16.mk 0x0b3d 0x0b5c 31,
  Range16.mk 0x0b5d 0x0b5f 2,
  Range16.mk 0x0b60 0x0b61 1, Range16.mk 0x0b71 0x0b83 18, Range16.mk 0x0b85 0x0b8a 1,
  Range16.mk 0x0b8e 0x0b90 1,
  Range16.mk 0x0b92 0x0b95 1, Range16.mk 0x0b99 0x0b9a 1, Range16.mk 0x0b9c 0x0b9e 2,
  Range16.mk 0x0b9f 0x0ba3 4,
  Range16.mk 0x0ba4 0x0ba8 4, Range16.mk 0x0ba9 0x0baa 1, Range16.mk 0x0bae 0x0bb9 1,
  Range16.mk 0x0bd0 0x0c05 53,
  Range16.mk 0x0c06 0x0c0c 1, Range16.mk 0x0c0e 0x0c10 1, Range16.mk 0x0c12 0x0c28 1,
  Range16.mk 0x0c2a 0x0c39 1,
  Range16.mk 0x0c3d 0x0c58 27, Range16.mk 0x0c59 0x0c5a 1, Range16.mk 0x0c60 0x0c61 1,
  Range16.mk 0x0c80 0x0c85 5,
  Range16.mk 0x0c86 0x0c8c 1, Range16.mk 0x0c8e 0x0c90 1, Range16.mk 0x0c92 0x0ca8 1,
  Range16.mk 0x0caa 0x0cb3 1,
  Range16.mk 0x0cb5 0x0cb9 1, Range16.mk 0x0cbd 0x0cde 33, Range16.mk 0x0ce0 0x0ce1 1,
  Range16.mk 0x0cf1 0x0cf2 1,
  Range16.mk 0x0d04 0x0d0c 1, Range16.mk 0x0d0e 0x0d10 1, Range16.mk 0x0d12 0x0d3a 1,
  Range16.mk 0x0d3d 0x0d4e 17,
  Range16.mk 0x0d54 0x0d56 1, Range16.mk 0x0d5f 0x0d61 1, Range16.mk 0x0d7a 0x0d7f 1,
  Range16.mk 0x0d85 0x0d96 1,
  Range16.mk 0x0d9a 0x0db1 1, Range16.mk 0x0db3 0x0dbb 1, Range16.mk 0x0dbd 0x0dc0 3,
  Range16.mk 0x0dc1 0x0dc6 1,
  Range16.mk 0x0e01 0x0e30 1, Range16.mk 0x0e32 0x0e33 1, Range16.mk 0x0e40 0x0e46 1,
  Range16.mk 0x0e81 0x0e82 1,
  Range16.mk 0x0e84 0x0e86 2, Range16.mk 0x0e87 0x0e8a 1, Range16.mk 0x0e8c 0x0ea3 1,
  Range16.mk 0x0ea5 0x0ea7 2,
  Range16.mk 0x0ea8 0x0eb0 1, Range16.mk 0x0eb2 0x0eb3 1, Range16.mk 0x0ebd 0x0ec0 3,
  Range16.mk 0x0ec1 0x0ec4 1,
  Range16.mk 0x0ec6 0x0edc 22, Range16.mk 0x0edd 0x0edf 1, Range16.mk 0x0f00 0x0f40 64,
  Range16.mk 0x0f41 0x0f47 1,
  Range16.mk 0x0f49 0x0f6c 1, Range16.mk 0x0f88 0x0f8c 1, Range16.mk 0x1000 0x102a 1,
  Range16.mk 0x103f 0x1050 17,
  Range16.mk 0x1051 0x1055 1, Range16.mk 0x105a 0x105d 1, Range16.mk 0x1061 0x1065 4,
  Range16.mk 0x1066 0x106e 8,
  Range16.mk 0x106f 0x1070 1, Range16.mk 0x1075 0x1081 1, Range16.mk 0x108e 0x10a0 18,
  Range16.mk 0x10a1 0x10c5 1,
  Range16.mk 0x10c7 0x10cd 6, Range16.mk 0x10d0 0x10fa 1, Range16.mk 0x10fc 0x1248 1,
  Range16.mk 0x124a 0x124d 1,
  Range16.mk 0x1250 0x1256 1, Range16.mk 0x1258 0x125a 2, Range16.mk 0x125b 0x125d 1,
  Range16.mk 0x1260 0x1288 1,
  Range16.mk 0x128a 0x128d 1, Range16.mk 0x1290 0x12b0 1, Range16.mk 0x12b2 0x12b5 1,
  Range16.mk 0x12b8 0x12be 1,
  Range16.mk 0x12c0 0x12c2 2, Range16.mk 0x12c3 0x12c5 1, Range16.mk 0x12c8 0x12d6 1,
  Range16.mk 0x12d8 0x1310 1,
  Range16.mk 0x1312 0x1315 1, Range16.mk 0x1318 0x135a 1, Range16.mk 0x1380 0x138f 1,
  Range16.mk 0x13a0 0x13f5 1,
  Range16.mk 0x13f8 0x13fd 1, Range16.mk 0x1401 0x166c 1, Range16.mk 0x166f 0x167f 1,
  Range16.mk 0x1681 0x169a 1,
  Range16.mk 0x16a0 0x16ea 1, Range16.mk 0x16f1 0x16f8 1, Range16.mk 0x1700 0x170c 1,
  Range16.mk 0x170e 0x1711 1,
  Range16.mk 0x1720 0x1731 1, Range16.mk 0x1740 0x1751 1, Range16.mk 0x1760 0x176c 1,
  Range16.mk 0x176e 0x1770 1,
  Range16.mk 0x1780 0x17b3 1, Range16.mk 0x17d7 0x17dc 5, Range16.mk 0x1820 0x1878 1,
  Range16.mk 0x1880 0x1884 1,
  Range16.mk 0x1887 0x18a8 1, Range16.mk 0x18aa 0x18b0 6, Range16.mk 0x18b1 0x18f5 1,
  Range16.mk 0x1900 0x191e 1,
  Range16.mk 0x1950 0x196d 1, Range16.mk 0x1970 0x1974 1, Range16.mk 0x1980 0x19ab 1,
  Range16.mk 0x19b0 0x19c9 1,
  Range16.mk 0x1a00 0x1a16 1, Range16.mk 0x1a20 0x1a54 1, Range16.mk 0x1aa7 0x1b05 94,
  Range16.mk 0x1b06 0x1b33 1,
  Range16.mk 0x1b45 0x1b4b 1, Range16.mk 0x1b83 0x1ba0 1, Range16.mk 0x1bae 0x1baf 1,
  Range16.mk 0x1bba 0x1be5 1,
  Range16.mk 0x1c00 0x1c23 1, Range16.mk 0x1c4d 0x1c4f 1, Range16.mk 0x1c5a 0x1c7d 1,
  Range16.mk 0x1c80 0x1c88 1,
  Range16.mk 0x1c90 0x1cba 1, Range16.mk 0x1cbd 0x1cbf 1, Range16.mk 0x1ce9 0x1cec 1,
  Range16.mk 0x1cee 0x1cf3 1,
  Range16.mk 0x1cf5 0x1cf6 1, Range16.mk 0x1cfa 0x1d00 6, Range16.mk 0x1d01 0x1dbf 1,
  Range16.mk 0x1e00 0x1f15 1,
  Range16.mk 0x1f18 0x1f1d 1, Range16.mk 0x1f20 0x1f45 1, Range16.mk 0x1f48 0x1f4d 1,
  Range16.mk 0x1f50 0x1f57 1,
  Range16.mk 0x1f59 0x1f5f 2, Range16.mk 0x1f60 0x1f7d 1, Range16.mk 0x1f80 0x1fb4 1,
  Range16.mk 0x1fb6 0x1fbc 1,
  Range16.mk 0x1fbe 0x1fc2 4, Range16.mk 0x1fc3 0x1fc4 1, Range16.mk 0x1fc6 0x1fcc 1,
  Range16.mk 0x1fd0 0x1fd3 1,
  Range16.mk 0x1fd6 0x1fdb 1, Range16.mk 0x1fe0 0x1fec 1, Range16.mk 0x1ff2 0x1ff4 1,
  Range16.mk 0x1ff6 0x1ffc 1,
  Range16.mk 0x2071 0x207f 14, Range16.mk 0x2090 0x209c 1, Range16.mk 0x2102 0x2107 5,
  Range16.mk 0x210a 0x2113 1,
  Range16.mk 0x2115 0x2119 4, Range16.mk 0x211a 0x211d 1, Range16.mk 0x2124 0x212a 2,
  Range16.mk 0x212b 0x212d 1,
  Range16.mk 0x212f 0x2139 1, Range16.mk 0x213c 0x213f 1, Range16.mk 0x2145 0x2149 1,
  Range16.mk 0x214e 0x2183 53,
  Range16.mk 0x2184 0x2c00 2684, Range16.mk 0x2c01 0x2c2e 1, Range16.mk 0x2c30 0x2c5e 1,
  Range16.mk 0x2c60 0x2ce4 1,
  Range16.mk 0x2ceb 0x2cee 1, Range16.mk 0x2cf2 0x2cf3 1, Range16.mk 0x2d00 0x2d25 1,
  Range16.mk 0x2d27 0x2d2d 6,
  Range16.mk 0x2d30 0x2d67 1, Range16.mk 0x2d6f 0x2d80 17, Range16.mk 0x2d81 0x2d96 1,
  Range16.mk 0x2da0 0x2da6 1,
  Range16.mk 0x2da8 0x2dae 1, Range16.mk 0x2db0 0x2db6 1, Range16.mk 0x2db8 0x2dbe 1,
  Range16.mk 0x2dc0 0x2dc6 1,
  Range16.mk 0x2dc8 0x2dce 1, Range16.mk 0x2dd0 0x2dd6 1, Range16.mk 0x2dd8 0x2dde 1,
  Range16.mk 0x2e2f 0x3005 470,
  Range16.mk 0x3006 0x3031 43, Range16.mk 0x3032 0x3035 1, Range16.mk 0x303b 0x303c 1,
  Range16.mk 0x3041 0x3096 1,
  Range16.mk 0x309d 0x309f 1, Range16.mk 0x30a1 0x30fa 1, Range16.mk 0x30fc 0x30ff 1,
  Range16.mk 0x3105 0x312f 1,
  Range16.mk 0x3131 0x318e 1, Range16.mk 0x31a0 0x31bf 1, Range16.mk 0x31f0 0x31ff 1,
  Range16.mk 0x3400 0x4dbf 1,
  Range16.mk 0x4e00 0x9ffc 1, Range16.mk 0xa000 0xa48c 1, Range16.mk 0xa4d0 0xa4fd 1,
  Range16.mk 0xa500 0xa60c 1,
  Range16.mk 0xa610 0xa61f 1, Range16.mk 0xa62a 0xa62b 1, Range16.mk 0xa640 0xa66e 1,
  Range16.mk 0xa67f 0xa69d 1,
  Range16.mk 0xa6a0 0xa6e5 1, Range16.mk 0xa717 0xa71f 1, Range16.mk 0xa722 0xa788 1,
  Range16.mk 0xa78b 0xa7bf 1,
  Range16.mk 0xa7c2 0xa7ca 1, Range16.mk 0xa7f5 0xa801 1, Range16.mk 0xa803 0xa805 1,
  Range16.mk 0xa807 0xa80a 1,
  Range16.mk 0xa80c 0xa822 1, Range16.mk 0xa840 0xa873 1, Range16.mk 0xa882 0xa8b3 1,
  Range16.mk 0xa8f2 0xa8f7 1,
  Range16.mk 0xa8fb 0xa8fd 2, Range16.mk 0xa8fe 0xa90a 12, Range16.mk 0xa90b 0xa925 1,
  Range16.mk 0xa930 0xa946 1,
  Range16.mk 0xa960 0xa97c 1, Range16.mk 0xa984 0xa9b2 1, Range16.mk 0xa9cf 0xa9e0 17,
  Range16.mk 0xa9e1 0xa9e4 1,
  Range16.mk 0xa9e6 0xa9ef 1, Range16.mk 0xa9fa 0xa9fe 1, Range16.mk 0xaa00 0xaa28 1,
  Range16.mk 0xaa40 0xaa42 1,
  Range16.mk 0xaa44 0xaa4b 1, Range16.mk 0xaa60 0xaa76 1, Range16.mk 0xaa7a 0xaa7e 4,
  Range16.mk 0xaa7f 0xaaaf 1,
  Range16.mk 0xaab1 0xaab5 4, Range16.mk 0xaab6 0xaab9 3, Range16.mk 0xaaba 0xaabd 1,
  Range16.mk 0xaac0 0xaac2 2,
  Range16.mk 0xaadb 0xaadd 1, Range16.mk 0xaae0 0xaaea 1, Range16.mk 0xaaf2 0xaaf4 1,
  Range16.mk 0xab01 0xab06 1,
  Range16.mk 0xab09 0xab0e 1, Range16.mk 0xab11 0xab16 1, Range16.mk 0xab20 0xab26 1,
  Range16.mk 0xab28 0xab2e 1,
  Range16.mk 0xab30 0xab5a 1, Range16.mk 0xab5c 0xab69 1, Range16.mk 0xab70 0xabe2 1,
  Range16.mk 0xac00 0xd7a3 1,
  Range16.mk 0xd7b0 0xd7c6 1, Range16.mk 0xd7cb 0xd7fb 1, Range16.mk 0xf900 0xfa6d 1,
  Range16.mk 0xfa70 0xfad9 1,
  Range16.mk 0xfb00 0xfb06 1, Range16.mk 0xfb13 0xfb17 1, Range16.mk 0xfb1d 0xfb1f 2,
  Range16.mk 0xfb20 0xfb28 1,
  Range16.mk 0xfb2a 0xfb36 1, Range16.mk 0xfb38 0xfb3c 1, Range16.mk 0xfb3e 0xfb40 2,
  Range16.mk 0xfb41 0xfb43 2,
  Range16.mk 0xfb44 0xfb46 2, Range16.mk 0xfb47 0xfbb1 1, Range16.mk 0xfbd3 0xfd3d 1,
  Range16.mk 0xfd50 0xfd8f 1,
  Range16.mk 0xfd92 0xfdc7 1, Range16.mk 0xfdf0 0xfdfb 1, Range16.mk 0xfe70 0xfe74 1,
  Range16.mk 0xfe76 0xfefc 1,
  Range16.mk 0xff21 0xff3a 1, Range16.mk 0xff41 0xff5a 1, Range16.mk 0xff66 0xffbe 1,
  Range16.mk 0xffc2 0xffc7 1,
  Range16.mk 0xffca 0xffcf 1, Range16.mk 0xffd2 0xffd7 1, Range16.mk 0xffda 0xffdc 1]

/-- The range table `_L`, thirty-two-bit part (code points from `0x10000`). -/
def _L_R32 : List Range32 := [
  Range32.mk 0x10000 0x1000b 1, Range32.mk 0x1000d 0x10026 1, Range32.mk 0x10028 0x1003a 1,
  Range32.mk 0x1003c 0x1003d 1, Range32.mk 0x1003f 0x1004d 1, Range32.mk 0x10050 0x1005d 1,
  Range32.mk 0x10080 0x100fa 1, Range32.mk 0x10280 0x1029c 1, Range32.mk 0x102a0 0x102d0 1,
  Range32.mk 0x10300 0x1031f 1, Range32.mk 0x1032d 0x10340 1, Range32.mk 0x10342 0x10349 1,
  Range32.mk 0x10350 0x10375 1, Range32.mk 0x10380 0x1039d 1, Range32.mk 0x103a0 0x103c3 1,
  Range32.mk 0x103c8 0x103cf 1, Range32.mk 0x10400 0x1049d 1, Range32.mk 0x104b0 0x104d3 1,
  Range32.mk 0x104d8 0x104fb 1, Range32.mk 0x10500 0x10527 1, Range32.mk 0x10530 0x10563 1,
  Range32.mk 0x10600 0x10736 1, Range32.mk 0x10740 0x10755 1, Range32.mk 0x10760 0x10767 1,
  Range32.mk 0x10800 0x10805 1, Range32.mk 0x10808 0x1080a 2, Range32.mk 0x1080b 0x10835 1,
  Range32.mk 0x10837 0x10838 1, Range32.mk 0x1083c 0x1083f 3, Range32.mk 0x10840 0x10855 1,
  Range32.mk 0x10860 0x10876 1, Range32.mk 0x10880 0x1089e 1, Range32.mk 0x108e0 0x108f2 1,
  Range32.mk 0x108f4 0x108f5 1, Range32.mk 0x10900 0x10915 1, Range32.mk 0x10920 0x10939 1,
  Range32.mk 0x10980 0x109b7 1, Range32.mk 0x109be 0x109bf 1, Range32.mk 0x10a00 0x10a10 16,
  Range32.mk 0x10a11 0x10a13 1, Range32.mk 0x10a15 0x10a17 1, Range32.mk 0x10a19 0x10a35 1,
  Range32.mk 0x10a60 0x10a7c 1, Range32.mk 0x10a80 0x10a9c 1, Range32.mk 0x10ac0 0x10ac7 1,
  Range32.mk 0x10ac9 0x10ae4 1, Range32.mk 0x10b00 0x10b35 1, Range32.mk 0x10b40 0x10b55 1,
  Range32.mk 0x10b60 0x10b72 1, Range32.mk 0x10b80 0x10b91 1, Range32.mk 0x10c00 0x10c48 1,
  Range32.mk 0x10c80 0x10cb2 1, Range32.mk 0x10cc0 0x10cf2 1, Range32.mk 0x10d00 0x10d23 1,
  Range32.mk 0x10e80 0x10ea9 1, Range32.mk 0x10eb0 0x10eb1 1, Range32.mk 0x10f00 0x10f1c 1,
  Range32.mk 0x10f27 0x10f30 9, Range32.mk 0x10f31 0x10f45 1, Range32.mk 0x10fb0 0x10fc4 1,
  Range32.mk 0x10fe0 0x10ff6 1, Range32.mk 0x11003 0x11037 1, Range32.mk 0x11083 0x110af 1,
  Range32.mk 0x110d0 0x110e8 1, Range32.mk 0x11103 0x11126 1, Range32.mk 0x11144 0x11147 3,
  Range32.mk 0x11150 0x11172 1, Range32.mk 0x11176 0x11183 13, Range32.mk 0x11184 0x111b2 1,
  Range32.mk 0x111c1 0x111c4 1, Range32.mk 0x111da 0x111dc 2, Range32.mk 0x11200 0x11211 1,
  Range32.mk 0x11213 0x1122b 1, Range32.mk 0x11280 0x11286 1, Range32.mk 0x11288 0x1128a 2,
  Range32.mk 0x1128b 0x1128d 1, Range32.mk 0x1128f 0x1129d 1, Range32.mk 0x1129f 0x112a8 1,
  Range32.mk 0x112b0 0x112de 1, Range32.mk 0x11305 0x1130c 1, Range32.mk 0x1130f 0x11310 1,
  Range32.mk 0x11313 0x11328 1, Range32.mk 0x1132a 0x11330 1, Range32.mk 0x11332 0x11333 1,
  Range32.mk 0x11335 0x11339 1, Range32.mk 0x1133d 0x11350 19, Range32.mk 0x1135d 0x11361 1,
  Range32.mk 0x11400 0x11434 1, Range32.mk 0x11447 0x1144a 1, Range32.mk 0x1145f 0x11461 1,
  Range32.mk 0x11480 0x114af 1, Range32.mk 0x114c4 0x114c5 1, Range32.mk 0x114c7 0x11580 185,
  Range32.mk 0x11581 0x115ae 1, Range32.mk 0x115d8 0x115db 1, Range32.mk 0x11600 0x1162f 1,
  Range32.mk 0x11644 0x11680 60, Range32.mk 0x11681 0x116aa 1, Range32.mk 0x116b8 0x11700 72,
  Range32.mk 0x11701 0x1171a 1, Range32.mk 0x11800 0x1182b 1, Range32.mk 0x118a0 0x118df 1,
  Range32.mk 0x118ff 0x11906 1, Range32.mk 0x11909 0x1190c 3, Range32.mk 0x1190d 0x11913 1,
  Range32.mk 0x11915 0x11916 1, Range32.mk 0x11918 0x1192f 1, Range32.mk 0x1193f 0x11941 2,
  Range32.mk 0x119a0 0x119a7 1, Range32.mk 0x119aa 0x119d0 1, Range32.mk 0x119e1 0x119e3 2,
  Range32.mk 0x11a00 0x11a0b 11, Range32.mk 0x11a0c 0x11a32 1, Range32.mk 0x11a3a 0x11a50 22,
  Range32.mk 0x11a5c 0x11a89 1, Range32.mk 0x11a9d 0x11ac0 35, Range32.mk 0x11ac1 0x11af8 1,
  Range32.mk 0x11c00 0x11c08 1, Range32.mk 0x11c0a 0x11c2e 1, Range32.mk 0x11c40 0x11c72 50,
  Range32.mk 0x11c73 0x11c8f 1, Range32.mk 0x11d00 0x11d06 1, Range32.mk 0x11d08 0x11d09 1,
  Range32.mk 0x11d0b 0x11d30 1, Range32.mk 0x11d46 0x11d60 26, Range32.mk 0x11d61 0x11d65 1,
  Range32.mk 0x11d67 0x11d68 1, Range32.mk 0x11d6a 0x11d89 1, Range32.mk 0x11d98 0x11ee0 328,
  Range32.mk 0x11ee1 0x11ef2 1, Range32.mk 0x11fb0 0x12000 80, Range32.mk 0x12001 0x12399 1,
  Range32.mk 0x12480 0x12543 1, Range32.mk 0x13000 0x1342e 1, Range32.mk 0x14400 0x14646 1,
  Range32.mk 0x16800 0x16a38 1, Range32.mk 0x16a40 0x16a5e 1, Range32.mk 0x16ad0 0x16aed 1,
  Range32.mk 0x16b00 0x16b2f 1, Range32.mk 0x16b40 0x16b43 1, Range32.mk 0x16b63 0x16b77 1,
  Range32.mk 0x16b7d 0x16b8f 1, Range32.mk 0x16e40 0x16e7f 1, Range32.mk 0x16f00 0x16f4a 1,
  Range32.mk 0x16f50 0x16f93 67, Range32.mk 0x16f94 0x16f9f 1, Range32.mk 0x16fe0 0x16fe1 1,
  Range32.mk 0x16fe3 0x17000 29, Range32.mk 0x17001 0x187f7 1, Range32.mk 0x18800 0x18cd5 1,
  Range32.mk 0x18d00 0x18d08 1, Range32.mk 0x1b000 0x1b11e 1, Range32.mk 0x1b150 0x1b152 1,
  Range32.mk 0x1b164 0x1b167 1, Range32.mk 0x1b170 0x1b2fb 1, Range32.mk 0x1bc00 0x1bc6a 1,
  Range32.mk 0x1bc70 0x1bc7c 1, Range32.mk 0x1bc80 0x1bc88 1, Range32.mk 0x1bc90 0x1bc99 1,
  Range32.mk 0x1d400 0x1d454 1, Range32.mk 0x1d456 0x1d49c 1, Range32.mk 0x1d49e 0x1d49f 1,
  Range32.mk 0x1d4a2 0x1d4a5 3, Range32.mk 0x1d4a6 0x1d4a9 3, Range32.mk 0x1d4aa 0x1d4ac 1,
  Range32.mk 0x1d4ae 0x1d4b9 1, Range32.mk 0x1d4bb 0x1d4bd 2, Range32.mk 0x1d4be 0x1d4c3 1,
  Range32.mk 0x1d4c5 0x1d505 1, Range32.mk 0x1d507 0x1d50a 1, Range32.mk 0x1d50d 0x1d514 1,
  Range32.mk 0x1d516 0x1d51c 1, Range32.mk 0x1d51e 0x1d539 1, Range32.mk 0x1d53b 0x1d53e 1,
  Range32.mk 0x1d540 0x1d544 1, Range32.mk 0x1d546 0x1d54a 4, Range32.mk 0x1d54b 0x1d550 1,
  Range32.mk 0x1d552 0x1d6a5 1, Range32.mk 0x1d6a8 0x1d6c0 1, Range32.mk 0x1d6c2 0x1d6da 1,
  Range32.mk 0x1d6dc 0x1d6fa 1, Range32.mk 0x1d6fc 0x1d714 1, Range32.mk 0x1d716 0x1d734 1,
  Range32.mk 0x1d736 0x1d74e 1, Range32.mk 0x1d750 0x1d76e 1, Range32.mk 0x1d770 0x1d788 1,
  Range32.mk 0x1d78a 0x1d7a8 1, Range32.mk 0x1d7aa 0x1d7c2 1, Range32.mk 0x1d7c4 0x1d7cb 1,
  Range32.mk 0x1e100 0x1e12c 1, Range32.mk 0x1e137 0x1e13d 1, Range32.mk 0x1e14e 0x1e2c0 370,
  Range32.mk 0x1e2c1 0x1e2eb 1, Range32.mk 0x1e800 0x1e8c4 1, Range32.mk 0x1e900 0x1e943 1,
  Range32.mk 0x1e94b 0x1ee00 1205, Range32.mk 0x1ee01 0x1ee03 1, Range32.mk 0x1ee05 0x1ee1f 1,
  Range32.mk 0x1ee21 0x1ee22 1, Range32.mk 0x1ee24 0x1ee27 3, Range32.mk 0x1ee29 0x1ee32 1,
  Range32.mk 0x1ee34 0x1ee37 1, Range32.mk 0x1ee39 0x1ee3b 2, Range32.mk 0x1ee42 0x1ee47 5,
  Range32.mk 0x1ee49 0x1ee4d 2, Range32.mk 0x1ee4e 0x1ee4f 1, Range32.mk 0x1ee51 0x1ee52 1,
  Range32.mk 0x1ee54 0x1ee57 3, Range32.mk 0x1ee59 0x1ee61 2, Range32.mk 0x1ee62 0x1ee64 2,
  Range32.mk 0x1ee67 0x1ee6a 1, Range32.mk 0x1ee6c 0x1ee72 1, Range32.mk 0x1ee74 0x1ee77 1,
  Range32.mk 0x1ee79 0x1ee7c 1, Range32.mk 0x1ee7e 0x1ee80 2, Range32.mk 0x1ee81 0x1ee89 1,
  Range32.mk 0x1ee8b 0x1ee9b 1, Range32.mk 0x1eea1 0x1eea3 1, Range32.mk 0x1eea5 0x1eea9 1,
  Range32.mk 0x1eeab 0x1eebb 1, Range32.mk 0x20000 0x2a6dd 1, Range32.mk 0x2a700 0x2b734 1,
  Range32.mk 0x2b740 0x2b81d 1, Range32.mk 0x2b820 0x2cea1 1, Range32.mk 0x2ceb0 0x2ebe0 1,
  Range32.mk 0x2f800 0x2fa1d 1, Range32.mk 0x30000 0x3134a 1]

/-- The expression `x &^ 1`: `x` with its low bit cleared. -/
def andNot1 (x : Nat) : Nat := x - x % 2

/-- The table `_CaseRanges`: the simple case mappings of the Unicode Character Database
13.0.0 as `CaseRange` entries (`Delta` is indexed by `UpperCase`, `LowerCase`, `TitleCase`). -/
def _CaseRanges : List CaseRange := [
  CaseRange.mk 0x0041 0x005A [0, 32, 0], CaseRange.mk 0x0061 0x007A [-32, 0, -32],
  CaseRange.mk 0x00B5 0x00B5 [743, 0, 743], CaseRange.mk 0x00C0 0x00D6 [0, 32, 0],
  CaseRange.mk 0x00D8 0x00DE [0, 32, 0], CaseRange.mk 0x00E0 0x00F6 [-32, 0, -32],
  CaseRange.mk 0x00F8 0x00FE [-32, 0, -32], CaseRange.mk 0x00FF 0x00FF [121, 0, 121],
  CaseRange.mk 0x0100 0x012F [UpperLower, UpperLower, UpperLower], CaseRange.mk 0x0130 0x0130 [0, -199, 0],
  CaseRange.mk 0x0131 0x0131 [-232, 0, -232], CaseRange.mk 0x0132 0x0137 [UpperLower, UpperLower, UpperLower],
  CaseRange.mk 0x0139 0x0148 [UpperLower, UpperLower, UpperLower], CaseRange.mk 0x014A 0x0177 [UpperLower, UpperLower, UpperLower],
  CaseRange.mk 0x0178 0x0178 [0, -121, 0], CaseRange.mk 0x0179 0x017E [UpperLower, UpperLower, UpperLower],
  CaseRange.mk 0x017F 0x017F [-300, 0, -300], CaseRange.mk 0x0180 0x0180 [195, 0, 195],
  CaseRange.mk 0x0181 0x0181 [0, 210, 0], CaseRange.mk 0x0182 0x0185 [UpperLower, UpperLower, UpperLower],
  CaseRange.mk 0x0186 0x0186 [0, 206, 0], CaseRange.mk 0x0187 0x0188 [UpperLower, UpperLower, UpperLower],
  CaseRange.mk 0x0189 0x018A [0, 205, 0], CaseRange.mk 0x018B 0x018C [UpperLower, UpperLower, UpperLower],
  CaseRange.mk 0x018E 0x018E [0, 79, 0], CaseRange.mk 0x018F 0x018F [0, 202, 0],
  CaseRange.mk 0x0190 0x0190 [0, 203, 0], CaseRange.mk 0x0191 0x0192 [UpperLower, UpperLower, UpperLower],
  CaseRange.mk 0x0193 0x0193 [0, 205, 0], CaseRange.mk 0x0194 0x0194 [0, 207, 0],
  CaseRange.mk 0x0195 0x0195 [97, 0, 97], CaseRange.mk 0x0196 0x0196 [0, 211, 0],
  CaseRange.mk 0x0197 0x0197 [0, 209, 0], CaseRange.mk 0x0198 0x0199 [UpperLower, UpperLower, UpperLower],
  CaseRange.mk 0x019A 0x019A [163, 0, 163], CaseRange.mk 0x019C 0x019C [0, 211, 0],
  CaseRange.mk 0x019D 0x019D [0, 213, 0], CaseRange.mk 0x019E 0x019E [130, 0, 130],
  CaseRange.mk 0x019F 0x019F [0, 214, 0], CaseRange.mk 0x01A0 0x01A5 [UpperLower, UpperLower, UpperLower],
  CaseRange.mk 0x01A6 0x01A6 [0, 218, 0], CaseRange.mk 0x01A7 0x01A8 [UpperLower, UpperLower, UpperLower],
  CaseRange.mk 0x01A9 0x01A9 [0, 218, 0], CaseRange.mk 0x01AC 0x01AD [UpperLower, UpperLower, UpperLower],
  CaseRange.mk 0x01AE 0x01AE [0, 218, 0], CaseRange.mk 0x01AF 0x01B0 [UpperLower, UpperLower, UpperLower],
  CaseRange.mk 0x01B1 0x01B2 [0, 217, 0], CaseRange.mk 0x01B3 0x01B6 [UpperLower, UpperLower, UpperLower],
  CaseRange.mk 0x01B7 0x01B7 [0, 219, 0], CaseRange.mk 0x01B8 0x01B9 [UpperLower, UpperLower, UpperLower],
  CaseRange.mk 0x01BC 0x01BD [UpperLower, UpperLower, UpperLower], CaseRange.mk 0x01BF 0x01BF [56, 0, 56],
  CaseRange.mk 0x01C4 0x01C4 [0, 2, 1], CaseRange.mk 0x01C5 0x01C5 [-1, 1, 0],
  CaseRange.mk 0x01C6 0x01C6 [-2, 0, -1], CaseRange.mk 0x01C7 0x01C7 [0, 2, 1],
  CaseRange.mk 0x01C8 0x01C8 [-1, 1, 0], CaseRange.mk 0x01C9 0x01C9 [-2, 0, -1],
  CaseRange.mk 0x01CA 0x01CA [0, 2, 1], CaseRange.mk 0x01CB 0x01CB [-1, 1, 0],
  CaseRange.mk 0x01CC 0x01CC [-2, 0, -1], CaseRange.mk 0x01CD 0x01DC [UpperLower, UpperLower, UpperLower],
  CaseRange.mk 0x01DD 0x01DD [-79, 0, -79], CaseRange.mk 0x01DE 0x01EF [UpperLower, UpperLower, UpperLower],
  CaseRange.mk 0x01F1 0x01F1 [0, 2, 1], CaseRange.mk 0x01F2 0x01F2 [-1, 1, 0],
  CaseRange.mk 0x01F3 0x01F3 [-2, 0, -1], CaseRange.mk 0x01F4 0x01F5 [UpperLower, UpperLower, UpperLower],
  CaseRange.mk 0x01F6 0x01F6 [0, -97, 0], CaseRange.mk 0x01F7 0x01F7 [0, -56, 0],
  CaseRange.mk 0x01F8 0x021F [UpperLower, UpperLower, UpperLower], CaseRange.mk 0x0220 0x0220 [0, -130, 0],
  CaseRange.mk 0x0222 0x0233 [UpperLower, UpperLower, UpperLower], CaseRange.mk 0x023A 0x023A [0, 10795, 0],
  CaseRange.mk 0x023B 0x023C [UpperLower, UpperLower, UpperLower], CaseRange.mk 0x023D 0x023D [0, -163, 0],
  CaseRange.mk 0x023E 0x023E [0, 10792, 0], CaseRange.mk 0x023F 0x0240 [10815, 0, 10815],
  CaseRange.mk 0x0241 0x0242 [UpperLower, UpperLower, UpperLower], CaseRange.mk 0x0243 0x0243 [0, -195, 0],
  CaseRange.mk 0x0244 0x0244 [0, 69, 0], CaseRange.mk 0x0245 0x0245 [0, 71, 0],
  CaseRange.mk 0x0246 0x024F [UpperLower, UpperLower, UpperLower], CaseRange.mk 0x0250 0x0250 [10783, 0, 10783],
  CaseRange.mk 0x0251 0x0251 [10780, 0, 10780], CaseRange.mk 0x0252 0x0252 [10782, 0, 10782],
  CaseRange.mk 0x0253 0x0253 [-210, 0, -210], CaseRange.mk 0x0254 0x0254 [-206, 0, -206],
  CaseRange.mk 0x0256 0x0257 [-205, 0, -205], CaseRange.mk 0x0259 0x0259 [-202, 0, -202],
  CaseRange.mk 0x025B 0x025B [-203, 0, -203], CaseRange.mk 0x025C 0x025C [42319, 0, 42319],
  CaseRange.mk 0x0260 0x0260 [-205, 0, -205], CaseRange.mk 0x0261 0x0261 [42315, 0, 42315],
  CaseRange.mk 0x0263 0x0263 [-207, 0, -207], CaseRange.mk 0x0265 0x0265 [42280, 0, 42280],
  CaseRange.mk 0x0266 0x0266 [42308, 0, 42308], CaseRange.mk 0x0268 0x0268 [-209, 0, -209],
  CaseRange.mk 0x0269 0x0269 [-211, 0, -211], CaseRange.mk 0x026A 0x026A [42308, 0, 42308],
  CaseRange.mk 0x026B 0x026B [10743, 0, 10743], CaseRange.mk 0x026C 0x026C [42305, 0, 42305],
  CaseRange.mk 0x026F 0x026F [-211, 0, -211], CaseRange.mk 0x0271 0x0271 [10749, 0, 10749],
  CaseRange.mk 0x0272 0x0272 [-213, 0, -213], CaseRange.mk 0x0275 0x0275 [-214, 0, -214],
  CaseRange.mk 0x027D 0x027D [10727, 0, 10727], CaseRange.mk 0x0280 0x0280 [-218, 0, -218],
  CaseRange.mk 0x0282 0x0282 [42307, 0, 42307], CaseRange.mk 0x0283 0x0283 [-218, 0, -218],
  CaseRange.mk 0x0287 0x0287 [42282, 0, 42282], CaseRange.mk 0x0288 0x0288 [-218, 0, -218],
  CaseRange.mk 0x0289 0x0289 [-69, 0, -69], CaseRange.mk 0x028A 0x028B [-217, 0, -217],
  CaseRange.mk 0x028C 0x028C [-71, 0, -71], CaseRange.mk 0x0292 0x0292 [-219, 0, -219],
  CaseRange.mk 0x029D 0x029D [42261, 0, 42261], CaseRange.mk 0x029E 0x029E [42258, 0, 42258],
  CaseRange.mk 0x0345 0x0345 [84, 0, 84], CaseRange.mk 0x0370 0x0373 [UpperLower, UpperLower, UpperLower],
  CaseRange.mk 0x0376 0x0377 [UpperLower, UpperLower, UpperLower], CaseRange.mk 0x037B 0x037D [130, 0, 130],
  CaseRange.mk 0x037F 0x037F [0, 116, 0], CaseRange.mk 0x0386 0x0386 [0, 38, 0],
  CaseRange.mk 0x0388 0x038A [0, 37, 0], CaseRange.mk 0x038C 0x038C [0, 64, 0],
  CaseRange.mk 0x038E 0x038F [0, 63, 0], CaseRange.mk 0x0391 0x03A1 [0, 32, 0],
  CaseRange.mk 0x03A3 0x03AB [0, 32, 0], CaseRange.mk 0x03AC 0x03AC [-38, 0, -38],
  CaseRange.mk 0x03AD 0x03AF [-37, 0, -37], CaseRange.mk 0x03B1 0x03C1 [-32, 0, -32],
  CaseRange.mk 0x03C2 0x03C2 [-31, 0, -31], CaseRange.mk 0x03C3 0x03CB [-32, 0, -32],
  CaseRange.mk 0x03CC 0x03CC [-64, 0, -64], CaseRange.mk 0x03CD 0x03CE [-63, 0, -63],
  CaseRange.mk 0x03CF 0x03CF [0, 8, 0], CaseRange.mk 0x03D0 0x03D0 [-62, 0, -62],
  CaseRange.mk 0x03D1 0x03D1 [-57, 0, -57], CaseRange.mk 0x03D5 0x03D5 [-47, 0, -47],
  CaseRange.mk 0x03D6 0x03D6 [-54, 0, -54], CaseRange.mk 0x03D7 0x03D7 [-8, 0, -8],
  CaseRange.mk 0x03D8 0x03EF [UpperLower, UpperLower, UpperLower], CaseRange.mk 0x03F0 0x03F0 [-86, 0, -86],
  CaseRange.mk 0x03F1 0x03F1 [-80, 0, -80], CaseRange.mk 0x03F2 0x03F2 [7, 0, 7],
  CaseRange.mk 0x03F3 0x03F3 [-116, 0, -116], CaseRange.mk 0x03F4 0x03F4 [0, -60, 0],
  CaseRange.mk 0x03F5 0x03F5 [-96, 0, -96], CaseRange.mk 0x03F7 0x03F8 [UpperLower, UpperLower, UpperLower],
  CaseRange.mk 0x03F9 0x03F9 [0, -7, 0], CaseRange.mk 0x03FA 0x03FB [UpperLower, UpperLower, UpperLower],
  CaseRange.mk 0x03FD 0x03FF [0, -130, 0], CaseRange.mk 0x0400 0x040F [0, 80, 0],
  CaseRange.mk 0x0410 0x042F [0, 32, 0], CaseRange.mk 0x0430 0x044F [-32, 0, -32],
  CaseRange.mk 0x0450 0x045F [-80, 0, -80], CaseRange.mk 0x0460 0x0481 [UpperLower, UpperLower, UpperLower],
  CaseRange.mk 0x048A 0x04BF [UpperLower, UpperLower, UpperLower], CaseRange.mk 0x04C0 0x04C0 [0, 15, 0],
  CaseRange.mk 0x04C1 0x04CE [UpperLower, UpperLower, UpperLower], CaseRange.mk 0x04CF 0x04CF [-15, 0, -15],
  CaseRange.mk 0x04D0 0x052F [UpperLower, UpperLower, UpperLower], CaseRange.mk 0x0531 0x0556 [0, 48, 0],
  CaseRange.mk 0x0561 0x0586 [-48, 0, -48], CaseRange.mk 0x10A0 0x10C5 [0, 7264, 0],
  CaseRange.mk 0x10C7 0x10C7 [0, 7264, 0], CaseRange.mk 0x10CD 0x10CD [0, 7264, 0],
  CaseRange.mk 0x10D0 0x10FA [3008, 0, 0], CaseRange.mk 0x10FD 0x10FF [3008, 0, 0],
  CaseRange.mk 0x13A0 0x13EF [0, 38864, 0], CaseRange.mk 0x13F0 0x13F5 [0, 8, 0],
  CaseRange.mk 0x13F8 0x13FD [-8, 0, -8], CaseRange.mk 0x1C80 0x1C80 [-6254, 0, -6254],
  CaseRange.mk 0x1C81 0x1C81 [-6253, 0, -6253], CaseRange.mk 0x1C82 0x1C82 [-6244, 0, -6244],
  CaseRange.mk 0x1C83 0x1C84 [-6242, 0, -6242], CaseRange.mk 0x1C85 0x1C85 [-6243, 0, -6243],
  CaseRange.mk 0x1C86 0x1C86 [-6236, 0, -6236], CaseRange.mk 0x1C87 0x1C87 [-6181, 0, -6181],
  CaseRange.mk 0x1C88 0x1C88 [35266, 0, 35266], CaseRange.mk 0x1C90 0x1CBA [0, -3008, 0],
  CaseRange.mk 0x1CBD 0x1CBF [0, -3008, 0], CaseRange.mk 0x1D79 0x1D79 [35332, 0, 35332],
  CaseRange.mk 0x1D7D 0x1D7D [3814, 0, 3814], CaseRange.mk 0x1D8E 0x1D8E [35384, 0, 35384],
  CaseRange.mk 0x1E00 0x1E95 [UpperLower, UpperLower, UpperLower], CaseRange.mk 0x1E9B 0x1E9B [-59, 0, -59],
  CaseRange.mk 0x1E9E 0x1E9E [0, -7615, 0], CaseRange.mk 0x1EA0 0x1EFF [UpperLower, UpperLower, UpperLower],
  CaseRange.mk 0x1F00 0x1F07 [8, 0, 8], CaseRange.mk 0x1F08 0x1F0F [0, -8, 0],
  CaseRange.mk 0x1F10 0x1F15 [8, 0, 8], CaseRange.mk 0x1F18 0x1F1D [0, -8, 0],
  CaseRange.mk 0x1F20 0x1F27 [8, 0, 8], CaseRange.mk 0x1F28 0x1F2F [0, -8, 0],
  CaseRange.mk 0x1F30 0x1F37 [8, 0, 8], CaseRange.mk 0x1F38 0x1F3F [0, -8, 0],
  CaseRange.mk 0x1F40 0x1F45 [8, 0, 8], CaseRange.mk 0x1F48 0x1F4D [0, -8, 0],
  CaseRange.mk 0x1F51 0x1F51 [8, 0, 8], CaseRange.mk 0x1F53 0x1F53 [8, 0, 8],
  CaseRange.mk 0x1F55 0x1F55 [8, 0, 8], CaseRange.mk 0x1F57 0x1F57 [8, 0, 8],
  CaseRange.mk 0x1F59 0x1F59 [0, -8, 0], CaseRange.mk 0x1F5B 0x1F5B [0, -8, 0],
  CaseRange.mk 0x1F5D 0x1F5D [0, -8, 0], CaseRange.mk 0x1F5F 0x1F5F [0, -8, 0],
  CaseRange.mk 0x1F60 0x1F67 [8, 0, 8], CaseRange.mk 0x1F68 0x1F6F [0, -8, 0],
  CaseRange.mk 0x1F70 0x1F71 [74, 0, 74], CaseRange.mk 0x1F72 0x1F75 [86, 0, 86],
  CaseRange.mk 0x1F76 0x1F77 [100, 0, 100], CaseRange.mk 0x1F78 0x1F79 [128, 0, 128],
  CaseRange.mk 0x1F7A 0x1F7B [112, 0, 112], CaseRange.mk 0x1F7C 0x1F7D [126, 0, 126],
  CaseRange.mk 0x1F80 0x1F87 [8, 0, 8], CaseRange.mk 0x1F88 0x1F8F [0, -8, 0],
  CaseRange.mk 0x1F90 0x1F97 [8, 0, 8], CaseRange.mk 0x1F98 0x1F9F [0, -8, 0],
  CaseRange.mk 0x1FA0 0x1FA7 [8, 0, 8], CaseRange.mk 0x1FA8 0x1FAF [0, -8, 0],
  CaseRange.mk 0x1FB0 0x1FB1 [8, 0, 8], CaseRange.mk 0x1FB3 0x1FB3 [9, 0, 9],
  CaseRange.mk 0x1FB8 0x1FB9 [0, -8, 0], CaseRange.mk 0x1FBA 0x1FBB [0, -74, 0],
  CaseRange.mk 0x1FBC 0x1FBC [0, -9, 0], CaseRange.mk 0x1FBE 0x1FBE [-7205, 0, -7205],
  CaseRange.mk 0x1FC3 0x1FC3 [9, 0, 9], CaseRange.mk 0x1FC8 0x1FCB [0, -86, 0],
  CaseRange.mk 0x1FCC 0x1FCC [0, -9, 0], CaseRange.mk 0x1FD0 0x1FD1 [8, 0, 8],
  CaseRange.mk 0x1FD8 0x1FD9 [0, -8, 0], CaseRange.mk 0x1FDA 0x1FDB [0, -100, 0],
  CaseRange.mk 0x1FE0 0x1FE1 [8, 0, 8], CaseRange.mk 0x1FE5 0x1FE5 [7, 0, 7],
  CaseRange.mk 0x1FE8 0x1FE9 [0, -8, 0], CaseRange.mk 0x1FEA 0x1FEB [0, -112, 0],
  CaseRange.mk 0x1FEC 0x1FEC [0, -7, 0], CaseRange.mk 0x1FF3 0x1FF3 [9, 0, 9],
  CaseRange.mk 0x1FF8 0x1FF9 [0, -128, 0], CaseRange.mk 0x1FFA 0x1FFB [0, -126, 0],
  CaseRange.mk 0x1FFC 0x1FFC [0, -9, 0], CaseRange.mk 0x2126 0x2126 [0, -7517, 0],
  CaseRange.mk 0x212A 0x212A [0, -8383, 0], CaseRange.mk 0x212B 0x212B [0, -8262, 0],
  CaseRange.mk 0x2132 0x2132 [0, 28, 0], CaseRange.mk 0x214E 0x214E [-28, 0, -28],
  CaseRange.mk 0x2160 0x216F [0, 16, 0], CaseRange.mk 0x2170 0x217F [-16, 0, -16],
  CaseRange.mk 0x2183 0x2184 [UpperLower, UpperLower, UpperLower], CaseRange.mk 0x24B6 0x24CF [0, 26, 0],
  CaseRange.mk 0x24D0 0x24E9 [-26, 0, -26], CaseRange.mk 0x2C00 0x2C2E [0, 48, 0],
  CaseRange.mk 0x2C30 0x2C5E [-48, 0, -48], CaseRange.mk 0x2C60 0x2C61 [UpperLower, UpperLower, UpperLower],
  CaseRange.mk 0x2C62 0x2C62 [0, -10743, 0], CaseRange.mk 0x2C63 0x2C63 [0, -3814, 0],
  CaseRange.mk 0x2C64 0x2C64 [0, -10727, 0], CaseRange.mk 0x2C65 0x2C65 [-10795, 0, -10795],
  CaseRange.mk 0x2C66 0x2C66 [-10792, 0, -10792], CaseRange.mk 0x2C67 0x2C6C [UpperLower, UpperLower, UpperLower],
  CaseRange.mk 0x2C6D 0x2C6D [0, -10780, 0], CaseRange.mk 0x2C6E 0x2C6E [0, -10749, 0],
  CaseRange.mk 0x2C6F 0x2C6F [0, -10783, 0], CaseRange.mk 0x2C70 0x2C70 [0, -10782, 0],
  CaseRange.mk 0x2C72 0x2C73 [UpperLower, UpperLower, UpperLower], CaseRange.mk 0x2C75 0x2C76 [UpperLower, UpperLower, UpperLower],
  CaseRange.mk 0x2C7E 0x2C7F [0, -10815, 0], CaseRange.mk 0x2C80 0x2CE3 [UpperLower, UpperLower, UpperLower],
  CaseRange.mk 0x2CEB 0x2CEE [UpperLower, UpperLower, UpperLower], CaseRange.mk 0x2CF2 0x2CF3 [UpperLower, UpperLower, UpperLower],
  CaseRange.mk 0x2D00 0x2D25 [-7264, 0, -7264], CaseRange.mk 0x2D27 0x2D27 [-7264, 0, -7264],
  CaseRange.mk 0x2D2D 0x2D2D [-7264, 0, -7264], CaseRange.mk 0xA640 0xA66D [UpperLower, UpperLower, UpperLower],
  CaseRange.mk 0xA680 0xA69B [UpperLower, UpperLower, UpperLower], CaseRange.mk 0xA722 0xA72F [UpperLower, UpperLower, UpperLower],
  CaseRange.mk 0xA732 0xA76F [UpperLower, UpperLower, UpperLower], CaseRange.mk 0xA779 0xA77C [UpperLower, UpperLower, UpperLower],
  CaseRange.mk 0xA77D 0xA77D [0, -35332, 0], CaseRange.mk 0xA77E 0xA787 [UpperLower, UpperLower, UpperLower],
  CaseRange.mk 0xA78B 0xA78C [UpperLower, UpperLower, UpperLower], CaseRange.mk 0xA78D 0xA78D [0, -42280, 0],
  CaseRange.mk 0xA790 0xA793 [UpperLower, UpperLower, UpperLower], CaseRange.mk 0xA794 0xA794 [48, 0, 48],
  CaseRange.mk 0xA796 0xA7A9 [UpperLower, UpperLower, UpperLower], CaseRange.mk 0xA7AA 0xA7AA [0, -42308, 0],
  CaseRange.mk 0xA7AB 0xA7AB [0, -42319, 0], CaseRange.mk 0xA7AC 0xA7AC [0, -42315, 0],
  CaseRange.mk 0xA7AD 0xA7AD [0, -42305, 0], CaseRange.mk 0xA7AE 0xA7AE [0, -42308, 0],
  CaseRange.mk 0xA7B0 0xA7B0 [0, -42258, 0], CaseRange.mk 0xA7B1 0xA7B1 [0, -42282, 0],
  CaseRange.mk 0xA7B2 0xA7B2 [0, -42261, 0], CaseRange.mk 0xA7B3 0xA7B3 [0, 928, 0],
  CaseRange.mk 0xA7B4 0xA7BF [UpperLower, UpperLower, UpperLower], CaseRange.mk 0xA7C2 0xA7C3 [UpperLower, UpperLower, UpperLower],
  CaseRange.mk 0xA7C4 0xA7C4 [0, -48, 0], CaseRange.mk 0xA7C5 0xA7C5 [0, -42307, 0],
  CaseRange.mk 0xA7C6 0xA7C6 [0, -35384, 0], CaseRange.mk 0xA7C7 0xA7CA [UpperLower, UpperLower, UpperLower],
  CaseRange.mk 0xA7F5 0xA7F6 [UpperLower, UpperLower, UpperLower], CaseRange.mk 0xAB53 0xAB53 [-928, 0, -928],
  CaseRange.mk 0xAB70 0xABBF [-38864, 0, -38864], CaseRange.mk 0xFF21 0xFF3A [0, 32, 0],
  CaseRange.mk 0xFF41 0xFF5A [-32, 0, -32], CaseRange.mk 0x10400 0x10427 [0, 40, 0],
  CaseRange.mk 0x10428 0x1044F [-40, 0, -40], CaseRange.mk 0x104B0 0x104D3 [0, 40, 0],
  CaseRange.mk 0x104D8 0x104FB [-40, 0, -40], CaseRange.mk 0x10C80 0x10CB2 [0, 64, 0],
  CaseRange.mk 0x10CC0 0x10CF2 [-64, 0, -64], CaseRange.mk 0x118A0 0x118BF [0, 32, 0],
  CaseRange.mk 0x118C0 0x118DF [-32, 0, -32], CaseRange.mk 0x16E40 0x16E5F [0, 32, 0],
  CaseRange.mk 0x16E60 0x16E7F [-32, 0, -32], CaseRange.mk 0x1E900 0x1E921 [0, 34, 0],
  CaseRange.mk 0x1E922 0x1E943 [-34, 0, -34]]

/-- The range table `Letter`. -/
def Letter : RangeTable := ⟨_L_R16, _L_R32, 6⟩

/-- The range table `White_Space`. -/
def White_Space : RangeTable := ⟨[
  ⟨0x0009, 0x000d, 1⟩,
  ⟨0x0020, 0x0085, 101⟩,
  ⟨0x00a0, 0x1680, 5600⟩,
  ⟨0x2000, 0x200a, 1⟩,
  ⟨0x2028, 0x2029, 1⟩,
  ⟨0x202f, 0x205f, 48⟩,
  ⟨0x3000, 0x3000, 1⟩], [], 2⟩

/-- The table `CaseRanges`. -/
def CaseRanges : List CaseRange := _CaseRanges

/-- The linear scan of `is16` (tables of at most `linearMax` ranges, or Latin-1). -/
def is16.linear (r : Nat) : List Range16 → Bool
  | [] => false
  | range_ :: rest =>
    if r < range_.Lo then false
    else if r ≤ range_.Hi then
      range_.Stride == 1 || (r - range_.Lo) % range_.Stride == 0
    else is16.linear r rest

/-- The binary search of `is16` over `ranges[lo:hi]`. -/
def is16.search (ranges : List Range16) (r : Nat) : Nat → Nat → Nat → Bool
  | 0, _, _ => false
  | fuel + 1, lo, hi =>
    if lo < hi then
      let m := (lo + hi) >>> 1
      let range_ := ranges.getD m ⟨0, 0, 1⟩
      if range_.Lo ≤ r ∧ r ≤ range_.Hi then
        range_.Stride == 1 || (r - range_.Lo) % range_.Stride == 0
      else if r < range_.Lo then is16.search ranges r fuel lo m
      else is16.search ranges r fuel (m + 1) hi
    else false

/-- The function `is16`: whether `r` is in the sorted slice of 16-bit ranges. -/
def is16 (ranges : List Range16) (r : Nat) : Bool :=
  if ranges.length ≤ linearMax ∨ r ≤ MaxLatin1 then is16.linear r ranges
  else is16.search ranges r (ranges.length + 1) 0 ranges.length

/-- The linear scan of `is32`. -/
def is32.linear (r : Nat) : List Range32 → Bool
  | [] => false
  | range_ :: rest =>
    if r < range_.Lo then false
    else if r ≤ range_.Hi then
      range_.Stride == 1 || (r - range_.Lo) % range_.Stride == 0
    else is32.linear r rest

/-- The binary search of `is32` over `ranges[lo:hi]`. -/
def is32.search (ranges : List Range32) (r : Nat) : Nat → Nat → Nat → Bool
  | 0, _, _ => false
  | fuel + 1, lo, hi =>
    if lo < hi then
      let m := (lo + hi) >>> 1
      let range_ := ranges.getD m ⟨0, 0, 1⟩
      if range_.Lo ≤ r ∧ r ≤ range_.Hi then
        range_.Stride == 1 || (r - range_.Lo) % range_.Stride == 0
      else if r < range_.Lo then is32.search ranges r fuel lo m
      else is32.search ranges r fuel (m + 1) hi
    else false

/-- The function `is32`: whether `r` is in the sorted slice of 32-bit ranges. -/
def is32 (ranges : List Range32) (r : Nat) : Bool :=
  if ranges.length ≤ linearMax then is32.linear r ranges
  else is32.search ranges r (ranges.length + 1) 0 ranges.length

/-- The function `isExcludingLatin`: membership of a code point above Latin-1. -/
def isExcludingLatin (rangeTab : RangeTable) (r : Nat) : Bool :=
  let r16 := rangeTab.R16
  let off := rangeTab.LatinOffset
  if r16.length > off ∧ r ≤ (r16.getD (r16.length - 1) ⟨0, 0, 1⟩).Hi then
    is16 (r16.drop off) r
  else
    let r32 := rangeTab.R32
    if r32.length > 0 ∧ r ≥ (r32.getD 0 ⟨0, 0, 1⟩).Lo then is32 r32 r
    else false

/-- The function `unicode.IsLetter`: whether the rune is a letter (category L). -/
def IsLetter (r : Nat) : Bool :=
  if r ≤ MaxLatin1 then
    (properties.getD r 0) &&& pLmask != 0
  else isExcludingLatin Letter r

/-- The function `unicode.IsSpace`: whether the rune is a space character as defined
by the White Space property. -/
def IsSpace (r : Nat) : Bool :=
  if r ≤ MaxLatin1 then
    r == 0x09 || r == 0x0A || r == 0x0B || r == 0x0C || r == 0x0D || r == 0x20 ||
      r == 0x85 || r == 0xA0
  else isExcludingLatin White_Space r

/-- The binary search of `to` over `caseRange[lo:hi]`; the second component is
`foundMapping`. -/
def to_.search (_case : Nat) (r : Nat) (caseRange : List CaseRange) :
    Nat → Nat → Nat → Nat × Bool
  | 0, _, _ => (r, false)
  | fuel + 1, lo, hi =>
    if lo < hi then
      let m := (lo + hi) >>> 1
      let cr := caseRange.getD m ⟨0, 0, []⟩
      if cr.Lo ≤ r ∧ r ≤ cr.Hi then
        let delta := cr.Delta.getD _case 0
        if delta > (MaxRune : Int) then
          (cr.Lo + ((andNot1 (r - cr.Lo)) ||| (_case &&& 1)), true)
        else (((r : Int) + delta).toNat, true)
      else if r < cr.Lo then to_.search _case r caseRange fuel lo m
      else to_.search _case r caseRange fuel (m + 1) hi
    else (r, false)

/-- The function `to`: maps the rune using the given case mapping. -/
def to_ (_case : Nat) (r : Nat) (caseRange : List CaseRange) : Nat × Bool :=
  if MaxCase ≤ _case then (ReplacementChar, false)
  else to_.search _case r caseRange (caseRange.length + 1) 0 caseRange.length

/-- The function `unicode.To`: maps the rune to the given case. -/
def To (_case : Nat) (r : Nat) : Nat := (to_ _case r CaseRanges).1

/-- The function `unicode.ToUpper`: maps the rune to upper case. -/
def ToUpper (r : Nat) : Nat :=
  if r ≤ MaxASCII then
    if 0x61 ≤ r ∧ r ≤ 0x7A then r - (0x61 - 0x41) else r
  else To UpperCase r

end unicode

/-! ## Package `strings` -/

namespace strings

/-- The table `asciiSpace`: the ASCII bytes that are white space. -/
def asciiSpace (c : Nat) : Nat :=
  if c = 0x09 ∨ c = 0x0A ∨ c = 0x0B ∨ c = 0x0C ∨ c = 0x0D ∨ c = 0x20 then 1 else 0

/-- The loop of `indexFunc`, `for i, r := range s`, with `rest = s[i:]`: a range
over a string decodes one rune per iteration and an invalid byte yields
`RuneError` and advances by one byte. -/
def indexFunc.loop (f : Nat → Bool) (truth : Bool) : Nat → GoString → Nat → Option Nat
  | 0, _, _ => none
  | fuel + 1, rest, i =>
    if rest = [] then none else
    let d := utf8.DecodeRuneInString rest
    if f d.1 == truth then some i
    else indexFunc.loop f truth fuel (rest.drop d.2) (i + d.2)

/-- The function `indexFunc`: the index of the first rune `r` of `s` with
`f(r) == truth`, `none` when there is none. -/
def indexFunc (s : GoString) (f : Nat → Bool) (truth : Bool) : Option Nat :=
  indexFunc.loop f truth s.length s 0

/-- The loop of `lastIndexFunc`: `for i := len(s); i > 0; { ... }`. -/
def lastIndexFunc.loop (s : GoString) (f : Nat → Bool) (truth : Bool) : Nat → Nat → Option Nat
  | 0, _ => none
  | fuel + 1, i =>
    if i > 0 then
      let d := utf8.DecodeLastRuneInString (slice s 0 i)
      let i := i - d.2
      if f d.1 == truth then some i
      else lastIndexFunc.loop s f truth fuel i
    else none

/-- The function `lastIndexFunc`: the index of the last rune `r` of `s` with
`f(r) == truth`, `none` when there is none. -/
def lastIndexFunc (s : GoString) (f : Nat → Bool) (truth : Bool) : Option Nat :=
  lastIndexFunc.loop s f truth s.length s.length

/-- The function `strings.TrimLeftFunc`: `s` without its leading runes satisfying `f`. -/
def TrimLeftFunc (s : GoString) (f : Nat → Bool) : GoString :=
  match indexFunc s f false with
  | none => []
  | some i => s.drop i

/-- The function `strings.TrimRightFunc`: `s` without its trailing runes satisfying `f`. -/
def TrimRightFunc (s : GoString) (f : Nat → Bool) : GoString :=
  match lastIndexFunc s f false with
  | some i =>
    if byteAt s i ≥ utf8.RuneSelf then
      let wid := (utf8.DecodeRuneInString (s.drop i)).2
      slice s 0 (i + wid)
    else slice s 0 (i + 1)
  | none => slice s 0 0

/-- The function `strings.TrimFunc`: `s` without its leading and trailing runes
satisfying `f`. -/
def TrimFunc (s : GoString) (f : Nat → Bool) : GoString :=
  TrimRightFunc (TrimLeftFunc s f) f

/-- The second loop of `TrimSpace`, over `t = s[start:]` with `stop` counted from
`start`: looks for the first ASCII non-space byte from the end. -/
def TrimSpace.scanStop (t : GoString) : Nat → GoString
  | 0 => slice t 0 0
  | stop + 1 =>
    let c := byteAt t stop
    if c ≥ utf8.RuneSelf then TrimRightFunc (slice t 0 (stop + 1)) unicode.IsSpace
    else if asciiSpace c = 0 then slice t 0 (stop + 1)
    else TrimSpace.scanStop t stop

/-- The first loop of `TrimSpace`, over the remaining bytes `s[start:]`: looks for
the first ASCII non-space byte, falls back to `TrimFunc` at a non-ASCII byte, and
hands `s[start:]` to the second loop. -/
def TrimSpace.scanStart : GoString → GoString
  | [] => TrimSpace.scanStop [] 0
  | c :: rest =>
    if c.val ≥ utf8.RuneSelf then TrimFunc (c :: rest) unicode.IsSpace
    else if asciiSpace c.val = 0 then TrimSpace.scanStop (c :: rest) (c :: rest).length
    else TrimSpace.scanStart rest

/-- The function `strings.TrimSpace`: `s` without leading and trailing white space, as
defined by Unicode. -/
def TrimSpace (s : GoString) : GoString := TrimSpace.scanStart s

end strings

/-! ## Package `net/http` -/

namespace http

def MethodGet : GoString := ascii "GET"
def StatusOK : Nat := 200
def StatusBadRequest : Nat := 400
def StatusMethodNotAllowed : Nat := 405

/-- The type `url.Values`: the parsed query, each key with its values in order. -/
abbrev Values := List (GoString × List GoString)

/-- The method `Values.Get`: the first value of the key, the empty string when the key
has no value. -/
def Values.Get (v : Values) (key : GoString) : GoString :=
  match v.lookup key with
  | none => []
  | some vs => if vs.length = 0 then [] else vs.headD []

/-- The type `http.Header`. -/
abbrev Header := List (GoString × List GoString)

/-- The method `Header.Set`: sets the entries of the key to the single value (the keys
used by the handler are already in canonical form). -/
def Header.Set (h : Header) (key value : GoString) : Header :=
  (key, [value]) :: h.filter fun kv => kv.1 ≠ key

/-- The method `Header.Get`: the first value of the key, the empty string when absent. -/
def Header.Get (h : Header) (key : GoString) : GoString :=
  match h.lookup key with
  | none => []
  | some vs => vs.headD []

/-- The part of `http.Request` that the handler reads: the method and the parsed query of
the URL (`r.URL.Query()`). -/
structure Request where
  Method : GoString
  Query : Values

end http

/-! ## `main.go` -/

def errorInvalidInput : GoString := ascii "Invalid Input"
def errorMethodNotAllowed : GoString := ascii "Method not allowed"

/-- The struct `Response` represents the success response structure. -/
structure Response where
  Message : GoString
deriving DecidableEq

/-- The struct `ErrorResponse` represents the error response structure. -/
structure ErrorResponse where
  Error : GoString
deriving DecidableEq

/-- A value handed to `json.NewEncoder(w).Encode`: one of the two response structs. -/
inductive Encoded where
  | response (v : Response)
  | errorResponse (v : ErrorResponse)
deriving DecidableEq

/-! ## Package `encoding/json` -/

namespace json

/-- The loop of `appendString` over `src[i:]`, read as the string value that the JSON
text it writes denotes. A byte below `RuneSelf` is written as itself or as an escape
sequence for itself. At any other byte the rune is decoded from at most `UTFMax` bytes:
an invalid encoding (`c == utf8.RuneError && size == 1`) is written as the escape of
U+FFFD and one byte is skipped; a valid rune is written as its own bytes, or, for U+2028
and U+2029, as the escape of itself. -/
def appendString.loop : Nat → GoString → GoString
  | 0, _ => []
  | fuel + 1, src =>
    match src with
    | [] => []
    | b :: rest =>
      if b.val < utf8.RuneSelf then b :: appendString.loop fuel rest
      else
        let n := if src.length > utf8.UTFMax then utf8.UTFMax else src.length
        let d := utf8.DecodeRuneInString (slice src 0 n)
        if d.1 = utf8.RuneError ∧ d.2 = 1 then
          utf8.AppendRune utf8.RuneError ++ appendString.loop fuel (src.drop d.2)
        else slice src 0 d.2 ++ appendString.loop fuel (src.drop d.2)

/-- The value of the JSON string that `appendString` writes for `src`, which is what a
JSON decoder reads back: `src` with every byte that is not part of a valid UTF-8 encoding
replaced by U+FFFD. -/
def appendString (src : GoString) : GoString := appendString.loop src.length src

/-- The value that a JSON decoder reads back from what `Marshal` writes for `v`: the
struct with its string field as `appendString` writes it. -/
def Marshal : Encoded → Encoded
  | .response v => .response ⟨appendString v.Message⟩
  | .errorResponse v => .errorResponse ⟨appendString v.Error⟩

end json

namespace http

/-- An `http.ResponseWriter` that records what the handler does with it (as
`httptest.ResponseRecorder`): the header map, the status code and the headers sent by
the first `WriteHeader`, and the JSON values written to the body, oldest first. -/
structure ResponseWriter where
  HeaderMap : Header
  wroteHeader : Bool
  Code : Nat
  snapHeader : Header
  Body : List Encoded
deriving DecidableEq

/-- The function `httptest.NewRecorder`: an initialised recorder. -/
def NewRecorder : ResponseWriter := ⟨[], false, 200, [], []⟩

/-- The call `w.Header().Set(key, value)`. -/
def ResponseWriter.SetHeader (w : ResponseWriter) (key value : GoString) : ResponseWriter :=
  { w with HeaderMap := w.HeaderMap.Set key value }

/-- The method `WriteHeader`: sends the status code and the current headers; a second
call has no effect. -/
def ResponseWriter.WriteHeader (w : ResponseWriter) (code : Nat) : ResponseWriter :=
  if w.wroteHeader then w
  else { w with wroteHeader := true, Code := code, snapHeader := w.HeaderMap }

/-- The call `json.NewEncoder(w).Encode(v)`: writes the JSON of `v` to the body (a write
before any `WriteHeader` sends status 200 first). The body is recorded as the value that
a JSON decoder reads back from the bytes written, as the tests of the repository read
it. -/
def ResponseWriter.Encode (w : ResponseWriter) (v : Encoded) : ResponseWriter :=
  let w := if w.wroteHeader then w else w.WriteHeader StatusOK
  { w with Body := w.Body ++ [json.Marshal v] }

end http

/-! ## `main.go`: the functions -/

/-- The function `isFirstHalfAlphabet` returns true when the first character of name is a
letter that falls within the first half of the English alphabet (A-M). -/
def isFirstHalfAlphabet (name : GoString) : Bool :=
  if name = [] then false else
  let first := (utf8.DecodeRuneInString name).1
  if first = utf8.RuneError then false else
  if !unicode.IsLetter first then false else
  let first := unicode.ToUpper first
  decide (first ≥ 0x41 ∧ first ≤ 0x4D)

/-- The function `helloWorldHandler` handles the /hello-world endpoint. -/
def helloWorldHandler (w : http.ResponseWriter) (r : http.Request) : http.ResponseWriter :=
  let w := w.SetHeader (ascii "Content-Type") (ascii "application/json")
  if r.Method ≠ http.MethodGet then
    let w := w.WriteHeader http.StatusMethodNotAllowed
    w.Encode (.errorResponse ⟨errorMethodNotAllowed⟩)
  else
  let name := strings.TrimSpace (r.Query.Get (ascii "name"))
  if name = [] ∨ (!isFirstHalfAlphabet name) = true then
    let w := w.WriteHeader http.StatusBadRequest
    w.Encode (.errorResponse ⟨errorInvalidInput⟩)
  else
  let w := w.WriteHeader http.StatusOK
  w.Encode (.response ⟨ascii "Hello " ++ name⟩)

/-- The response recorded for the request `r` by a fresh recorder, as the tests obtain
it: `rec := httptest.NewRecorder(); handler.ServeHTTP(rec, req)`. -/
def serve (r : http.Request) : http.ResponseWriter :=
  helloWorldHandler http.NewRecorder r

/-- A request with the given method and the single query parameter `name`, as built by
`newHelloWorldRequest` of the tests. -/
def newHelloWorldRequest (method name : GoString) : http.Request :=
  ⟨method, [(ascii "name", [name])]⟩

/-! ## Vocabulary of the proofs -/

/-- A string that is empty or starts with a byte that is not a continuation byte. -/
def utf8.noCont (y : GoString) : Prop := ∀ b ∈ y.head?, ¬ (0x80 ≤ b.val ∧ b.val ≤ 0xBF)

/-- The code points for which `unicode.IsSpace` holds. -/
def spaceRunes : List Nat :=
  [0x09, 0x0A, 0x0B, 0x0C, 0x0D, 0x20, 0x85, 0xA0, 0x1680, 0x2000, 0x2001, 0x2002, 0x2003,
    0x2004, 0x2005, 0x2006, 0x2007, 0x2008, 0x2009, 0x200A, 0x2028, 0x2029, 0x202F, 0x205F,
    0x3000]

/-- The header map of every response of the handler. -/
def jsonHeader : http.Header := [(ascii "Content-Type", [ascii "application/json"])]

namespace utf8

/-- The function `utf8.ValidRune`: whether the rune can be legally encoded as UTF-8. -/
def ValidRune (r : Nat) : Bool :=
  if r < surrogateMin then true
  else if surrogateMax < r ∧ r ≤ MaxRune then true
  else false

/-- The first bytes `c a` of a well-formed three-byte sequence. -/
def lead3 (c a : Nat) : Prop :=
  (c = 0xE0 ∧ 0xA0 ≤ a ∧ a ≤ 0xBF) ∨
  ((0xE1 ≤ c ∧ c ≤ 0xEC ∨ 0xEE ≤ c ∧ c ≤ 0xEF) ∧ 0x80 ≤ a ∧ a ≤ 0xBF) ∨
  (c = 0xED ∧ 0x80 ≤ a ∧ a ≤ 0x9F)

instance lead3.instDecidable (c a : Nat) : Decidable (lead3 c a) := by unfold lead3; infer_instance

/-- The first bytes `c a` of a well-formed four-byte sequence. -/
def lead4 (c a : Nat) : Prop :=
  (c = 0xF0 ∧ 0x90 ≤ a ∧ a ≤ 0xBF) ∨
  (0xF1 ≤ c ∧ c ≤ 0xF3 ∧ 0x80 ≤ a ∧ a ≤ 0xBF) ∨
  (c = 0xF4 ∧ 0x80 ≤ a ∧ a ≤ 0x8F)

instance lead4.instDecidable (c a : Nat) : Decidable (lead4 c a) := by unfold lead4; infer_instance

/-- A continuation byte. -/
def cont (a : Nat) : Prop := 0x80 ≤ a ∧ a ≤ 0xBF

instance cont.instDecidable (a : Nat) : Decidable (cont a) := by unfold cont; infer_instance

/-- The decoder, by the table of well-formed UTF-8 byte sequences of the Unicode
standard. -/
def decodeSpec : GoString → Nat × Nat
  | [] => (RuneError, 0)
  | c :: rest =>
    if c.val < 0x80 then (c.val, 1)
    else
      match rest with
      | [] => (RuneError, 1)
      | a :: rest2 =>
        if 0xC2 ≤ c.val ∧ c.val ≤ 0xDF ∧ cont a.val then
          (((c.val &&& mask2) <<< 6) ||| (a.val &&& maskx), 2)
        else
          match rest2 with
          | [] => (RuneError, 1)
          | b :: rest3 =>
            if lead3 c.val a.val ∧ cont b.val then
              (((c.val &&& mask3) <<< 12) ||| ((a.val &&& maskx) <<< 6) ||| (b.val &&& maskx), 3)
            else
              match rest3 with
              | [] => (RuneError, 1)
              | d :: _ =>
                if lead4 c.val a.val ∧ cont b.val ∧ cont d.val then
                  (((c.val &&& mask4) <<< 18) ||| ((a.val &&& maskx) <<< 12) |||
                    ((b.val &&& maskx) <<< 6) ||| (d.val &&& maskx), 4)
                else (RuneError, 1)

end utf8

/-- The function `isFirstHalfAlphabet` without its `first == utf8.RuneError` branch, to be
compared with the function of the source. -/
def isFirstHalfAlphabet_noRuneErrorCheck (name : GoString) : Bool :=
  if name = [] then false else
  let first := (utf8.DecodeRuneInString name).1
  if !unicode.IsLetter first then false else
  let first := unicode.ToUpper first
  decide (first ≥ 0x41 ∧ first ≤ 0x4D)

/-- The function `helloWorldHandler` with the condition `!isFirstHalfAlphabet(name)` alone in
place of `name == "" || !isFirstHalfAlphabet(name)`, to be compared with the handler of the
source. -/
def helloWorldHandler_noEmptyGuard (w : http.ResponseWriter) (r : http.Request) :
    http.ResponseWriter :=
  let w := w.SetHeader (ascii "Content-Type") (ascii "application/json")
  if r.Method ≠ http.MethodGet then
    let w := w.WriteHeader http.StatusMethodNotAllowed
    w.Encode (.errorResponse ⟨errorMethodNotAllowed⟩)
  else
  let name := strings.TrimSpace (r.Query.Get (ascii "name"))
  if (!isFirstHalfAlphabet name) = true then
    let w := w.WriteHeader http.StatusBadRequest
    w.Encode (.errorResponse ⟨errorInvalidInput⟩)
  else
  let w := w.WriteHeader http.StatusOK
  w.Encode (.response ⟨ascii "Hello " ++ name⟩)

/-! ## Facts about the decoder -/

namespace utf8

theorem first_ascii : ∀ n, n < 128 → first.getD n xx = as := by decide

set_option maxRecDepth 100000 in
/-- The content of the table `first`, by ranges of the first byte. -/
theorem first_class : ∀ n, n < 256 →
    (n < 0x80 ∧ first.getD n xx = 0xF0) ∨
    ((0x80 ≤ n ∧ n < 0xC2 ∨ 0xF5 ≤ n) ∧ first.getD n xx = 0xF1) ∨
    (0xC2 ≤ n ∧ n ≤ 0xDF ∧ first.getD n xx = 0x02) ∨
    (n = 0xE0 ∧ first.getD n xx = 0x13) ∨
    ((0xE1 ≤ n ∧ n ≤ 0xEC ∨ 0xEE ≤ n ∧ n ≤ 0xEF) ∧ first.getD n xx = 0x03) ∨
    (n = 0xED ∧ first.getD n xx = 0x23) ∨
    (n = 0xF0 ∧ first.getD n xx = 0x34) ∨
    (0xF1 ≤ n ∧ n ≤ 0xF3 ∧ first.getD n xx = 0x04) ∨
    (n = 0xF4 ∧ first.getD n xx = 0x44) := by decide

theorem land7_s1 : (2 : Nat) &&& 7 = 2 := by decide
theorem land7_s2 : (19 : Nat) &&& 7 = 3 := by decide
theorem land7_s3 : (3 : Nat) &&& 7 = 3 := by decide
theorem land7_s4 : (35 : Nat) &&& 7 = 3 := by decide
theorem land7_s5 : (52 : Nat) &&& 7 = 4 := by decide
theorem land7_s6 : (4 : Nat) &&& 7 = 4 := by decide
theorem land7_s7 : (68 : Nat) &&& 7 = 4 := by decide

theorem signMask_as : signMask as = 0 := by decide

theorem signMask_xx : signMask xx = 2 ^ 32 - 1 := by decide

theorem andNot_zero (a : Nat) (h : a < 2 ^ 32) : andNot a 0 = a := by
  unfold andNot
  rw [Nat.zero_xor, Nat.and_pow_two_sub_one_eq_mod, Nat.mod_eq_of_lt h]

theorem DecodeRuneInString_nil : DecodeRuneInString [] = (RuneError, 0) := by
  simp [DecodeRuneInString]

theorem DecodeRuneInString_ascii (c : Byte) (rest : GoString) (h : c.val < 128) :
    DecodeRuneInString (c :: rest) = (c.val, 1) := by
  have hc : c.val < 2 ^ 32 := by omega
  have h1 : first[c.val]?.getD xx = as := by simpa using first_ascii _ h
  simp [DecodeRuneInString, byteAt, h1, signMask_as, andNot_zero _ hc]

/-- The width of a decoded rune is between 1 and the length of a non-empty string. -/
theorem DecodeRuneInString_width (s : GoString) (hs : s ≠ []) :
    1 ≤ (DecodeRuneInString s).2 ∧ (DecodeRuneInString s).2 ≤ s.length := by
  obtain ⟨c, rest, rfl⟩ := List.exists_cons_of_ne_nil hs
  have hcl := first_class c.val c.isLt
  unfold DecodeRuneInString
  simp only [byteAt, List.getD_cons_zero]
  generalize first.getD c.val xx = x at hcl ⊢
  rcases hcl with ⟨_, h⟩ | ⟨_, h⟩ | ⟨_, _, h⟩ | ⟨_, h⟩ | ⟨_, h⟩ | ⟨_, h⟩ | ⟨_, h⟩ |
      ⟨_, _, h⟩ | ⟨_, h⟩ <;>
    subst h <;>
    simp [as, xx, acceptRanges, locb, hicb, land7_s1, land7_s2, land7_s3, land7_s4, land7_s5,
      land7_s6, land7_s7] <;>
    split_ifs <;> simp <;> omega

theorem decode_xx (c : Nat) : andNot c (signMask 241) ||| (65533 &&& signMask 241) = 65533 := by
  have h : signMask 241 = 4294967295 := by decide
  rw [h]
  have h2 : (65533 : Nat) &&& 4294967295 = 65533 := by decide
  simp [andNot, h2]

theorem noCont_of_decode (s : GoString) (h : (DecodeRuneInString s).1 ≠ RuneError) :
    noCont s := by
  cases s with
  | nil => intro b hb; simp at hb
  | cons c rest =>
    intro b hb
    simp at hb
    subst hb
    intro hc
    apply h
    have hcl := first_class c.val c.isLt
    unfold DecodeRuneInString
    simp only [byteAt, List.getD_cons_zero]
    generalize first.getD c.val xx = x at hcl ⊢
    rcases hcl with ⟨_, h⟩ | ⟨_, h⟩ | ⟨_, _, h⟩ | ⟨_, h⟩ | ⟨_, h⟩ | ⟨_, h⟩ | ⟨_, h⟩ |
      ⟨_, _, h⟩ | ⟨_, h⟩ <;> first | omega | (subst h; simp [as, xx, RuneError, decode_xx])

set_option maxRecDepth 100000 in
theorem RuneStart_iff : ∀ n, n < 256 → (RuneStart n = true ↔ ¬ (0x80 ≤ n ∧ n ≤ 0xBF)) := by
  decide

theorem scan_le (s : GoString) (lim : Int) (fuel : Nat) (start : Int) :
    DecodeLastRuneInString.scan s lim fuel start ≤ start := by
  induction fuel generalizing start with
  | zero => simp [DecodeLastRuneInString.scan]
  | succ n ih =>
    unfold DecodeLastRuneInString.scan
    split_ifs
    · exact le_rfl
    · exact le_trans (ih _) (by omega)
    · exact le_rfl

theorem byteAt_lt (s : GoString) (i : Nat) : byteAt s i < 256 := (s.getD i 0).isLt

theorem byteAt_append_right (m w : GoString) (k : Nat) :
    byteAt (m ++ w) (m.length + k) = byteAt w k := by
  simp [byteAt, List.getElem?_append_right]

theorem byteAt_append_left (m w : GoString) (k : Nat) (h : k < m.length) :
    byteAt (m ++ w) k = byteAt m k := by
  simp [byteAt, List.getElem?_append_left h]

theorem slice_zero (s : GoString) (i : Nat) : slice s 0 i = s.take i := by
  simp [slice]

/-- The last rune is either reported as invalid, or it is what the forward decoder finds
at the position where it starts. -/
theorem DecodeLastRuneInString_spec (s : GoString) (hs : s ≠ []) :
    1 ≤ (DecodeLastRuneInString s).2 ∧ (DecodeLastRuneInString s).2 ≤ s.length ∧
    (DecodeLastRuneInString s = (RuneError, 1) ∨
      DecodeRuneInString (s.drop (s.length - (DecodeLastRuneInString s).2)) =
        DecodeLastRuneInString s) := by
  have hlen : 0 < s.length := List.length_pos.mpr hs
  unfold DecodeLastRuneInString
  simp only [show ¬ s.length = 0 by omega, if_false]
  by_cases h1 : byteAt s ((s.length : Int) - 1).toNat < RuneSelf
  · simp only [h1, if_true]
    refine ⟨le_rfl, by simpa using hlen, Or.inr ?_⟩
    rcases List.eq_nil_or_concat s with h | ⟨m, c, rfl⟩
    · exact absurd h hs
    · rw [List.concat_eq_append] at h1 ⊢
      have e : ((((m ++ [c]).length : Nat) : Int) - 1).toNat = m.length + 0 := by simp
      rw [e, byteAt_append_right] at h1 ⊢
      simp [byteAt] at h1 ⊢
      exact DecodeRuneInString_ascii c [] (by simpa [RuneSelf] using h1)
  · simp only [h1, if_false]
    generalize hlim : (if (s.length : Int) - (UTFMax : Int) < 0 then (0 : Int)
      else (s.length : Int) - (UTFMax : Int)) = lim
    have hsc := scan_le s lim UTFMax ((s.length : Int) - 1 - 1)
    generalize DecodeLastRuneInString.scan s lim UTFMax ((s.length : Int) - 1 - 1) = st at hsc ⊢
    generalize hk : (if st < 0 then (0 : Int) else st) = k
    have hk0 : 0 ≤ k := by rw [← hk]; split_ifs <;> omega
    have hk1 : k ≤ (s.length : Int) - 1 := by rw [← hk]; split_ifs <;> omega
    obtain ⟨n, rfl⟩ := Int.eq_ofNat_of_zero_le hk0
    have hn : n < s.length := by omega
    have hsl : slice s ((n : Int)).toNat s.length = s.drop n := by simp [slice]
    rw [hsl]
    have hw := DecodeRuneInString_width (s.drop n) (by simp; omega)
    split_ifs with h2
    · simp; omega
    · have h3 : n + (DecodeRuneInString (s.drop n)).2 = s.length := by
        have := not_not.mp h2
        omega
      have h4 : s.length - (DecodeRuneInString (s.drop n)).2 = n := by omega
      simp only [h4]
      exact ⟨hw.1, by omega, Or.inr trivial⟩

theorem DecodeRuneInString_append (s y : GoString) (hs : s ≠ []) (hy : noCont y) :
    DecodeRuneInString (s ++ y) = DecodeRuneInString s := by
  obtain ⟨c, rest, rfl⟩ := List.exists_cons_of_ne_nil hs
  cases y with
  | nil => simp
  | cons b y =>
    have hb : ¬ (0x80 ≤ b.val ∧ b.val ≤ 0xBF) := hy b (by simp)
    have hcl := first_class c.val c.isLt
    unfold DecodeRuneInString
    simp only [byteAt, List.getD_cons_zero, List.cons_append]
    generalize first.getD c.val xx = x at hcl ⊢
    rcases hcl with ⟨_, h⟩ | ⟨_, h⟩ | ⟨_, _, h⟩ | ⟨_, h⟩ | ⟨_, h⟩ | ⟨_, h⟩ | ⟨_, h⟩ |
      ⟨_, _, h⟩ | ⟨_, h⟩ <;>
    subst h <;>
    rcases rest with _ | ⟨a1, _ | ⟨a2, _ | ⟨a3, rest⟩⟩⟩ <;>
    simp [as, xx, acceptRanges, locb, hicb, land7_s1, land7_s2, land7_s3, land7_s4, land7_s5,
      land7_s6, land7_s7] <;>
    (try split_ifs) <;> (try simp) <;> (try omega)

theorem DecodeLast_shape1 (m : GoString) (c : Byte) (hc : c.val < 0x80) :
    DecodeLastRuneInString (m ++ [c]) = (c.val, 1) := by
  unfold DecodeLastRuneInString
  have e : ((((m ++ [c]).length : Nat) : Int) - 1).toNat = m.length + 0 := by simp
  simp only [e, byteAt_append_right]
  simp [byteAt, RuneSelf, hc]

theorem scan_found (s : GoString) (lim : Int) (j : Nat) (hl : lim ≤ j)
    (hj : RuneStart (byteAt s j) = true) :
    ∀ (d fuel : Nat), d < fuel →
      (∀ i, j < i → i ≤ j + d → RuneStart (byteAt s i) = false) →
      DecodeLastRuneInString.scan s lim fuel ((j + d : Nat) : Int) = (j : Int) := by
  intro d
  induction d with
  | zero =>
    intro fuel hf _
    obtain ⟨f, rfl⟩ : ∃ f, fuel = f + 1 := ⟨fuel - 1, by omega⟩
    unfold DecodeLastRuneInString.scan
    simp [hl, hj]
  | succ d ih =>
    intro fuel hf hi
    obtain ⟨f, rfl⟩ : ∃ f, fuel = f + 1 := ⟨fuel - 1, by omega⟩
    unfold DecodeLastRuneInString.scan
    have h1 : lim ≤ ((j + (d + 1) : Nat) : Int) := by omega
    have h2 : RuneStart (byteAt s (j + (d + 1))) = false := hi _ (by omega) (by omega)
    have h3 : (((j + (d + 1) : Nat) : Int) - 1) = ((j + d : Nat) : Int) := by omega
    simp only [h1, if_true, Int.toNat_ofNat, h2, h3]
    exact ih f (by omega) (fun i a b => hi i a (by omega))

/-- The last rune of a string that ends with a lead byte followed by one to three
continuation bytes. -/
theorem DecodeLast_multi (m w : GoString) (hk : 2 ≤ w.length) (hk4 : w.length ≤ 4)
    (h0 : RuneStart (byteAt w 0) = true)
    (hi : ∀ i, i < w.length → 0 < i → RuneStart (byteAt w i) = false) :
    DecodeLastRuneInString (m ++ w) =
      if (DecodeRuneInString w).2 = w.length then DecodeRuneInString w else (RuneError, 1) := by
  unfold DecodeLastRuneInString
  have hlen : (m ++ w).length = m.length + w.length := by simp
  have e1 : ((((m ++ w).length : Nat) : Int) - 1).toNat = m.length + (w.length - 1) := by
    rw [hlen]; omega
  have e2 : ((((m ++ w).length : Nat) : Int) - 1 - 1) = ((m.length + (w.length - 2) : Nat) : Int) := by
    rw [hlen]; omega
  have hlast : ¬ byteAt w (w.length - 1) < RuneSelf := by
    have := hi (w.length - 1) (by omega) (by omega)
    have h256 := byteAt_lt w (w.length - 1)
    have := (RuneStart_iff _ h256).not.mp (by simp [this])
    simp [RuneSelf]
    omega
  simp only [e1, e2, byteAt_append_right, hlast, if_false,
    show ¬ (m ++ w).length = 0 by rw [hlen]; omega]
  generalize hlim : (if (((m ++ w).length : Nat) : Int) - (UTFMax : Int) < 0 then (0 : Int)
      else (((m ++ w).length : Nat) : Int) - (UTFMax : Int)) = lim
  have hl : lim ≤ (m.length : Int) := by
    rw [← hlim, hlen]; simp only [UTFMax]; split_ifs <;> omega
  have hsc := scan_found (m ++ w) lim m.length hl
    (by have := byteAt_append_right m w 0; simpa using this ▸ h0)
    (w.length - 2) UTFMax (by simp only [UTFMax]; omega)
    (by
      intro i hi1 hi2
      obtain ⟨k, rfl⟩ : ∃ k, i = m.length + k := ⟨i - m.length, by omega⟩
      rw [byteAt_append_right]
      exact hi k (by omega) (by omega))
  rw [hsc]
  have hsl : slice (m ++ w) ((m.length : Int)).toNat (m ++ w).length = w := by
    simp only [slice, List.take_length, Int.toNat_ofNat, List.drop_left]
  simp only [hsl, show ¬ ((m.length : Int) < 0) by omega, if_false]
  split_ifs with h1 h2 h3
  · exfalso; apply h1; rw [h2, hlen]; simp
  · rfl
  · rfl
  · exfalso; apply h3; have := not_not.mp h1; rw [hlen] at this; omega

/-- A successful decode only looks at the bytes of the rune. -/
theorem DecodeRuneInString_initial (w rest : GoString)
    (hw : (DecodeRuneInString w).2 = w.length) (hr : (DecodeRuneInString w).1 ≠ RuneError) :
    DecodeRuneInString (w ++ rest) = DecodeRuneInString w := by
  cases w with
  | nil => simp [DecodeRuneInString, RuneError] at hr
  | cons c tail =>
    have hcl := first_class c.val c.isLt
    revert hw hr
    unfold DecodeRuneInString
    simp only [byteAt, List.getD_cons_zero, List.cons_append]
    generalize first.getD c.val xx = x at hcl ⊢
    rcases hcl with ⟨_, h⟩ | ⟨_, h⟩ | ⟨_, _, h⟩ | ⟨_, h⟩ | ⟨_, h⟩ | ⟨_, h⟩ | ⟨_, h⟩ |
      ⟨_, _, h⟩ | ⟨_, h⟩ <;>
    subst h <;>
    rcases tail with _ | ⟨a1, _ | ⟨a2, _ | ⟨a3, tail⟩⟩⟩ <;>
    simp [as, xx, acceptRanges, locb, hicb, land7_s1, land7_s2, land7_s3, land7_s4, land7_s5,
      land7_s6, land7_s7, RuneError, decode_xx] <;>
    (try split_ifs) <;> (try simp) <;> (try omega)

end utf8

/-! ## Facts about white space -/

open utf8

theorem IsSpace_mem (r : Nat) (h : unicode.IsSpace r = true) : r ∈ spaceRunes := by
  unfold unicode.IsSpace at h
  split_ifs at h with h1
  · simp at h
    simp only [spaceRunes, List.mem_cons]
    rcases h with (((((((h | h) | h) | h) | h) | h) | h) | h) <;> simp [h]
  · simp [unicode.isExcludingLatin, unicode.White_Space, unicode.is16, unicode.linearMax,
      unicode.is16.linear, unicode.MaxLatin1] at h h1
    obtain ⟨h2, h3, h4⟩ := h
    have hr : r = 5760 ∨ (8192 ≤ r ∧ r ≤ 8202) ∨ r = 8232 ∨ r = 8233 ∨ r = 8239 ∨ r = 8287 ∨
        r = 12288 := by
      split_ifs at h4 with h5 h6
      · left; omega
      · omega
      · omega
    rcases hr with h | ⟨ha, hb⟩ | h | h | h | h | h
    · simp [h, spaceRunes]
    · interval_cases r <;> simp [spaceRunes]
    all_goals simp [h, spaceRunes]

set_option maxRecDepth 100000 in
theorem spaceRunes_facts : ∀ r ∈ spaceRunes,
    AppendRune r ≠ [] ∧ DecodeRuneInString (AppendRune r) = (r, (AppendRune r).length) ∧
    r ≠ RuneError ∧ unicode.IsSpace r = true ∧
    ((AppendRune r).length = 1 ∧ byteAt (AppendRune r) 0 < 0x80 ∨
      (2 ≤ (AppendRune r).length ∧ (AppendRune r).length ≤ 4 ∧
        RuneStart (byteAt (AppendRune r) 0) = true ∧
        ∀ i, i < (AppendRune r).length → 0 < i → RuneStart (byteAt (AppendRune r) i) = false)) := by
  decide

/-- The encoding of a white space rune: it decodes to the rune, forwards (whatever
follows) and backwards (whatever precedes), and does not start with a continuation
byte. -/
theorem space_enc (r : Nat) (h : unicode.IsSpace r = true) :
    AppendRune r ≠ [] ∧ noCont (AppendRune r) ∧
    (∀ rest, DecodeRuneInString (AppendRune r ++ rest) = (r, (AppendRune r).length)) ∧
    (∀ m, DecodeLastRuneInString (m ++ AppendRune r) = (r, (AppendRune r).length)) := by
  obtain ⟨h1, h2, h3, _, h5⟩ := spaceRunes_facts r (IsSpace_mem r h)
  refine ⟨h1, noCont_of_decode _ (by rw [h2]; exact h3), ?_, ?_⟩
  · intro rest
    rw [DecodeRuneInString_initial _ _ (by rw [h2]) (by rw [h2]; exact h3), h2]
  · intro m
    rcases h5 with ⟨h6, h7⟩ | ⟨h6, h7, h8, h9⟩
    · obtain ⟨c, hc⟩ : ∃ c, AppendRune r = [c] := List.length_eq_one.mp h6
      rw [hc] at h2 h7 ⊢
      have hc1 : c.val < 0x80 := by simpa [byteAt] using h7
      rw [DecodeLast_shape1 m c hc1]
      rw [DecodeRuneInString_ascii c [] hc1] at h2
      exact h2
    · rw [DecodeLast_multi m _ h6 h7 h8 h9, h2]
      simp

/-! ## Facts about `strings` -/

namespace strings

theorem indexFunc_loop_spec (f : Nat → Bool) (truth : Bool) :
    ∀ (fuel : Nat) (rest : GoString) (i : Nat), rest.length ≤ fuel →
      indexFunc.loop f truth fuel rest i = (indexFunc rest f truth).map (· + i) := by
  intro fuel
  induction fuel using Nat.strong_induction_on with
  | _ fuel ih =>
    intro rest i hlen
    cases rest with
    | nil =>
      cases fuel <;> simp [indexFunc, indexFunc.loop]
    | cons c tail =>
      obtain ⟨n, rfl⟩ : ∃ n, fuel = n + 1 := ⟨fuel - 1, by simp at hlen; omega⟩
      have hw := DecodeRuneInString_width (c :: tail) (by simp)
      simp only [indexFunc, List.length_cons]
      unfold indexFunc.loop
      simp only [List.cons_ne_nil, if_false]
      split_ifs with h
      · simp
      · have hl1 : ((c :: tail).drop (DecodeRuneInString (c :: tail)).2).length ≤ n := by
          simp at hlen ⊢; omega
        have hl2 : ((c :: tail).drop (DecodeRuneInString (c :: tail)).2).length ≤ tail.length := by
          simp; omega
        rw [ih n (by omega) _ _ hl1, ih tail.length (by simp at hlen; omega) _ _ hl2]
        cases indexFunc (List.drop (DecodeRuneInString (c :: tail)).2 (c :: tail)) f truth <;>
          simp
        omega

theorem TrimLeftFunc_nil (f : Nat → Bool) : TrimLeftFunc [] f = [] := by
  simp [TrimLeftFunc, indexFunc, indexFunc.loop]

/-- One iteration of `TrimLeftFunc`. -/
theorem TrimLeftFunc_eq (s : GoString) (hs : s ≠ []) (f : Nat → Bool) :
    TrimLeftFunc s f =
      if f (DecodeRuneInString s).1 = true then TrimLeftFunc (s.drop (DecodeRuneInString s).2) f
      else s := by
  obtain ⟨c, tail, rfl⟩ := List.exists_cons_of_ne_nil hs
  have hw := DecodeRuneInString_width (c :: tail) (by simp)
  unfold TrimLeftFunc
  conv_lhs => unfold indexFunc
  simp only [List.length_cons]
  unfold indexFunc.loop
  simp only [List.cons_ne_nil, if_false]
  by_cases h : f (DecodeRuneInString (c :: tail)).1 = true
  · simp only [h, if_true]
    have hl : ((c :: tail).drop (DecodeRuneInString (c :: tail)).2).length ≤ tail.length := by
      simp; omega
    rw [show (true == false) = false from rfl]
    simp only [Bool.false_eq_true, if_false]
    rw [indexFunc_loop_spec f false _ _ _ hl]
    cases indexFunc (List.drop (DecodeRuneInString (c :: tail)).2 (c :: tail)) f false with
    | none => simp
    | some j => simp [List.drop_drop, Nat.add_comm]
  · have h' : f (DecodeRuneInString (c :: tail)).1 = false := by simpa using h
    simp [h']

theorem slice_zero_ne_nil (s : GoString) (i : Nat) (hi : 0 < i) (hs : i ≤ s.length) :
    slice s 0 i ≠ [] := by
  intro h0
  have := congrArg List.length h0
  rw [slice_zero, List.length_take, List.length_nil] at this
  omega

theorem lastIndexFunc_loop_congr (s : GoString) (k : Nat) (f : Nat → Bool) (truth : Bool) :
    ∀ (i fuel fuel2 : Nat), i ≤ fuel → i ≤ fuel2 → i ≤ k → i ≤ s.length →
      lastIndexFunc.loop s f truth fuel i = lastIndexFunc.loop (s.take k) f truth fuel2 i := by
  intro i
  induction i using Nat.strong_induction_on with
  | _ i ih =>
    intro fuel fuel2 h1 h2 hk hs
    by_cases hi : i = 0
    · subst hi
      cases fuel <;> cases fuel2 <;> simp [lastIndexFunc.loop]
    · obtain ⟨n, rfl⟩ : ∃ n, fuel = n + 1 := ⟨fuel - 1, by omega⟩
      obtain ⟨n2, rfl⟩ : ∃ n, fuel2 = n + 1 := ⟨fuel2 - 1, by omega⟩
      unfold lastIndexFunc.loop
      have e : slice (s.take k) 0 i = slice s 0 i := by
        simp [slice, List.take_take, Nat.min_eq_left hk]
      simp only [e, show i > 0 by omega, if_true]
      split_ifs with h
      · rfl
      · have hne : slice s 0 i ≠ [] := slice_zero_ne_nil s i (by omega) hs
        have hd := (DecodeLastRuneInString_spec _ hne).1
        exact ih _ (by omega) _ _ (by omega) (by omega) (by omega) (by omega)

theorem lastIndexFunc_loop_lt (s : GoString) (f : Nat → Bool) (truth : Bool) :
    ∀ (fuel i j : Nat), i ≤ s.length → lastIndexFunc.loop s f truth fuel i = some j → j < i := by
  intro fuel
  induction fuel with
  | zero => intro i j _ h; simp [lastIndexFunc.loop] at h
  | succ n ih =>
    intro i j hs h
    unfold lastIndexFunc.loop at h
    by_cases hi : i > 0
    · simp only [hi, if_true] at h
      have hne : slice s 0 i ≠ [] := slice_zero_ne_nil s i hi hs
      have hd := (DecodeLastRuneInString_spec _ hne).1
      split_ifs at h with h1
      · simp at h; omega
      · have := ih _ _ (by omega) h
        omega
    · simp [hi] at h

theorem TrimRightFunc_nil (f : Nat → Bool) : TrimRightFunc [] f = [] := by
  simp [TrimRightFunc, lastIndexFunc, lastIndexFunc.loop, slice]

/-- One iteration of `TrimRightFunc`, for a predicate that rejects `RuneError`. -/
theorem TrimRightFunc_eq (s : GoString) (hs : s ≠ []) (f : Nat → Bool)
    (hf : f RuneError = false) :
    TrimRightFunc s f =
      if f (DecodeLastRuneInString s).1 = true then
        TrimRightFunc (s.take (s.length - (DecodeLastRuneInString s).2)) f
      else s := by
  have hlen : 0 < s.length := List.length_pos.mpr hs
  obtain ⟨hd1, hd2, hd3⟩ := DecodeLastRuneInString_spec s hs
  obtain ⟨n, hn⟩ : ∃ n, s.length = n + 1 := ⟨s.length - 1, by omega⟩
  have hsl : slice s 0 (n + 1) = s := by rw [← hn]; simp [slice]
  by_cases h : f (DecodeLastRuneInString s).1 = true
  · simp only [h, if_true]
    have hne : (DecodeLastRuneInString s).1 ≠ RuneError := by
      intro e; rw [e, hf] at h; exact absurd h (by simp)
    have hdec : DecodeRuneInString (s.drop (s.length - (DecodeLastRuneInString s).2)) =
        DecodeLastRuneInString s := by
      rcases hd3 with h3 | h3
      · exact absurd (congrArg Prod.fst h3) hne
      · exact h3
    have hnc : noCont (s.drop (s.length - (DecodeLastRuneInString s).2)) :=
      noCont_of_decode _ (by rw [hdec]; exact hne)
    generalize hk : s.length - (DecodeLastRuneInString s).2 = k at hdec hnc ⊢
    have hkn : k ≤ n := by omega
    have hloop : lastIndexFunc s f false = lastIndexFunc (s.take k) f false := by
      unfold lastIndexFunc
      rw [hn]
      conv_lhs => unfold lastIndexFunc.loop
      simp only [hsl, show n + 1 > 0 by omega, if_true, h]
      rw [show (true == false) = false from rfl]
      simp only [Bool.false_eq_true, if_false]
      have e : n + 1 - (DecodeLastRuneInString s).2 = k := by omega
      rw [e]
      have e2 : (s.take k).length = k := by simp; omega
      rw [e2]
      exact lastIndexFunc_loop_congr s k f false k n k hkn le_rfl le_rfl (by omega)
    unfold TrimRightFunc
    rw [hloop]
    cases hj : lastIndexFunc (s.take k) f false with
    | none => simp [slice]
    | some j =>
      have hjk : j < k := by
        have := lastIndexFunc_loop_lt (s.take k) f false _ _ _ le_rfl hj
        simpa [show k ≤ s.length by omega] using this
      have hb : byteAt (s.take k) j = byteAt s j := by
        simp [byteAt, List.getElem?_take, hjk]
      have hdrop : s.drop j = (s.take k).drop j ++ s.drop k := by
        conv_lhs => rw [← List.take_append_drop k s]
        rw [List.drop_append_of_le_length (by simp; omega)]
      have hne2 : (s.take k).drop j ≠ [] := by
        intro h0
        have := congrArg List.length h0
        simp at this
        omega
      have hwid : (DecodeRuneInString (s.drop j)).2 = (DecodeRuneInString ((s.take k).drop j)).2 := by
        rw [hdrop, DecodeRuneInString_append _ _ hne2 hnc]
      have hw := DecodeRuneInString_width _ hne2
      simp only [hb, hwid]
      have hlen2 : ((s.take k).drop j).length = k - j := by simp; omega
      split_ifs
      · simp only [slice, List.drop_zero, List.take_take]
        congr 1
        omega
      · simp only [slice, List.drop_zero, List.take_take]
        congr 1
        omega
  · have h' : f (DecodeLastRuneInString s).1 = false := by simpa using h
    simp only [h', Bool.false_eq_true, if_false]
    unfold TrimRightFunc lastIndexFunc
    rw [hn]
    unfold lastIndexFunc.loop
    simp only [hsl, show n + 1 > 0 by omega, if_true, h', beq_self_eq_true]
    have hwid : (DecodeRuneInString (s.drop (n + 1 - (DecodeLastRuneInString s).2))).2 =
        (DecodeLastRuneInString s).2 := by
      rw [← hn]
      rcases hd3 with h3 | h3
      · rw [h3]
        have hne : s.drop (s.length - 1) ≠ [] := by
          intro h0
          have := congrArg List.length h0
          simp at this
          omega
        have hw := DecodeRuneInString_width _ hne
        simp at hw ⊢
        omega
      · rw [h3]
    split_ifs with hb
    · rw [hwid]
      simp [slice]
      omega
    · have hi : n + 1 - (DecodeLastRuneInString s).2 < s.length := by omega
      have hone : (DecodeLastRuneInString s).2 = 1 := by
        rcases hd3 with h3 | h3
        · rw [h3]
        · rw [List.drop_eq_getElem_cons hi] at hwid
          have hb2 : (s[n + 1 - (DecodeLastRuneInString s).2]).val < 128 := by
            have : byteAt s (n + 1 - (DecodeLastRuneInString s).2) =
                (s[n + 1 - (DecodeLastRuneInString s).2]).val := by
              simp [byteAt, List.getElem?_eq_getElem hi]
            rw [this] at hb
            simpa [RuneSelf] using hb
          rw [DecodeRuneInString_ascii _ _ hb2] at hwid
          exact hwid.symm
      rw [hone]
      simp [slice]
      omega

theorem IsSpace_RuneError : unicode.IsSpace RuneError = false := by decide

theorem TrimLeftFunc_space_cons (r : Nat) (h : unicode.IsSpace r = true) (s : GoString) :
    TrimLeftFunc (AppendRune r ++ s) unicode.IsSpace = TrimLeftFunc s unicode.IsSpace := by
  obtain ⟨h1, _, h3, _⟩ := space_enc r h
  rw [TrimLeftFunc_eq _ (by simp [h1]), h3 s]
  simp [h]

theorem TrimRightFunc_space_snoc (r : Nat) (h : unicode.IsSpace r = true) (m : GoString) :
    TrimRightFunc (m ++ AppendRune r) unicode.IsSpace = TrimRightFunc m unicode.IsSpace := by
  obtain ⟨h1, _, _, h4⟩ := space_enc r h
  rw [TrimRightFunc_eq _ (by simp [h1]) _ IsSpace_RuneError, h4 m]
  simp [h]

theorem TrimLeftFunc_append (s y : GoString) (hy : noCont y)
    (hy2 : TrimLeftFunc y unicode.IsSpace = []) :
    TrimLeftFunc (s ++ y) unicode.IsSpace =
      if TrimLeftFunc s unicode.IsSpace = [] then [] else TrimLeftFunc s unicode.IsSpace ++ y := by
  generalize hn : s.length = n
  induction n using Nat.strong_induction_on generalizing s with
  | _ n ih =>
    by_cases hs : s = []
    · subst hs
      simp [TrimLeftFunc_nil, hy2]
    · have hw := DecodeRuneInString_width s hs
      rw [TrimLeftFunc_eq (s ++ y) (by simp [hs]), TrimLeftFunc_eq s hs,
        DecodeRuneInString_append s y hs hy]
      by_cases hf : unicode.IsSpace (DecodeRuneInString s).1 = true
      · simp only [hf, if_true]
        rw [List.drop_append_of_le_length hw.2]
        exact ih _ (by simp; omega) _ rfl
      · simp [hf, hs]

theorem stringOfRunes_cons (r : Nat) (rs : List Nat) :
    stringOfRunes (r :: rs) = AppendRune r ++ stringOfRunes rs := by
  simp [stringOfRunes]

theorem stringOfRunes_append (as bs : List Nat) :
    stringOfRunes (as ++ bs) = stringOfRunes as ++ stringOfRunes bs := by
  simp [stringOfRunes]

theorem noCont_stringOfRunes (rs : List Nat) (h : ∀ r ∈ rs, unicode.IsSpace r = true) :
    noCont (stringOfRunes rs) := by
  cases rs with
  | nil => intro b hb; simp [stringOfRunes] at hb
  | cons r rs =>
    obtain ⟨h1, h2, _, _⟩ := space_enc r (h r (by simp))
    rw [stringOfRunes_cons]
    obtain ⟨c, t, hc⟩ := List.exists_cons_of_ne_nil h1
    rw [hc] at h2 ⊢
    exact h2

theorem TrimLeftFunc_spaces (rs : List Nat) (h : ∀ r ∈ rs, unicode.IsSpace r = true)
    (s : GoString) :
    TrimLeftFunc (stringOfRunes rs ++ s) unicode.IsSpace = TrimLeftFunc s unicode.IsSpace := by
  induction rs with
  | nil => simp [stringOfRunes]
  | cons r rs ih =>
    rw [stringOfRunes_cons, List.append_assoc, TrimLeftFunc_space_cons r (h r (by simp))]
    exact ih (fun x hx => h x (by simp [hx]))

theorem TrimRightFunc_spaces (rs : List Nat) (h : ∀ r ∈ rs, unicode.IsSpace r = true)
    (m : GoString) :
    TrimRightFunc (m ++ stringOfRunes rs) unicode.IsSpace = TrimRightFunc m unicode.IsSpace := by
  induction rs generalizing m with
  | nil => simp [stringOfRunes]
  | cons r rs ih =>
    rw [stringOfRunes_cons, ← List.append_assoc, ih (fun x hx => h x (by simp [hx])),
      TrimRightFunc_space_snoc r (h r (by simp))]

/-- The result of `TrimLeftFunc` is a suffix of its argument. -/
theorem TrimLeftFunc_suffix (s : GoString) (f : Nat → Bool) : TrimLeftFunc s f <:+ s := by
  unfold TrimLeftFunc
  cases indexFunc s f false with
  | none => exact List.nil_suffix
  | some i => exact List.drop_suffix _ _

/-- The result of `TrimRightFunc` is a prefix of its argument. -/
theorem TrimRightFunc_isInitial (s : GoString) (f : Nat → Bool) : TrimRightFunc s f <+: s := by
  unfold TrimRightFunc
  cases lastIndexFunc s f false with
  | none => simp [slice]
  | some i =>
    simp only [slice_zero]
    split_ifs <;> exact List.take_prefix _ _

/-- A non-empty result of `TrimLeftFunc` starts with a rune that does not satisfy `f`, and
trimming it again changes nothing. -/
theorem TrimLeftFunc_head (s : GoString) (f : Nat → Bool) :
    TrimLeftFunc s f = [] ∨
      (f (DecodeRuneInString (TrimLeftFunc s f)).1 = false ∧
        TrimLeftFunc (TrimLeftFunc s f) f = TrimLeftFunc s f) := by
  generalize hn : s.length = n
  induction n using Nat.strong_induction_on generalizing s with
  | _ n ih =>
    by_cases hs : s = []
    · subst hs
      left
      exact TrimLeftFunc_nil f
    · have hw := DecodeRuneInString_width s hs
      by_cases hf : f (DecodeRuneInString s).1 = true
      · rw [TrimLeftFunc_eq s hs, if_pos hf]
        exact ih _ (by simp; omega) _ rfl
      · have e : TrimLeftFunc s f = s := by rw [TrimLeftFunc_eq s hs, if_neg hf]
        rw [e]
        exact Or.inr ⟨by simpa using hf, e⟩

/-- The bytes removed by `TrimRightFunc` do not start with a continuation byte, and
trimming the result again changes nothing. -/
theorem TrimRightFunc_decomp (m : GoString) :
    (∃ W, m = TrimRightFunc m unicode.IsSpace ++ W ∧ noCont W) ∧
      TrimRightFunc (TrimRightFunc m unicode.IsSpace) unicode.IsSpace =
        TrimRightFunc m unicode.IsSpace := by
  generalize hn : m.length = n
  induction n using Nat.strong_induction_on generalizing m with
  | _ n ih =>
    by_cases hs : m = []
    · subst hs
      rw [TrimRightFunc_nil]
      exact ⟨⟨[], by simp, by intro b hb; simp at hb⟩, TrimRightFunc_nil _⟩
    · obtain ⟨hd1, hd2, hd3⟩ := DecodeLastRuneInString_spec m hs
      by_cases hf : unicode.IsSpace (DecodeLastRuneInString m).1 = true
      · rw [TrimRightFunc_eq m hs _ IsSpace_RuneError, if_pos hf]
        have hne : (DecodeLastRuneInString m).1 ≠ RuneError := by
          intro e; rw [e, IsSpace_RuneError] at hf; exact absurd hf (by simp)
        have hdec : DecodeRuneInString (m.drop (m.length - (DecodeLastRuneInString m).2)) =
            DecodeLastRuneInString m := by
          rcases hd3 with h3 | h3
          · exact absurd (congrArg Prod.fst h3) hne
          · exact h3
        have hnc : noCont (m.drop (m.length - (DecodeLastRuneInString m).2)) :=
          noCont_of_decode _ (by rw [hdec]; exact hne)
        obtain ⟨⟨W, hW, hWnc⟩, hidem⟩ :=
          ih _ (by simp; omega) (m.take (m.length - (DecodeLastRuneInString m).2)) rfl
        refine ⟨⟨W ++ m.drop (m.length - (DecodeLastRuneInString m).2), ?_, ?_⟩, hidem⟩
        · rw [← List.append_assoc, ← hW, List.take_append_drop]
        · cases W with
          | nil => simpa using hnc
          | cons c t => intro b hb; exact hWnc b (by simpa using hb)
      · have e : TrimRightFunc m unicode.IsSpace = m := by
          rw [TrimRightFunc_eq m hs _ IsSpace_RuneError, if_neg hf]
        rw [e]
        exact ⟨⟨[], by simp, by intro b hb; simp at hb⟩, e⟩

theorem asciiSpace_iff : ∀ c, c < 128 → (asciiSpace c = 0 ↔ unicode.IsSpace c = false) := by
  decide

theorem TrimFunc_nil (f : Nat → Bool) : TrimFunc [] f = [] := by
  simp [TrimFunc, TrimLeftFunc_nil, TrimRightFunc_nil]

theorem TrimRightFunc_ascii_snoc (m : GoString) (c : Byte) (hc : c.val < 128) :
    TrimRightFunc (m ++ [c]) unicode.IsSpace =
      if unicode.IsSpace c.val = true then TrimRightFunc m unicode.IsSpace else m ++ [c] := by
  rw [TrimRightFunc_eq _ (by simp) _ IsSpace_RuneError, DecodeLast_shape1 m c hc]
  simp

/-- The second loop of `TrimSpace` computes `TrimRightFunc`. -/
theorem scanStop_eq (t : GoString) :
    ∀ n, n ≤ t.length → TrimSpace.scanStop t n = TrimRightFunc (t.take n) unicode.IsSpace := by
  intro n
  induction n with
  | zero => intro _; simp [TrimSpace.scanStop, slice, TrimRightFunc_nil]
  | succ n ih =>
    intro hn
    have hlt : n < t.length := by omega
    have htake : t.take (n + 1) = t.take n ++ [t[n]] := by
      rw [List.take_succ, List.getElem?_eq_getElem hlt]; rfl
    have hb : byteAt t n = (t[n]).val := by simp [byteAt, List.getElem?_eq_getElem hlt]
    unfold TrimSpace.scanStop
    simp only [slice_zero, hb]
    by_cases h1 : (t[n]).val ≥ RuneSelf
    · simp only [h1, if_true]
    · simp only [h1, if_false]
      have hc : (t[n]).val < 128 := by simpa [RuneSelf] using h1
      rw [htake, TrimRightFunc_ascii_snoc _ _ hc]
      by_cases h2 : asciiSpace (t[n]).val = 0
      · have := (asciiSpace_iff _ hc).mp h2
        simp [h2, this]
      · have : unicode.IsSpace (t[n]).val = true := by
          have := (asciiSpace_iff _ hc).not.mp h2
          simpa using this
        simp only [h2, if_false, this, if_true]
        exact ih (by omega)

/-- The function `TrimSpace` computes `TrimFunc(s, unicode.IsSpace)`: its ASCII loops are a
fast path. -/
theorem TrimSpace_eq_TrimFunc (s : GoString) : TrimSpace s = TrimFunc s unicode.IsSpace := by
  unfold TrimSpace
  induction s with
  | nil => simp [TrimSpace.scanStart, TrimSpace.scanStop, slice, TrimFunc_nil]
  | cons c rest ih =>
    unfold TrimSpace.scanStart
    by_cases h1 : c.val ≥ RuneSelf
    · simp only [h1, if_true]
    · simp only [h1, if_false]
      have hc : c.val < 128 := by simpa [RuneSelf] using h1
      have hd := DecodeRuneInString_ascii c rest hc
      unfold TrimFunc
      rw [TrimLeftFunc_eq (c :: rest) (by simp), hd]
      by_cases h2 : asciiSpace c.val = 0
      · have := (asciiSpace_iff _ hc).mp h2
        simp only [h2, if_true, this, Bool.false_eq_true, if_false]
        rw [scanStop_eq _ _ le_rfl]
        simp
      · have : unicode.IsSpace c.val = true := by
          have := (asciiSpace_iff _ hc).not.mp h2
          simpa using this
        simp only [h2, if_false, this, if_true]
        rw [ih]
        simp [TrimFunc]

/-- Trimming twice is trimming once. -/
theorem TrimFunc_idem (s : GoString) :
    TrimFunc (TrimFunc s unicode.IsSpace) unicode.IsSpace = TrimFunc s unicode.IsSpace := by
  unfold TrimFunc
  generalize hm : TrimLeftFunc s unicode.IsSpace = m
  obtain ⟨⟨W, hW, hnc⟩, hidem⟩ := TrimRightFunc_decomp m
  have hleft : TrimLeftFunc (TrimRightFunc m unicode.IsSpace) unicode.IsSpace =
      TrimRightFunc m unicode.IsSpace := by
    by_cases ht : TrimRightFunc m unicode.IsSpace = []
    · rw [ht, TrimLeftFunc_nil]
    · rcases TrimLeftFunc_head s unicode.IsSpace with h0 | ⟨h1, _⟩
      · rw [hm] at h0
        rw [h0, TrimRightFunc_nil] at ht
        exact absurd rfl ht
      · rw [hm] at h1
        rw [TrimLeftFunc_eq _ ht]
        have : DecodeRuneInString (TrimRightFunc m unicode.IsSpace) = DecodeRuneInString m := by
          conv_rhs => rw [hW]
          exact (DecodeRuneInString_append _ _ ht hnc).symm
        rw [this, h1]
        simp
  rw [hleft, hidem]

/-- White space around a string does not change what `TrimSpace` returns, and the result
is stable under `TrimSpace`. -/
theorem TrimSpace_spaces (ls rs : List Nat) (hl : ∀ r ∈ ls, unicode.IsSpace r = true)
    (hr : ∀ r ∈ rs, unicode.IsSpace r = true) (n : GoString) :
    TrimSpace (stringOfRunes ls ++ n ++ stringOfRunes rs) = TrimSpace n := by
  rw [TrimSpace_eq_TrimFunc, TrimSpace_eq_TrimFunc]
  unfold TrimFunc
  have hrs : TrimLeftFunc (stringOfRunes rs) unicode.IsSpace = [] := by
    have := TrimLeftFunc_spaces rs hr []
    simpa [TrimLeftFunc_nil] using this
  rw [List.append_assoc, TrimLeftFunc_spaces ls hl,
    TrimLeftFunc_append n _ (noCont_stringOfRunes rs hr) hrs]
  split_ifs with h
  · rw [h]
  · exact TrimRightFunc_spaces rs hr _

theorem TrimSpace_idem (s : GoString) : TrimSpace (TrimSpace s) = TrimSpace s := by
  rw [TrimSpace_eq_TrimFunc, TrimSpace_eq_TrimFunc, TrimFunc_idem]

theorem TrimSpace_nil : TrimSpace [] = [] := by
  rw [TrimSpace_eq_TrimFunc, TrimFunc_nil]

/-- The result of `TrimSpace` is a contiguous part of its argument. -/
theorem TrimSpace_infix (s : GoString) : TrimSpace s <:+: s := by
  rw [TrimSpace_eq_TrimFunc]
  unfold TrimFunc
  exact (TrimRightFunc_isInitial _ _).isInfix.trans (TrimLeftFunc_suffix _ _).isInfix

end strings

/-! ## Facts about the handler -/

theorem appendString_nil : json.appendString [] = [] := by
  simp [json.appendString, json.appendString.loop]

/-- A byte below `RuneSelf` is written as it is. -/
theorem appendString_ascii_cons (c : Byte) (s : GoString) (h : c.val < 128) :
    json.appendString (c :: s) = c :: json.appendString s := by
  simp [json.appendString, json.appendString.loop, RuneSelf, h]

theorem appendString_errorMethodNotAllowed :
    json.appendString errorMethodNotAllowed = errorMethodNotAllowed := by decide

theorem appendString_errorInvalidInput :
    json.appendString errorInvalidInput = errorInvalidInput := by decide

theorem appendString_hello (s : GoString) :
    json.appendString (ascii "Hello " ++ s) = ascii "Hello " ++ json.appendString s := by
  have e : ascii "Hello " = [0x48, 0x65, 0x6C, 0x6C, 0x6F, 0x20] := by decide
  rw [e]
  simp only [List.cons_append, List.nil_append]
  rw [appendString_ascii_cons _ _ (by decide), appendString_ascii_cons _ _ (by decide),
    appendString_ascii_cons _ _ (by decide), appendString_ascii_cons _ _ (by decide),
    appendString_ascii_cons _ _ (by decide), appendString_ascii_cons _ _ (by decide)]

/-- The handler as a three-way case distinction on the method and the trimmed name. -/
theorem serve_eq (r : http.Request) :
    serve r =
      if r.Method ≠ http.MethodGet then
        ⟨jsonHeader, true, 405, jsonHeader, [.errorResponse ⟨errorMethodNotAllowed⟩]⟩
      else if strings.TrimSpace (r.Query.Get (ascii "name")) = [] ∨
          isFirstHalfAlphabet (strings.TrimSpace (r.Query.Get (ascii "name"))) = false then
        ⟨jsonHeader, true, 400, jsonHeader, [.errorResponse ⟨errorInvalidInput⟩]⟩
      else
        ⟨jsonHeader, true, 200, jsonHeader,
          [.response ⟨ascii "Hello " ++
            json.appendString (strings.TrimSpace (r.Query.Get (ascii "name")))⟩]⟩ := by
  unfold serve helloWorldHandler
  simp only [http.ResponseWriter.SetHeader, http.ResponseWriter.WriteHeader,
    http.ResponseWriter.Encode, http.NewRecorder, http.Header.Set, http.StatusOK,
    http.StatusBadRequest, http.StatusMethodNotAllowed, jsonHeader, json.Marshal,
    appendString_errorMethodNotAllowed, appendString_errorInvalidInput, appendString_hello]
  by_cases hm : r.Method = http.MethodGet
  · by_cases hn : strings.TrimSpace (r.Query.Get (ascii "name")) = []
    · simp [hm, hn]
    · by_cases hf : isFirstHalfAlphabet (strings.TrimSpace (r.Query.Get (ascii "name"))) = true
      · simp [hm, hn, hf]
      · have hf2 : isFirstHalfAlphabet (strings.TrimSpace (r.Query.Get (ascii "name"))) = false := by
          simpa using hf
        simp [hm, hn, hf2]
  · simp [hm]

set_option maxRecDepth 100000 in
theorem IsLetter_RuneError : unicode.IsLetter RuneError = false := by decide

/-! ## The claims -/

/-- C1: `isFirstHalfAlphabet(s)` is true if and only if `s` is non-empty, its first code
point decodes as valid UTF-8 (the decoder does not report `(RuneError, 1)`), that code
point is a Unicode letter, and its upper case mapping lies in 65..77; in every other case
it is false. -/
theorem C1_isFirstHalfAlphabet_iff (s : GoString) :
    (isFirstHalfAlphabet s = true ↔
      (s ≠ [] ∧ DecodeRuneInString s ≠ (RuneError, 1) ∧
        unicode.IsLetter (DecodeRuneInString s).1 = true ∧
        65 ≤ unicode.ToUpper (DecodeRuneInString s).1 ∧
        unicode.ToUpper (DecodeRuneInString s).1 ≤ 77)) ∧
    (isFirstHalfAlphabet s = false ↔
      ¬ (s ≠ [] ∧ DecodeRuneInString s ≠ (RuneError, 1) ∧
        unicode.IsLetter (DecodeRuneInString s).1 = true ∧
        65 ≤ unicode.ToUpper (DecodeRuneInString s).1 ∧
        unicode.ToUpper (DecodeRuneInString s).1 ≤ 77)) := by
  have key : isFirstHalfAlphabet s = true ↔
      (s ≠ [] ∧ DecodeRuneInString s ≠ (RuneError, 1) ∧
        unicode.IsLetter (DecodeRuneInString s).1 = true ∧
        65 ≤ unicode.ToUpper (DecodeRuneInString s).1 ∧
        unicode.ToUpper (DecodeRuneInString s).1 ≤ 77) := by
    unfold isFirstHalfAlphabet
    constructor
    · intro h
      by_cases hs : s = []
      · simp [hs] at h
      · by_cases hr : (DecodeRuneInString s).1 = RuneError
        · simp [hs, hr] at h
        · by_cases hl : unicode.IsLetter (DecodeRuneInString s).1 = true
          · simp [hs, hr, hl] at h
            refine ⟨hs, ?_, hl, h.1, h.2⟩
            intro e
            exact hr (by rw [e])
          · simp [hs, hr, hl] at h
    · rintro ⟨hs, _, hl, h1, h2⟩
      have hr : (DecodeRuneInString s).1 ≠ RuneError := by
        intro e
        rw [e, IsLetter_RuneError] at hl
        exact absurd hl (by simp)
      simp [hs, hr, hl, h1, h2]
  refine ⟨key, ?_⟩
  rw [← key]
  simp

/-- C3: a GET request gets status 400 with the error "Invalid Input" when the name
parameter is absent, empty, made of white space only, or when its trimmed value is
rejected by `isFirstHalfAlphabet`, and in these cases only. -/
theorem C3_invalid_input (r : http.Request) (hm : r.Method = http.MethodGet) :
    ((r.Query.lookup (ascii "name") = none ∨ r.Query.Get (ascii "name") = [] ∨
        (∃ rs : List Nat, (∀ x ∈ rs, unicode.IsSpace x = true) ∧
          r.Query.Get (ascii "name") = stringOfRunes rs) ∨
        isFirstHalfAlphabet (strings.TrimSpace (r.Query.Get (ascii "name"))) = false) ↔
      (serve r).Code = 400) ∧
    ((serve r).Code = 400 →
      (serve r).wroteHeader = true ∧
      (serve r).Body = [.errorResponse ⟨errorInvalidInput⟩] ∧
      errorInvalidInput = ascii "Invalid Input") := by
  have hrej : (r.Query.lookup (ascii "name") = none ∨ r.Query.Get (ascii "name") = [] ∨
        (∃ rs : List Nat, (∀ x ∈ rs, unicode.IsSpace x = true) ∧
          r.Query.Get (ascii "name") = stringOfRunes rs) ∨
        isFirstHalfAlphabet (strings.TrimSpace (r.Query.Get (ascii "name"))) = false) ↔
      (strings.TrimSpace (r.Query.Get (ascii "name")) = [] ∨
        isFirstHalfAlphabet (strings.TrimSpace (r.Query.Get (ascii "name"))) = false) := by
    constructor
    · rintro (h | h | ⟨rs, hrs, h⟩ | h)
      · left
        simp [http.Values.Get, h, strings.TrimSpace_nil]
      · left
        rw [h, strings.TrimSpace_nil]
      · left
        rw [h]
        have := strings.TrimSpace_spaces rs [] hrs (by simp) []
        simpa [stringOfRunes, strings.TrimSpace_nil] using this
      · right
        exact h
    · rintro (h | h)
      · right; right; right
        rw [h]
        rfl
      · right; right; right
        exact h
  rw [hrej, serve_eq]
  by_cases h1 : strings.TrimSpace (r.Query.Get (ascii "name")) = [] ∨
      isFirstHalfAlphabet (strings.TrimSpace (r.Query.Get (ascii "name"))) = false
  · simp [hm, h1, errorInvalidInput]
  · simp [hm, h1]

/-- Witness of C3: a name made of white space only. -/
theorem C3_invalid_input_witness :
    (serve (newHelloWorldRequest (ascii "GET") (ascii "   "))).Code = 400 ∧
    (serve (newHelloWorldRequest (ascii "GET") (ascii "   "))).Body =
      [.errorResponse ⟨ascii "Invalid Input"⟩] :=
  have h := C3_invalid_input (newHelloWorldRequest (ascii "GET") (ascii "   ")) (by decide)
  have hc := h.1.mp (Or.inr (Or.inr (Or.inl ⟨[0x20, 0x20, 0x20], by decide, by decide⟩)))
  ⟨hc, (h.2 hc).2.1⟩

/-- C4: a request whose method is not "GET" gets status 405 with the error
"Method not allowed", whatever the name parameter; it never gets 400 or 200. -/
theorem C4_method_not_allowed (r : http.Request) (hm : r.Method ≠ http.MethodGet) :
    (serve r).Code = 405 ∧ (serve r).wroteHeader = true ∧
    (serve r).Body = [.errorResponse ⟨errorMethodNotAllowed⟩] ∧
    errorMethodNotAllowed = ascii "Method not allowed" ∧
    (serve r).Code ≠ 400 ∧ (serve r).Code ≠ 200 := by
  rw [serve_eq]
  simp [hm, errorMethodNotAllowed]

/-- Witness of C4: `POST /hello-world?name=Alice`. -/
theorem C4_method_not_allowed_witness :
    (serve (newHelloWorldRequest (ascii "POST") (ascii "Alice"))).Code = 405 ∧
    (serve (newHelloWorldRequest (ascii "HEAD") (ascii "123"))).Code = 405 :=
  ⟨(C4_method_not_allowed (newHelloWorldRequest (ascii "POST") (ascii "Alice")) (by decide)).1,
   (C4_method_not_allowed (newHelloWorldRequest (ascii "HEAD") (ascii "123")) (by decide)).1⟩

/-- The value of `isFirstHalfAlphabet` on a string that starts with an ASCII byte depends
on that byte alone. -/
theorem isFirstHalfAlphabet_ascii (c : Byte) (suffix : GoString) (hc : c.val < 128) :
    isFirstHalfAlphabet (c :: suffix) = isFirstHalfAlphabet [c] := by
  unfold isFirstHalfAlphabet
  rw [DecodeRuneInString_ascii c suffix hc, DecodeRuneInString_ascii c [] hc]
  simp

set_option maxRecDepth 100000 in
theorem isFirstHalfAlphabet_single : ∀ c : Byte, c.val < 128 →
    isFirstHalfAlphabet [c] =
      decide ((0x41 ≤ c.val ∧ c.val ≤ 0x4D) ∨ (0x61 ≤ c.val ∧ c.val ≤ 0x6D)) := by
  decide

/-- C5: for a string whose first character is an ASCII letter, in either case, followed
by any suffix, `isFirstHalfAlphabet` returns true when the letter is one of A..M or a..m
and false when it is one of N..Z or n..z. -/
theorem C5_ascii_letters (c : Byte) (suffix : GoString)
    (hc : (0x41 ≤ c.val ∧ c.val ≤ 0x5A) ∨ (0x61 ≤ c.val ∧ c.val ≤ 0x7A)) :
    (((0x41 ≤ c.val ∧ c.val ≤ 0x4D) ∨ (0x61 ≤ c.val ∧ c.val ≤ 0x6D)) →
      isFirstHalfAlphabet (c :: suffix) = true) ∧
    (((0x4E ≤ c.val ∧ c.val ≤ 0x5A) ∨ (0x6E ≤ c.val ∧ c.val ≤ 0x7A)) →
      isFirstHalfAlphabet (c :: suffix) = false) := by
  have h128 : c.val < 128 := by omega
  rw [isFirstHalfAlphabet_ascii c suffix h128, isFirstHalfAlphabet_single c h128]
  constructor
  · intro h
    simp only [decide_eq_true_eq]
    exact h
  · intro h
    simp only [decide_eq_false_iff_not]
    omega

/-- Witness of C5: the names "mary" and "Nancy". -/
theorem C5_ascii_letters_witness :
    isFirstHalfAlphabet (ascii "mary") = true ∧ isFirstHalfAlphabet (ascii "Nancy") = false :=
  ⟨(C5_ascii_letters 0x6D (ascii "ary") (by decide)).1 (by decide),
   (C5_ascii_letters 0x4E (ascii "ancy") (by decide)).2 (by decide)⟩

/-- C6: `isFirstHalfAlphabet("")` is false, and a non-empty string whose first character
is not a letter is rejected whatever follows; in particular a string that starts with an
ASCII byte other than a letter (a digit, a symbol, white space, punctuation). -/
theorem C6_not_a_letter (s : GoString)
    (h : s = [] ∨ unicode.IsLetter (DecodeRuneInString s).1 = false ∨
      ∃ c suffix, s = c :: suffix ∧ c.val < 128 ∧
        ¬ ((0x41 ≤ c.val ∧ c.val ≤ 0x5A) ∨ (0x61 ≤ c.val ∧ c.val ≤ 0x7A))) :
    isFirstHalfAlphabet s = false := by
  rcases h with h | h | ⟨c, suffix, rfl, hc, hl⟩
  · subst h
    rfl
  · unfold isFirstHalfAlphabet
    simp [h]
  · rw [isFirstHalfAlphabet_ascii c suffix hc, isFirstHalfAlphabet_single c hc]
    simp only [decide_eq_false_iff_not]
    omega

/-- Witness of C6: the empty string, "123John" and "@name". -/
theorem C6_not_a_letter_witness :
    isFirstHalfAlphabet [] = false ∧ isFirstHalfAlphabet (ascii "123John") = false ∧
      isFirstHalfAlphabet (ascii "@name") = false :=
  ⟨C6_not_a_letter [] (Or.inl rfl),
   C6_not_a_letter (ascii "123John") (Or.inr (Or.inl (by decide))),
   C6_not_a_letter (ascii "@name")
     (Or.inr (Or.inr ⟨0x40, ascii "name", by decide, by decide, by decide⟩))⟩

set_option maxRecDepth 100000 in
/-- C7 (the code at the failing input): the name "ı" (U+0131, bytes C4 B1) does not begin
with one of the ASCII letters A..M or a..m, and yet the handler answers 200 "Hello ı": the
rune is a letter and `unicode.ToUpper` maps it to "I" (73). -/
theorem C7_dotless_i_accepted :
    DecodeRuneInString [0xC4, 0xB1] = (0x131, 2) ∧
    unicode.IsLetter 0x131 = true ∧ unicode.ToUpper 0x131 = 73 ∧
    strings.TrimSpace [0xC4, 0xB1] = [0xC4, 0xB1] ∧
    isFirstHalfAlphabet [0xC4, 0xB1] = true ∧
    (serve (newHelloWorldRequest http.MethodGet [0xC4, 0xB1])).Code = 200 ∧
    (serve (newHelloWorldRequest http.MethodGet [0xC4, 0xB1])).Body =
      [.response ⟨ascii "Hello " ++ [0xC4, 0xB1]⟩] := by
  decide

/-- C8: trimming happens before validation and echoing: the response to a name
surrounded by white space is the response to the trimmed name, for every method, and
trimming is idempotent. -/
theorem C8_trim_first (r1 r2 : http.Request) (n : GoString) (ls rs : List Nat)
    (hl : ∀ x ∈ ls, unicode.IsSpace x = true) (hr : ∀ x ∈ rs, unicode.IsSpace x = true)
    (hm : r1.Method = r2.Method)
    (h1 : r1.Query.Get (ascii "name") = stringOfRunes ls ++ n ++ stringOfRunes rs)
    (h2 : r2.Query.Get (ascii "name") = strings.TrimSpace n) :
    serve r1 = serve r2 ∧
    strings.TrimSpace (stringOfRunes ls ++ n ++ stringOfRunes rs) = strings.TrimSpace n ∧
    strings.TrimSpace (strings.TrimSpace n) = strings.TrimSpace n := by
  have e1 := strings.TrimSpace_spaces ls rs hl hr n
  have e2 := strings.TrimSpace_idem n
  refine ⟨?_, e1, e2⟩
  rw [serve_eq, serve_eq, h1, h2, e1, e2, hm]

/-- Witness of C8: the name "Alice" between a no-break space and a line feed. -/
theorem C8_trim_first_witness :
    serve (newHelloWorldRequest (ascii "GET") ([0xC2, 0xA0] ++ ascii " Alice " ++ [0x0A])) =
      serve (newHelloWorldRequest (ascii "GET") (ascii "Alice")) :=
  (C8_trim_first (newHelloWorldRequest (ascii "GET") ([0xC2, 0xA0] ++ ascii " Alice " ++ [0x0A]))
    (newHelloWorldRequest (ascii "GET") (ascii "Alice")) (ascii " Alice ") [0xA0] [0x0A]
    (by decide) (by decide) rfl (by decide) (by decide)).1

/-- C9: the response to every request carries the header `Content-Type` with the value
"application/json", whatever the method and the name. -/
theorem C9_content_type (r : http.Request) :
    (serve r).wroteHeader = true ∧
    (serve r).snapHeader.Get (ascii "Content-Type") = ascii "application/json" ∧
    (serve r).HeaderMap.Get (ascii "Content-Type") = ascii "application/json" := by
  rw [serve_eq]
  split_ifs <;> simp [jsonHeader, http.Header.Get, List.lookup]

/-- C10: every request gets exactly one response, which is one of (200, `Response`),
(400, "Invalid Input") and (405, "Method not allowed"); the status is 200 exactly when
the body is a `Response`, and no status from 500 is produced. -/
theorem C10_three_outcomes (r : http.Request) :
    (serve r).wroteHeader = true ∧
    (∃ v, (serve r).Body = [v] ∧
      (((serve r).Code = 200 ∧ ∃ name, v = .response ⟨ascii "Hello " ++ name⟩) ∨
        ((serve r).Code = 400 ∧ v = .errorResponse ⟨ascii "Invalid Input"⟩) ∨
        ((serve r).Code = 405 ∧ v = .errorResponse ⟨ascii "Method not allowed"⟩)) ∧
      ((serve r).Code = 200 ↔ ∃ m, v = .response m)) ∧
    (serve r).Code < 500 := by
  rw [serve_eq]
  split_ifs <;> simp [errorInvalidInput, errorMethodNotAllowed]

/-! ## The decoder and the encoder -/

namespace utf8

set_option maxHeartbeats 4000000 in
theorem DecodeRuneInString_eq_decodeSpec (s : GoString) :
    DecodeRuneInString s = decodeSpec s := by
  cases s with
  | nil => simp [DecodeRuneInString, decodeSpec]
  | cons c rest =>
    by_cases hasc : c.val < 128
    · rw [DecodeRuneInString_ascii c rest hasc]
      simp [decodeSpec, hasc]
    have hcl := first_class c.val c.isLt
    unfold DecodeRuneInString
    simp only [byteAt, List.getD_cons_zero]
    generalize first.getD c.val xx = x at hcl ⊢
    rcases hcl with ⟨_, h⟩ | ⟨_, h⟩ | ⟨_, _, h⟩ | ⟨_, h⟩ | ⟨_, h⟩ | ⟨_, h⟩ | ⟨_, h⟩ |
      ⟨_, _, h⟩ | ⟨_, h⟩ <;>
    (try omega) <;>
    subst h <;>
    rcases rest with _ | ⟨a1, _ | ⟨a2, _ | ⟨a3, rest⟩⟩⟩ <;>
    simp [decodeSpec, lead3, lead4, cont, as, xx, acceptRanges, locb, hicb, land7_s1, land7_s2,
      land7_s3, land7_s4, land7_s5, land7_s6, land7_s7, RuneError, decode_xx, signMask_as,
      andNot_zero] <;>
    (try split_ifs) <;> (try simp_all) <;> (try omega)

theorem lor_add (a b i : Nat) (hb : b < 2 ^ i) : a * 2 ^ i ||| b = a * 2 ^ i + b := by
  rw [Nat.mul_comm]
  exact (Nat.mul_add_lt_is_or hb a).symm

theorem land_maskx (a : Nat) : a &&& maskx = a % 64 := Nat.and_pow_two_sub_one_eq_mod a 6
theorem land_mask2 (a : Nat) : a &&& mask2 = a % 32 := Nat.and_pow_two_sub_one_eq_mod a 5
theorem land_mask3 (a : Nat) : a &&& mask3 = a % 16 := Nat.and_pow_two_sub_one_eq_mod a 4
theorem land_mask4 (a : Nat) : a &&& mask4 = a % 8 := Nat.and_pow_two_sub_one_eq_mod a 3

theorem val2_eq (c a : Nat) :
    ((c &&& mask2) <<< 6) ||| (a &&& maskx) = (c % 32) * 64 + a % 64 := by
  rw [land_mask2, land_maskx, Nat.shiftLeft_eq]
  exact lor_add _ _ 6 (by omega)

theorem val3_eq (c a b : Nat) :
    ((c &&& mask3) <<< 12) ||| ((a &&& maskx) <<< 6) ||| (b &&& maskx) =
      (c % 16) * 4096 + (a % 64) * 64 + b % 64 := by
  rw [land_mask3, land_maskx, land_maskx, Nat.shiftLeft_eq, Nat.shiftLeft_eq]
  rw [lor_add _ _ 12 (by omega)]
  have e : c % 16 * 2 ^ 12 + a % 64 * 2 ^ 6 = (c % 16 * 64 + a % 64) * 2 ^ 6 := by omega
  rw [e, lor_add _ _ 6 (by omega)]
  omega

theorem val4_eq (c a b d : Nat) :
    ((c &&& mask4) <<< 18) ||| ((a &&& maskx) <<< 12) ||| ((b &&& maskx) <<< 6) |||
        (d &&& maskx) =
      (c % 8) * 262144 + (a % 64) * 4096 + (b % 64) * 64 + d % 64 := by
  rw [land_mask4, land_maskx, land_maskx, land_maskx, Nat.shiftLeft_eq, Nat.shiftLeft_eq,
    Nat.shiftLeft_eq]
  rw [lor_add _ _ 18 (by omega)]
  have e : c % 8 * 2 ^ 18 + a % 64 * 2 ^ 12 = (c % 8 * 64 + a % 64) * 2 ^ 12 := by omega
  rw [e, lor_add _ _ 12 (by omega)]
  have e2 : (c % 8 * 64 + a % 64) * 2 ^ 12 + b % 64 * 2 ^ 6 =
      ((c % 8 * 64 + a % 64) * 64 + b % 64) * 2 ^ 6 := by omega
  rw [e2, lor_add _ _ 6 (by omega)]
  omega

theorem tx_or (y : Nat) (h : y < 64) : tx ||| y = 128 + y := by
  have := lor_add 2 y 6 h
  simpa [tx] using this

theorem t2_or (y : Nat) (h : y < 64) : t2 ||| y = 192 + y := by
  have := lor_add 3 y 6 h
  simpa [t2] using this

theorem t3_or (y : Nat) (h : y < 32) : t3 ||| y = 224 + y := by
  have := lor_add 7 y 5 h
  simpa [t3] using this

theorem t4_or (y : Nat) (h : y < 16) : t4 ||| y = 240 + y := by
  have := lor_add 15 y 4 h
  simpa [t4] using this

/-- The encoder in arithmetic form, for a valid rune. -/
theorem AppendRune_arith (r : Nat) (h : ValidRune r = true) :
    AppendRune r =
      if r ≤ 0x7F then [Fin.ofNat r]
      else if r ≤ 0x7FF then [Fin.ofNat (192 + r / 64), Fin.ofNat (128 + r % 64)]
      else if r ≤ 0xFFFF then
        [Fin.ofNat (224 + r / 4096), Fin.ofNat (128 + r / 64 % 64), Fin.ofNat (128 + r % 64)]
      else
        [Fin.ofNat (240 + r / 262144), Fin.ofNat (128 + r / 4096 % 64),
          Fin.ofNat (128 + r / 64 % 64), Fin.ofNat (128 + r % 64)] := by
  have hv : r ≤ 0x10FFFF ∧ ¬ (0xD800 ≤ r ∧ r ≤ 0xDFFF) := by
    unfold ValidRune at h
    simp only [surrogateMin, surrogateMax, MaxRune] at h
    split_ifs at h <;> omega
  unfold AppendRune
  simp only [rune1Max, rune2Max, rune3Max, MaxRune, surrogateMin, surrogateMax]
  have hclamp : (if r > 0x10FFFF ∨ (0xD800 ≤ r ∧ r ≤ 0xDFFF) then RuneError else r) = r := by
    rw [if_neg]; omega
  simp only [hclamp, land_maskx, Nat.shiftRight_eq_div_pow]
  by_cases h1 : r ≤ 0x7F
  · simp only [h1, if_true]
  · simp only [h1, if_false]
    by_cases h2 : r ≤ 0x7FF
    · simp only [h2, if_true]
      rw [t2_or _ (by omega), tx_or _ (by omega)]
    · simp only [h2, if_false]
      by_cases h3 : r ≤ 0xFFFF
      · simp only [h3, if_true]
        rw [t3_or _ (by omega), tx_or _ (by omega), tx_or _ (by omega)]
      · simp only [h3, if_false]
        rw [t4_or _ (by omega), tx_or _ (by omega), tx_or _ (by omega), tx_or _ (by omega)]

theorem val_ofNat (a : Nat) (h : a < 256) : ((Fin.ofNat a : Byte)).val = a := by
  simp [Fin.ofNat]
  omega

theorem ValidRune_iff (r : Nat) :
    ValidRune r = true ↔ r ≤ 0x10FFFF ∧ ¬ (0xD800 ≤ r ∧ r ≤ 0xDFFF) := by
  unfold ValidRune
  simp only [surrogateMin, surrogateMax, MaxRune]
  split_ifs <;> simp <;> omega

/-- Decoding the encoding of a valid rune gives the rune back, whatever follows. -/
theorem DecodeRuneInString_AppendRune (r : Nat) (h : ValidRune r = true) (rest : GoString) :
    DecodeRuneInString (AppendRune r ++ rest) = (r, (AppendRune r).length) := by
  have hv := (ValidRune_iff r).mp h
  rw [DecodeRuneInString_eq_decodeSpec, AppendRune_arith r h]
  by_cases h1 : r ≤ 0x7F
  · simp only [h1, if_true]
    simp [decodeSpec, val_ofNat r (by omega)]
    omega
  · simp only [h1, if_false]
    by_cases h2 : r ≤ 0x7FF
    · simp only [h2, if_true]
      simp only [List.cons_append, List.nil_append, decodeSpec,
        val_ofNat (192 + r / 64) (by omega), val_ofNat (128 + r % 64) (by omega), val2_eq, cont]
      rw [if_neg (by omega), if_pos (by omega)]
      simp
      omega
    · simp only [h2, if_false]
      by_cases h3 : r ≤ 0xFFFF
      · simp only [h3, if_true]
        simp only [List.cons_append, List.nil_append, decodeSpec,
          val_ofNat (224 + r / 4096) (by omega), val_ofNat (128 + r / 64 % 64) (by omega),
          val_ofNat (128 + r % 64) (by omega), val3_eq, cont, lead3]
        rw [if_neg (by omega), if_neg (by omega), if_pos (by omega)]
        simp
        omega
      · simp only [h3, if_false]
        simp only [List.cons_append, List.nil_append, decodeSpec,
          val_ofNat (240 + r / 262144) (by omega), val_ofNat (128 + r / 4096 % 64) (by omega),
          val_ofNat (128 + r / 64 % 64) (by omega), val_ofNat (128 + r % 64) (by omega),
          val4_eq, cont, lead3, lead4]
        rw [if_neg (by omega), if_neg (by omega), if_neg (by omega), if_pos (by omega)]
        simp
        omega

theorem byte_eq (c : Byte) (x : Nat) (h : x = c.val) : (Fin.ofNat x : Byte) = c := by
  apply Fin.ext
  rw [val_ofNat x (by omega)]
  exact h

theorem enc1 (c : Byte) (h : c.val < 0x80) :
    ValidRune c.val = true ∧ AppendRune c.val = [c] := by
  have hv : ValidRune c.val = true := (ValidRune_iff _).mpr (by omega)
  refine ⟨hv, ?_⟩
  rw [AppendRune_arith _ hv, if_pos (by omega), byte_eq c _ rfl]

theorem enc2 (c a : Byte) (hc : 0xC2 ≤ c.val ∧ c.val ≤ 0xDF) (ha : cont a.val) :
    ValidRune (c.val % 32 * 64 + a.val % 64) = true ∧
      AppendRune (c.val % 32 * 64 + a.val % 64) = [c, a] := by
  unfold cont at ha
  have hv : ValidRune (c.val % 32 * 64 + a.val % 64) = true := (ValidRune_iff _).mpr (by omega)
  refine ⟨hv, ?_⟩
  rw [AppendRune_arith _ hv, if_neg (by omega), if_pos (by omega),
    byte_eq c _ (by omega), byte_eq a _ (by omega)]

theorem enc3 (c a b : Byte) (hc : lead3 c.val a.val) (hb : cont b.val) :
    ValidRune (c.val % 16 * 4096 + a.val % 64 * 64 + b.val % 64) = true ∧
      AppendRune (c.val % 16 * 4096 + a.val % 64 * 64 + b.val % 64) = [c, a, b] := by
  unfold cont at hb
  unfold lead3 at hc
  have hv : ValidRune (c.val % 16 * 4096 + a.val % 64 * 64 + b.val % 64) = true :=
    (ValidRune_iff _).mpr (by omega)
  refine ⟨hv, ?_⟩
  rw [AppendRune_arith _ hv, if_neg (by omega), if_neg (by omega), if_pos (by omega),
    byte_eq c _ (by omega), byte_eq a _ (by omega), byte_eq b _ (by omega)]

theorem enc4 (c a b d : Byte) (hc : lead4 c.val a.val) (hb : cont b.val) (hd : cont d.val) :
    ValidRune (c.val % 8 * 262144 + a.val % 64 * 4096 + b.val % 64 * 64 + d.val % 64) = true ∧
      AppendRune (c.val % 8 * 262144 + a.val % 64 * 4096 + b.val % 64 * 64 + d.val % 64) =
        [c, a, b, d] := by
  unfold cont at hb hd
  unfold lead4 at hc
  have hv : ValidRune (c.val % 8 * 262144 + a.val % 64 * 4096 + b.val % 64 * 64 + d.val % 64) =
      true := (ValidRune_iff _).mpr (by omega)
  refine ⟨hv, ?_⟩
  rw [AppendRune_arith _ hv, if_neg (by omega), if_neg (by omega), if_neg (by omega),
    byte_eq c _ (by omega), byte_eq a _ (by omega), byte_eq b _ (by omega),
    byte_eq d _ (by omega)]

/-- A decoding that does not report an error found the encoding of a valid rune at the
start of the string. -/
theorem AppendRune_DecodeRuneInString (s : GoString) (hs : s ≠ [])
    (h : DecodeRuneInString s ≠ (RuneError, 1)) :
    ValidRune (DecodeRuneInString s).1 = true ∧
      s = AppendRune (DecodeRuneInString s).1 ++ s.drop (DecodeRuneInString s).2 ∧
      (AppendRune (DecodeRuneInString s).1).length = (DecodeRuneInString s).2 := by
  rw [DecodeRuneInString_eq_decodeSpec] at h ⊢
  obtain ⟨c, rest, rfl⟩ := List.exists_cons_of_ne_nil hs
  unfold decodeSpec at h ⊢
  by_cases h1 : c.val < 0x80
  · simp only [h1, if_true] at h ⊢
    obtain ⟨hv, he⟩ := enc1 c h1
    simp [hv, he]
  · simp only [h1, if_false] at h ⊢
    rcases rest with _ | ⟨a, rest2⟩
    · exact absurd rfl h
    · simp only at h ⊢
      by_cases h2 : 0xC2 ≤ c.val ∧ c.val ≤ 0xDF ∧ cont a.val
      · simp only [h2, and_self, if_true, val2_eq] at h ⊢
        obtain ⟨hv, he⟩ := enc2 c a ⟨h2.1, h2.2.1⟩ h2.2.2
        simp [hv, he]
      · simp only [h2, if_false] at h ⊢
        rcases rest2 with _ | ⟨b, rest3⟩
        · exact absurd rfl h
        · simp only at h ⊢
          by_cases h3 : lead3 c.val a.val ∧ cont b.val
          · simp only [h3, and_self, if_true, val3_eq] at h ⊢
            obtain ⟨hv, he⟩ := enc3 c a b h3.1 h3.2
            simp [hv, he]
          · simp only [h3, if_false] at h ⊢
            rcases rest3 with _ | ⟨d, rest4⟩
            · exact absurd rfl h
            · simp only at h ⊢
              by_cases h4 : lead4 c.val a.val ∧ cont b.val ∧ cont d.val
              · simp only [h4, and_self, if_true, val4_eq] at h ⊢
                obtain ⟨hv, he⟩ := enc4 c a b d h4.1 h4.2.1 h4.2.2
                simp [hv, he]
              · simp only [h4, if_false] at h ⊢
                exact absurd rfl h

end utf8

/-! ## Further facts about the predicate and the trimmed name -/

theorem AppendRune_ne_nil (r : Nat) : AppendRune r ≠ [] := by
  unfold AppendRune
  split_ifs <;> simp <;> split_ifs <;> simp

theorem isFirstHalfAlphabet_letter (s : GoString) (h : isFirstHalfAlphabet s = true) :
    s ≠ [] ∧ (DecodeRuneInString s).1 ≠ RuneError ∧
      unicode.IsLetter (DecodeRuneInString s).1 = true := by
  unfold isFirstHalfAlphabet at h
  by_cases hs : s = []
  · simp [hs] at h
  · by_cases hr : (DecodeRuneInString s).1 = RuneError
    · simp [hs, hr] at h
    · by_cases hl : unicode.IsLetter (DecodeRuneInString s).1 = true
      · exact ⟨hs, hr, hl⟩
      · simp [hs, hr, hl] at h

theorem isFirstHalfAlphabet_of_error (s : GoString)
    (h : s = [] ∨ DecodeRuneInString s = (RuneError, 1)) : isFirstHalfAlphabet s = false := by
  unfold isFirstHalfAlphabet
  rcases h with h | h
  · simp [h]
  · simp [h]

/-- A string on which the decoder reports an error does not start with the encoding of a
valid rune. -/
theorem no_encoding_of_error (s : GoString) (h : DecodeRuneInString s = (RuneError, 1)) :
    ¬ ∃ r rest, ValidRune r = true ∧ s = AppendRune r ++ rest := by
  rintro ⟨r, rest, hv, rfl⟩
  rw [DecodeRuneInString_AppendRune r hv rest] at h
  have h1 : r = RuneError := congrArg Prod.fst h
  have h2 : (AppendRune r).length = 1 := congrArg Prod.snd h
  subst h1
  revert h2
  decide

/-- A trimmed string does not start with white space. -/
theorem TrimSpace_no_leading_space (s : GoString) (x : Nat) (hx : unicode.IsSpace x = true)
    (rest : GoString) : strings.TrimSpace s ≠ AppendRune x ++ rest := by
  intro h
  have h1 := strings.TrimSpace_idem s
  rw [h] at h1
  have h2 := strings.TrimSpace_spaces [x] [] (by simpa using hx) (by simp) rest
  simp only [stringOfRunes, List.flatMap_cons, List.flatMap_nil, List.append_nil] at h2
  rw [h2] at h1
  have h3 := (strings.TrimSpace_infix rest).length_le
  rw [h1] at h3
  have h4 := List.length_pos.mpr (AppendRune_ne_nil x)
  rw [List.length_append] at h3
  omega

/-- A trimmed string does not end with white space. -/
theorem TrimSpace_no_trailing_space (s : GoString) (x : Nat) (hx : unicode.IsSpace x = true)
    (m : GoString) : strings.TrimSpace s ≠ m ++ AppendRune x := by
  intro h
  have h1 := strings.TrimSpace_idem s
  rw [h] at h1
  have h2 := strings.TrimSpace_spaces [] [x] (by simp) (by simpa using hx) m
  simp only [stringOfRunes, List.flatMap_cons, List.flatMap_nil, List.append_nil,
    List.nil_append] at h2
  rw [h2] at h1
  have h3 := (strings.TrimSpace_infix m).length_le
  rw [h1] at h3
  have h4 := List.length_pos.mpr (AppendRune_ne_nil x)
  rw [List.length_append] at h3
  omega

/-! ## Facts about `encoding/json` -/

namespace json

/-- The decoder looks at no more than `UTFMax` bytes. -/
theorem DecodeRuneInString_take (s : GoString) :
    DecodeRuneInString (slice s 0 (if s.length > UTFMax then UTFMax else s.length)) =
      DecodeRuneInString s := by
  rw [DecodeRuneInString_eq_decodeSpec, DecodeRuneInString_eq_decodeSpec]
  rcases s with _ | ⟨c, _ | ⟨a, _ | ⟨b, _ | ⟨d, _ | ⟨e, rest⟩⟩⟩⟩⟩ <;>
    simp [slice, UTFMax, decodeSpec]

theorem appendString_loop_fuel :
    ∀ (fuel : Nat) (src : GoString), src.length ≤ fuel →
      appendString.loop fuel src = appendString src := by
  intro fuel
  induction fuel using Nat.strong_induction_on with
  | _ fuel ih =>
    intro src hlen
    cases src with
    | nil => cases fuel <;> simp [appendString, appendString.loop]
    | cons c tail =>
      obtain ⟨n, rfl⟩ : ∃ n, fuel = n + 1 := ⟨fuel - 1, by simp at hlen; omega⟩
      have hw := DecodeRuneInString_width (c :: tail) (by simp)
      have htk := DecodeRuneInString_take (c :: tail)
      simp only [appendString, List.length_cons]
      unfold appendString.loop
      simp only [htk]
      have hl1 : ((c :: tail).drop (DecodeRuneInString (c :: tail)).2).length ≤ n := by
        simp at hlen ⊢; omega
      have hl2 : ((c :: tail).drop (DecodeRuneInString (c :: tail)).2).length ≤ tail.length := by
        simp; omega
      have e1 := ih n (by omega) _ hl1
      have e2 := ih tail.length (by simp at hlen; omega) _ hl2
      have e3 := ih n (by omega) tail (by simp at hlen; omega)
      have e4 : appendString.loop tail.length tail = appendString tail := rfl
      simp only [e1, e2, e3, e4]

/-- One iteration of `appendString`. -/
theorem appendString_eq (s : GoString) (hs : s ≠ []) :
    appendString s =
      if DecodeRuneInString s = (RuneError, 1) then
        AppendRune RuneError ++ appendString (s.drop 1)
      else s.take (DecodeRuneInString s).2 ++ appendString (s.drop (DecodeRuneInString s).2) := by
  obtain ⟨c, tail, rfl⟩ := List.exists_cons_of_ne_nil hs
  have hw := DecodeRuneInString_width (c :: tail) (by simp)
  by_cases hc : c.val < 128
  · rw [appendString_ascii_cons c tail hc, DecodeRuneInString_ascii c tail hc]
    have : ¬ ((c.val, 1) = (RuneError, 1)) := by
      intro e
      have := congrArg Prod.fst e
      simp [RuneError] at this
      omega
    simp [this]
  · have htk := DecodeRuneInString_take (c :: tail)
    have hl : ((c :: tail).drop (DecodeRuneInString (c :: tail)).2).length ≤ tail.length := by
      simp; omega
    conv_lhs => unfold appendString
    simp only [List.length_cons]
    unfold appendString.loop
    simp only [htk, RuneSelf, hc, if_false, appendString_loop_fuel _ _ hl]
    simp only [slice_zero]
    by_cases he : DecodeRuneInString (c :: tail) = (RuneError, 1)
    · simp [he]
    · have : ¬ ((DecodeRuneInString (c :: tail)).1 = RuneError ∧
          (DecodeRuneInString (c :: tail)).2 = 1) := by
        rintro ⟨h1, h2⟩
        exact he (Prod.ext h1 h2)
      simp only [this, if_false, he]

theorem ValidRune_RuneError : ValidRune RuneError = true := by decide

theorem decode_valid_ne_error (r : Nat) (h : ValidRune r = true) (rest : GoString) :
    DecodeRuneInString (AppendRune r ++ rest) ≠ (RuneError, 1) := by
  rw [DecodeRuneInString_AppendRune r h rest]
  intro e
  have h1 : r = RuneError := congrArg Prod.fst e
  have h2 : (AppendRune r).length = 1 := congrArg Prod.snd e
  subst h1
  revert h2
  decide

/-- The encoding of a valid rune is written as it is. -/
theorem appendString_AppendRune (r : Nat) (h : ValidRune r = true) (rest : GoString) :
    appendString (AppendRune r ++ rest) = AppendRune r ++ appendString rest := by
  rw [appendString_eq _ (by simp [AppendRune_ne_nil]), if_neg (decode_valid_ne_error r h rest),
    DecodeRuneInString_AppendRune r h rest]
  simp

/-- A string that is valid UTF-8 is written as it is. -/
theorem appendString_stringOfRunes (rs : List Nat) (h : ∀ r ∈ rs, ValidRune r = true) :
    appendString (stringOfRunes rs) = stringOfRunes rs := by
  induction rs with
  | nil => simp [stringOfRunes, appendString_nil]
  | cons r rs ih =>
    rw [strings.stringOfRunes_cons, appendString_AppendRune r (h r (by simp)),
      ih (fun x hx => h x (by simp [hx]))]

/-- What `appendString` writes starts with the encoding of a valid rune: the first rune of
a string whose first rune is valid, U+FFFD otherwise. -/
theorem appendString_step (s : GoString) (hs : s ≠ []) :
    ∃ y k, ValidRune y = true ∧ 1 ≤ k ∧ k ≤ s.length ∧
      appendString s = AppendRune y ++ appendString (s.drop k) ∧
      (s.take k = AppendRune y ∨
        (y = RuneError ∧ k = 1 ∧ DecodeRuneInString s = (RuneError, 1))) ∧
      (DecodeRuneInString s ≠ (RuneError, 1) → y = (DecodeRuneInString s).1) := by
  have hw := DecodeRuneInString_width s hs
  by_cases he : DecodeRuneInString s = (RuneError, 1)
  · refine ⟨RuneError, 1, ValidRune_RuneError, le_rfl, ?_, ?_, Or.inr ⟨rfl, rfl, he⟩, fun h => absurd he h⟩
    · exact List.length_pos.mpr hs
    · rw [appendString_eq s hs, if_pos he]
  · obtain ⟨hv, hse, hlen⟩ := AppendRune_DecodeRuneInString s hs he
    have htake : s.take (DecodeRuneInString s).2 = AppendRune (DecodeRuneInString s).1 := by
      have h1 : (AppendRune (DecodeRuneInString s).1 ++ s.drop (DecodeRuneInString s).2).take
          (AppendRune (DecodeRuneInString s).1).length = AppendRune (DecodeRuneInString s).1 :=
        List.take_left _ _
      rw [← hse, hlen] at h1
      exact h1
    refine ⟨(DecodeRuneInString s).1, (DecodeRuneInString s).2, hv, hw.1, hw.2, ?_,
      Or.inl htake, fun _ => rfl⟩
    rw [appendString_eq s hs, if_neg he, htake]

/-- The encoding of a valid rune: a byte that is not a continuation byte, followed by
continuation bytes only. -/
theorem AppendRune_shape (y : Nat) (hv : ValidRune y = true) :
    ∃ c tl, AppendRune y = c :: tl ∧ ¬ cont c.val ∧ ∀ b ∈ tl, cont b.val := by
  have h := (ValidRune_iff y).mp hv
  rw [AppendRune_arith y hv]
  unfold cont
  by_cases h1 : y ≤ 0x7F
  · refine ⟨_, _, by rw [if_pos h1], ?_, by simp⟩
    rw [val_ofNat _ (by omega)]
    omega
  · by_cases h2 : y ≤ 0x7FF
    · refine ⟨_, _, by rw [if_neg h1, if_pos h2], ?_, ?_⟩
      · rw [val_ofNat _ (by omega)]
        omega
      · intro b hb
        simp only [List.mem_singleton] at hb
        subst hb
        rw [val_ofNat _ (by omega)]
        omega
    · by_cases h3 : y ≤ 0xFFFF
      · refine ⟨_, _, by rw [if_neg h1, if_neg h2, if_pos h3], ?_, ?_⟩
        · rw [val_ofNat _ (by omega)]
          omega
        · intro b hb
          simp only [List.mem_cons, List.mem_singleton, List.not_mem_nil, or_false] at hb
          rcases hb with hb | hb <;> subst hb <;> rw [val_ofNat _ (by omega)] <;> omega
      · refine ⟨_, _, by rw [if_neg h1, if_neg h2, if_neg h3], ?_, ?_⟩
        · rw [val_ofNat _ (by omega)]
          omega
        · intro b hb
          simp only [List.mem_cons, List.mem_singleton, List.not_mem_nil, or_false] at hb
          rcases hb with hb | hb | hb <;> subst hb <;> rw [val_ofNat _ (by omega)] <;> omega

/-- The encoder is injective on valid runes. -/
theorem AppendRune_inj (x y : Nat) (hx : ValidRune x = true) (hy : ValidRune y = true)
    (h : AppendRune x = AppendRune y) : x = y := by
  have h1 := DecodeRuneInString_AppendRune x hx []
  have h2 := DecodeRuneInString_AppendRune y hy []
  rw [h, h2] at h1
  exact (congrArg Prod.fst h1).symm

set_option maxRecDepth 100000 in
theorem spaceRunes_valid : ∀ r ∈ spaceRunes,
    ValidRune r = true ∧ unicode.IsLetter r = false := by decide

theorem appendString_ne_nil (s : GoString) (hs : s ≠ []) : appendString s ≠ [] := by
  obtain ⟨y, k, _, _, _, he, _, _⟩ := appendString_step s hs
  rw [he]
  simp [AppendRune_ne_nil]

/-- What `appendString` writes does not start with a continuation byte. -/
theorem appendString_head (s : GoString) (c : Byte) (tl : GoString)
    (h : appendString s = c :: tl) : ¬ cont c.val := by
  by_cases hs : s = []
  · rw [hs, appendString_nil] at h
    exact absurd h (by simp)
  · obtain ⟨y, k, hv, _, _, he, _, _⟩ := appendString_step s hs
    obtain ⟨c2, tl2, hc, hn, _⟩ := AppendRune_shape y hv
    rw [he, hc] at h
    simp only [List.cons_append, List.cons.injEq] at h
    rw [← h.1]
    exact hn

/-- If what `appendString` writes ends with the encoding of a white space rune, so does
its argument. -/
theorem appendString_trailing (x : Nat) (hx : unicode.IsSpace x = true) :
    ∀ (s m : GoString), appendString s = m ++ AppendRune x → ∃ m0, s = m0 ++ AppendRune x := by
  have hxv : ValidRune x = true := (spaceRunes_valid x (IsSpace_mem x hx)).1
  obtain ⟨e0, etl, hE, he0, hetl⟩ := AppendRune_shape x hxv
  intro s
  generalize hn : s.length = n
  induction n using Nat.strong_induction_on generalizing s with
  | _ n ih =>
    intro m h
    by_cases hs : s = []
    · rw [hs, appendString_nil] at h
      have := congrArg List.length h
      simp [hE] at this
      omega
    · obtain ⟨y, k, hv, hk1, hk2, he, htk, _⟩ := appendString_step s hs
      obtain ⟨p0, ptl, hP, hp0, hptl⟩ := AppendRune_shape y hv
      have hIH : ∀ a, appendString (s.drop k) = a ++ AppendRune x →
          ∃ m0, s = m0 ++ AppendRune x := by
        intro a ha
        obtain ⟨m0, hm0⟩ := ih (s.drop k).length (by simp; omega) (s.drop k) rfl a ha
        refine ⟨s.take k ++ m0, ?_⟩
        rw [List.append_assoc, ← hm0, List.take_append_drop]
      rw [he] at h
      rcases List.append_eq_append_iff.mp h with ⟨a, _, hT⟩ | ⟨c, hPc, hEc⟩
      · exact hIH a hT
      · cases c with
        | nil =>
          rw [List.nil_append] at hEc
          exact hIH [] (by rw [List.nil_append, hEc])
        | cons c0 ctl =>
          cases hT : appendString (s.drop k) with
          | cons t0 ttl =>
            exfalso
            rw [hE, hT] at hEc
            simp only [List.cons_append, List.cons.injEq] at hEc
            have hmem : t0 ∈ etl := by rw [hEc.2]; simp
            exact appendString_head _ _ _ hT (hetl t0 hmem)
          | nil =>
            rw [hT, List.append_nil] at hEc
            have hdrop : s.drop k = [] := by
              by_contra hne
              exact appendString_ne_nil _ hne hT
            rw [← hEc] at hPc
            have hm : m = [] := by
              cases m with
              | nil => rfl
              | cons m0 mtl =>
                exfalso
                rw [hP, hE] at hPc
                simp only [List.cons_append, List.cons.injEq] at hPc
                have hmem : e0 ∈ ptl := by rw [hPc.2]; simp
                exact he0 (hptl e0 hmem)
            rw [hm, List.nil_append] at hPc
            have hyx : y = x := AppendRune_inj y x hv hxv hPc
            rcases htk with htk | ⟨hy, _, _⟩
            · refine ⟨[], ?_⟩
              have hs2 : s = s.take k := by
                conv_lhs => rw [← List.take_append_drop k s, hdrop, List.append_nil]
              rw [List.nil_append, hs2, htk, hyx]
            · exfalso
              rw [← hyx, hy, strings.IsSpace_RuneError] at hx
              exact absurd hx (by simp)

/-- What `appendString` writes for a string whose first rune is valid starts with the same
rune. -/
theorem DecodeRuneInString_appendString (s : GoString) (hs : s ≠ [])
    (h : DecodeRuneInString s ≠ (RuneError, 1)) :
    DecodeRuneInString (appendString s) = DecodeRuneInString s := by
  obtain ⟨hv, hse, hlen⟩ := AppendRune_DecodeRuneInString s hs h
  obtain ⟨y, k, hyv, _, _, he, _, hy⟩ := appendString_step s hs
  have hy2 := hy h
  subst hy2
  rw [he, DecodeRuneInString_AppendRune _ hv, hlen]

end json

/-! ## The claims, continued -/

/-- C2 as stated fails: for `GET /hello-world?name=A%FF%FE` the trimmed name is the bytes
41 FF FE, non-empty and accepted by `isFirstHalfAlphabet`; the status is 200 and the
message is "Hello A" followed by U+FFFD twice, which is not "Hello " followed by the
trimmed name. -/
theorem C2_invalid_utf8_counterexample :
    strings.TrimSpace [0x41, 0xFF, 0xFE] = [0x41, 0xFF, 0xFE] ∧
    isFirstHalfAlphabet [0x41, 0xFF, 0xFE] = true ∧
    (serve (newHelloWorldRequest http.MethodGet [0x41, 0xFF, 0xFE])).Code = 200 ∧
    (serve (newHelloWorldRequest http.MethodGet [0x41, 0xFF, 0xFE])).Body =
      [.response ⟨ascii "Hello " ++ [0x41, 0xEF, 0xBF, 0xBD, 0xEF, 0xBF, 0xBD]⟩] ∧
    (serve (newHelloWorldRequest http.MethodGet [0x41, 0xFF, 0xFE])).Body ≠
      [.response ⟨ascii "Hello " ++ strings.TrimSpace [0x41, 0xFF, 0xFE]⟩] := by
  decide

/-- C2: a GET request whose trimmed name is non-empty and accepted by
`isFirstHalfAlphabet` gets status 200 and a `Response` whose message is "Hello " followed
by the trimmed name in which every byte that is not part of a valid UTF-8 encoding is
replaced by U+FFFD; when the trimmed name is valid UTF-8 the message is exactly "Hello "
followed by the trimmed name. The trimmed name is a contiguous part of the parameter, so
its characters, letter case and interior white space included, are those of the input. -/
theorem C2_success (r : http.Request) (hm : r.Method = http.MethodGet)
    (hne : strings.TrimSpace (r.Query.Get (ascii "name")) ≠ [])
    (hok : isFirstHalfAlphabet (strings.TrimSpace (r.Query.Get (ascii "name"))) = true) :
    (serve r).Code = 200 ∧ (serve r).wroteHeader = true ∧
    (serve r).Body =
      [.response ⟨ascii "Hello " ++
        json.appendString (strings.TrimSpace (r.Query.Get (ascii "name")))⟩] ∧
    strings.TrimSpace (r.Query.Get (ascii "name")) <:+: r.Query.Get (ascii "name") ∧
    (∀ rs : List Nat, (∀ x ∈ rs, ValidRune x = true) →
      strings.TrimSpace (r.Query.Get (ascii "name")) = stringOfRunes rs →
      (serve r).Body =
        [.response ⟨ascii "Hello " ++ strings.TrimSpace (r.Query.Get (ascii "name"))⟩]) := by
  rw [serve_eq]
  refine ⟨by simp [hm, hne, hok], by simp [hm, hne, hok], by simp [hm, hne, hok],
    strings.TrimSpace_infix _, ?_⟩
  intro rs hrs he
  have hv := json.appendString_stringOfRunes rs hrs
  rw [← he] at hv
  simp [hm, hne, hok, hv]

/-- Witness of C2: `GET /hello-world?name=bob` padded with spaces answers "Hello bob". -/
theorem C2_success_witness :
    (serve (newHelloWorldRequest (ascii "GET") (ascii "  bob "))).Code = 200 ∧
    (serve (newHelloWorldRequest (ascii "GET") (ascii "  bob "))).Body =
      [.response ⟨ascii "Hello bob"⟩] :=
  have h := C2_success (newHelloWorldRequest (ascii "GET") (ascii "  bob ")) (by decide)
    (by decide) (by decide)
  ⟨h.1, (h.2.2.2.2 [0x62, 0x6F, 0x62] (by decide) (by decide)).trans (by decide)⟩

/-- C11: the handler is a function of the method and the name parameter alone: two
requests with the same method and the same name parameter get the same status, the same
headers and the same body, from any starting state of the recorder. -/
theorem C11_pure_function (w : http.ResponseWriter) (r1 r2 : http.Request)
    (hm : r1.Method = r2.Method)
    (hn : r1.Query.Get (ascii "name") = r2.Query.Get (ascii "name")) :
    helloWorldHandler w r1 = helloWorldHandler w r2 ∧ serve r1 = serve r2 ∧
    (serve r1).Code = (serve r2).Code ∧
    (serve r1).snapHeader.Get (ascii "Content-Type") =
      (serve r2).snapHeader.Get (ascii "Content-Type") ∧
    (serve r1).Body = (serve r2).Body := by
  have h : ∀ w, helloWorldHandler w r1 = helloWorldHandler w r2 := by
    intro w
    simp only [helloWorldHandler, hm, hn]
  have hs : serve r1 = serve r2 := h _
  exact ⟨h w, hs, by rw [hs], by rw [hs], by rw [hs]⟩

/-- Witness of C11: the same method and name, with and without other query parameters. -/
theorem C11_pure_function_witness :
    serve ⟨ascii "GET", [(ascii "lang", [ascii "en"]), (ascii "name", [ascii "Alice", ascii "Zed"])]⟩ =
      serve (newHelloWorldRequest (ascii "GET") (ascii "Alice")) :=
  (C11_pure_function http.NewRecorder
    ⟨ascii "GET", [(ascii "lang", [ascii "en"]), (ascii "name", [ascii "Alice", ascii "Zed"])]⟩
    (newHelloWorldRequest (ascii "GET") (ascii "Alice")) rfl (by decide)).2.1

/-- C12: `isFirstHalfAlphabet` depends only on the first decoded code point of a non-empty
string; in particular the bytes that follow the encoding of a valid first code point,
valid UTF-8 or not, do not matter. -/
theorem C12_first_code_point (s t : GoString) (hs : s ≠ []) (ht : t ≠ [])
    (h : (DecodeRuneInString s).1 = (DecodeRuneInString t).1) :
    isFirstHalfAlphabet s = isFirstHalfAlphabet t ∧
    (∀ r rest, ValidRune r = true →
      isFirstHalfAlphabet (AppendRune r ++ rest) = isFirstHalfAlphabet (AppendRune r)) := by
  constructor
  · unfold isFirstHalfAlphabet
    simp only [hs, ht, if_false, h]
  · intro r rest hv
    have h1 := DecodeRuneInString_AppendRune r hv rest
    have h2 := DecodeRuneInString_AppendRune r hv []
    rw [List.append_nil] at h2
    have hne : AppendRune r ≠ [] := AppendRune_ne_nil r
    unfold isFirstHalfAlphabet
    simp only [hne, List.append_eq_nil, false_and, if_false, h1, h2]

/-- Witness of C12: "A" followed by the bytes FF FE is classified as "Alice". -/
theorem C12_first_code_point_witness :
    isFirstHalfAlphabet [0x41, 0xFF, 0xFE] = isFirstHalfAlphabet (ascii "Alice") :=
  (C12_first_code_point [0x41, 0xFF, 0xFE] (ascii "Alice") (by decide) (by decide)
    (by decide)).1

/-- C13: `isFirstHalfAlphabet` returns a boolean for every byte string, and it returns
false for every string that does not start with the UTF-8 encoding of a valid code point
(a lone continuation byte, a truncated sequence, an overlong or a surrogate encoding). -/
theorem C13_invalid_leading_bytes (s : GoString)
    (h : ¬ ∃ r rest, ValidRune r = true ∧ s = AppendRune r ++ rest) :
    isFirstHalfAlphabet s = false ∧
    (∀ t, isFirstHalfAlphabet t = true ∨ isFirstHalfAlphabet t = false) := by
  constructor
  · apply isFirstHalfAlphabet_of_error
    by_cases hs : s = []
    · exact Or.inl hs
    · right
      by_contra hd
      obtain ⟨hv, he, _⟩ := AppendRune_DecodeRuneInString s hs hd
      exact h ⟨_, _, hv, he⟩
  · intro t
    cases isFirstHalfAlphabet t <;> simp

/-- Witness of C13: the overlong encoding C1 81 of "A", followed by "lice". -/
theorem C13_invalid_leading_bytes_witness :
    isFirstHalfAlphabet ([0xC1, 0x81] ++ ascii "lice") = false :=
  (C13_invalid_leading_bytes ([0xC1, 0x81] ++ ascii "lice")
    (no_encoding_of_error _ (by decide))).1

/-- C14: whenever the handler responds 200, the name echoed after "Hello " is the trimmed
parameter as JSON carries it; it is non-empty, its first character is a validly encoded
letter, and it neither starts nor ends with a white space character; so the message is
never just "Hello " and never "Hello " followed by white space. The same holds of the
trimmed parameter itself. -/
theorem C14_echoed_name (r : http.Request) (h : (serve r).Code = 200) :
    ∃ name trimmed, (serve r).Body = [.response ⟨ascii "Hello " ++ name⟩] ∧
      trimmed = strings.TrimSpace (r.Query.Get (ascii "name")) ∧
      name = json.appendString trimmed ∧
      name ≠ [] ∧ ascii "Hello " ++ name ≠ ascii "Hello " ∧
      DecodeRuneInString name ≠ (RuneError, 1) ∧
      unicode.IsLetter (DecodeRuneInString name).1 = true ∧
      (∀ x rest, unicode.IsSpace x = true → name ≠ AppendRune x ++ rest) ∧
      (∀ x m, unicode.IsSpace x = true → name ≠ m ++ AppendRune x) ∧
      trimmed ≠ [] ∧
      DecodeRuneInString trimmed ≠ (RuneError, 1) ∧
      unicode.IsLetter (DecodeRuneInString trimmed).1 = true ∧
      (∀ x rest, unicode.IsSpace x = true → trimmed ≠ AppendRune x ++ rest) ∧
      (∀ x m, unicode.IsSpace x = true → trimmed ≠ m ++ AppendRune x) := by
  rw [serve_eq] at h ⊢
  by_cases hm : r.Method = http.MethodGet
  · by_cases hn : strings.TrimSpace (r.Query.Get (ascii "name")) = [] ∨
        isFirstHalfAlphabet (strings.TrimSpace (r.Query.Get (ascii "name"))) = false
    · simp [hm, hn] at h
    · have hne : strings.TrimSpace (r.Query.Get (ascii "name")) ≠ [] := fun e => hn (Or.inl e)
      have hok : isFirstHalfAlphabet (strings.TrimSpace (r.Query.Get (ascii "name"))) = true := by
        by_contra e
        exact hn (Or.inr (by simpa using e))
      obtain ⟨_, hr, hl⟩ := isFirstHalfAlphabet_letter _ hok
      have hd : DecodeRuneInString (strings.TrimSpace (r.Query.Get (ascii "name"))) ≠
          (RuneError, 1) := by
        intro e
        exact hr (by rw [e])
      have hdec := json.DecodeRuneInString_appendString _ hne hd
      have hne2 := json.appendString_ne_nil _ hne
      refine ⟨json.appendString (strings.TrimSpace (r.Query.Get (ascii "name"))),
        strings.TrimSpace (r.Query.Get (ascii "name")), ?_, rfl, rfl, hne2, ?_, ?_, ?_, ?_, ?_,
        hne, hd, hl, ?_, ?_⟩
      · simp [hm, hn]
      · simpa using hne2
      · rw [hdec]
        exact hd
      · rw [hdec]
        exact hl
      · intro x rest hx e
        obtain ⟨_, _, h3, _⟩ := space_enc x hx
        rw [e, h3 rest] at hdec
        have hx2 : x = (DecodeRuneInString (strings.TrimSpace (r.Query.Get (ascii "name")))).1 :=
          congrArg Prod.fst hdec
        rw [← hx2, (json.spaceRunes_valid x (IsSpace_mem x hx)).2] at hl
        exact absurd hl (by simp)
      · intro x m hx e
        obtain ⟨m0, hm0⟩ := json.appendString_trailing x hx _ m e
        exact TrimSpace_no_trailing_space _ x hx m0 hm0
      · intro x rest hx
        exact TrimSpace_no_leading_space _ x hx rest
      · intro x m hx
        exact TrimSpace_no_trailing_space _ x hx m
  · simp [hm] at h

/-- Witness of C14: the name "bob" between spaces. -/
theorem C14_echoed_name_witness :
    ∃ name, (serve (newHelloWorldRequest (ascii "GET") (ascii " bob "))).Body =
        [.response ⟨ascii "Hello " ++ name⟩] ∧ name ≠ [] :=
  have h := C14_echoed_name (newHelloWorldRequest (ascii "GET") (ascii " bob ")) (by decide)
  h.elim fun name h1 => h1.elim fun _ hn => ⟨name, hn.1, hn.2.2.2.1⟩

/-- C15: the empty-name guard of the handler is redundant: the handler with the condition
`!isFirstHalfAlphabet(name)` alone returns the same response for every request, because
`isFirstHalfAlphabet("")` is false. -/
theorem C15_empty_guard_redundant (w : http.ResponseWriter) (r : http.Request) :
    helloWorldHandler w r = helloWorldHandler_noEmptyGuard w r ∧
    isFirstHalfAlphabet [] = false := by
  refine ⟨?_, rfl⟩
  unfold helloWorldHandler helloWorldHandler_noEmptyGuard
  by_cases hn : strings.TrimSpace (r.Query.Get (ascii "name")) = []
  · have : isFirstHalfAlphabet [] = false := rfl
    simp [hn, this]
  · simp [hn]

set_option maxRecDepth 100000 in
/-- C16: the `first == utf8.RuneError` check does not change the result of
`isFirstHalfAlphabet`, because U+FFFD is not a letter; a string that begins with the valid
encoding EF BF BD of U+FFFD is rejected, with or without the check. -/
theorem C16_rune_error_check_redundant (s rest : GoString) :
    isFirstHalfAlphabet s = isFirstHalfAlphabet_noRuneErrorCheck s ∧
    unicode.IsLetter RuneError = false ∧
    ValidRune RuneError = true ∧ AppendRune RuneError = [0xEF, 0xBF, 0xBD] ∧
    isFirstHalfAlphabet (AppendRune RuneError ++ rest) = false ∧
    isFirstHalfAlphabet_noRuneErrorCheck (AppendRune RuneError ++ rest) = false := by
  have hl : unicode.IsLetter RuneError = false := IsLetter_RuneError
  have hv : ValidRune RuneError = true := by decide
  have hd := DecodeRuneInString_AppendRune RuneError hv rest
  refine ⟨?_, hl, hv, by decide, ?_, ?_⟩
  · unfold isFirstHalfAlphabet isFirstHalfAlphabet_noRuneErrorCheck
    by_cases hs : s = []
    · simp [hs]
    · by_cases hr : (DecodeRuneInString s).1 = RuneError
      · simp [hs, hr, hl]
      · simp [hs, hr]
  · unfold isFirstHalfAlphabet
    simp [hd]
  · unfold isFirstHalfAlphabet_noRuneErrorCheck
    simp [hd, hl, AppendRune_ne_nil]

end GoTask
